import Mathlib

/-!
Verification development for the Teaching-Event Normalization & Layout Engine
(`backend/app/services/ai_service.py`).

The Python functions are shallowly embedded as Lean definitions:

* dictionaries with a known key set become structures with `Option` fields
  (an absent key is `none`);
* Python floats are modelled as exact rationals (`ℚ`), Python ints as `ℤ`;
  where the int/float *type* distinction is observable (the `duration`
  field), values are tagged with a `PyNum` sum type mirroring `int(...)`
  coercions and `max` on mixed arguments;
* the random uuid suffixes of generated ids are modelled deterministically
  by a structured `EventId` type (in the source the suffix only serves
  collision resistance);
* `str.strip` / `str.lower` / `str.split` / substring tests are modelled
  directly on the character list of the string.
-/

namespace Doceo

/-! ## Python string helpers -/

/-- Python `str.strip()` on the character list. -/
def pyStrip (s : String) : String :=
  ⟨((s.data.dropWhile Char.isWhitespace).reverse.dropWhile Char.isWhitespace).reverse⟩

/-- Python `str.lower()` (per-character lowercasing). -/
def pyLower (s : String) : String :=
  ⟨s.data.map Char.toLower⟩

/-- Does `l` start with the pattern `p`? -/
def charsLeading : List Char → List Char → Bool
  | [], _ => true
  | _ :: _, [] => false
  | p :: ps, c :: cs => p = c && charsLeading ps cs

/-- Does the pattern occur anywhere in `l`? -/
def charsAnywhere (pat : List Char) : List Char → Bool
  | [] => charsLeading pat []
  | c :: cs => charsLeading pat (c :: cs) || charsAnywhere pat cs

/-- Python `pat in s` (substring containment). -/
def pyIn (pat s : String) : Bool :=
  charsAnywhere pat.data s.data

/-- Python `s.endswith(":")`. -/
def endsWithColon (s : String) : Bool :=
  s.data.getLast? = some ':'

/-- Python `len(s.split())`: number of whitespace-separated words. -/
def wordCount (s : String) : ℕ :=
  ((s.data.splitOnP Char.isWhitespace).filter (fun w => ¬ w.isEmpty)).length

/-- Python truthiness of an optional string (`None` and `""` are falsy). -/
def strTruthy : Option String → Bool
  | some s => s ≠ ""
  | none => false

/-! ## Python numbers

`PyNum` records whether a runtime value is a Python `int` or `float`;
float arithmetic is modelled as exact rational arithmetic (rounding error
is not modelled — only the int/float tag is claim-relevant). -/

inductive PyNum where
  | int (z : ℤ)
  | float (q : ℚ)
  deriving Repr, DecidableEq

def PyNum.toQ : PyNum → ℚ
  | .int z => (z : ℚ)
  | .float q => q

def PyNum.isInt : PyNum → Bool
  | .int _ => true
  | .float _ => false

/-- Python `max(a, b)`: returns the second argument only when strictly
greater, so the result keeps the type tag of the chosen argument. -/
def pyMax (a b : PyNum) : PyNum :=
  if a.toQ < b.toQ then b else a

/-! ## Event ids

`_generate_event_id(step, idx)` returns `"s{step}_e{idx}_{uuid4hex6}"`; the
uuid suffix is modelled away (deterministic), keeping the structured part. -/

inductive EventId where
  /-- `_generate_event_id(step_number, event_index)` -/
  | gen (step : ℤ) (idx : ℕ)
  /-- `f"{idPfx}_{i}_{uuid}"` for chat-stream events (`step_number is None`) -/
  | chatIdx (i : ℕ)
  /-- `f"{group_id}_clear_{k}"` cleanup ids of the chat overlay adapter -/
  | chatClear (k : ℕ)
  /-- `f"{group_id}_pause"` trailing pause id of the chat overlay adapter -/
  | chatPause
  /-- a plain string id present in raw input data -/
  | str (s : String)
  deriving Repr, DecidableEq

/-- The shared group id of one chat-adapter call, `f"chat_{uuid4hex8}"`
with the uuid modelled deterministically. -/
def chatGroupId : String := "chat_group"

/-! ## Payload and raw events -/

/-- `_extract_style` result: the canonical style block. -/
structure StyleBlock where
  color : Option String := none
  stroke_width : Option ℚ := none
  emphasis : Option String := none
  deriving Repr, DecidableEq

/-- The canonical payload dictionary built by `_build_common_payload` and
mutated by the later passes.  An absent key is `none`. -/
structure Payload where
  zone : Option String := none
  anchor : Option String := none
  lane : Option String := none
  intent : Option String := none
  teaching_phase : Option String := none
  scene_template : Option String := none
  slot_role : Option String := none
  scene_id : Option String := none
  transform_chain_id : Option String := none
  sync_hold_ms : Option ℚ := none
  board_page : Option ℤ := none
  slot_index : Option ℤ := none
  reserve_height : Option ℚ := none
  is_page_turn_marker : Option Bool := none
  render_order : Option ℤ := none
  layout_locked : Option Bool := none
  temporary : Option Bool := none
  group_id : Option String := none
  focus_target : Option String := none
  align : Option String := none
  x : Option ℚ := none
  y : Option ℚ := none
  width : Option ℚ := none
  height : Option ℚ := none
  x1 : Option ℚ := none
  y1 : Option ℚ := none
  x2 : Option ℚ := none
  y2 : Option ℚ := none
  cx : Option ℚ := none
  cy : Option ℚ := none
  r : Option ℚ := none
  label : Option String := none
  x_label : Option String := none
  y_label : Option String := none
  ticks : Option ℤ := none
  points : Option (List (ℚ × ℚ)) := none
  style : Option StyleBlock := none
  text : Option String := none
  latex : Option String := none
  display : Option Bool := none
  step_number : Option ℤ := none
  step_title : Option String := none
  annotation_type : Option String := none
  target_id : Option EventId := none
  clear_target : Option String := none
  clear_zone : Option String := none
  clear_id : Option EventId := none
  deriving Repr, DecidableEq

/-- A raw model-emitted event record, with the fields `_build_common_payload`
and the per-type branches of `_process_event_stream` read.  Snake/camel case
aliases (`raw.get("a") or raw.get("aCamel")`) are collapsed into one field;
values failing the source's `isinstance` checks are modelled as `none`. -/
structure RawEvent where
  type : String := "narrate"
  id : Option String := none
  zone : Option String := none
  anchor : Option String := none
  lane : Option String := none
  board_page : Option ℤ := none
  slot_index : Option ℤ := none
  reserve_height : Option ℚ := none
  transform_chain_id : Option String := none
  is_page_turn_marker : Option Bool := none
  align : Option String := none
  group_id : Option String := none
  intent : Option String := none
  temporary : Option Bool := none
  focus_target : Option String := none
  teaching_phase : Option String := none
  scene_template : Option String := none
  scene_id : Option String := none
  slot_role : Option String := none
  sync_hold_ms : Option ℚ := none
  render_order : Option ℤ := none
  layout_locked : Option Bool := none
  x : Option ℚ := none
  y : Option ℚ := none
  width : Option ℚ := none
  height : Option ℚ := none
  x1 : Option ℚ := none
  y1 : Option ℚ := none
  x2 : Option ℚ := none
  y2 : Option ℚ := none
  cx : Option ℚ := none
  cy : Option ℚ := none
  r : Option ℚ := none
  label : Option String := none
  x_label : Option String := none
  y_label : Option String := none
  ticks : Option ℤ := none
  points : Option (List (Option ℚ × Option ℚ)) := none
  style : Option StyleBlock := none
  text : Option String := none
  latex : Option String := none
  display : Option Bool := none
  target : Option String := none
  clear_target : Option String := none
  clear_zone : Option String := none
  clear_id : Option String := none
  /-- the raw `style` key viewed as a string, as the annotate branch reads it
  (`raw.get("style", "highlight")`); the dict view is the `style` field -/
  style_str : Option String := none
  deriving Repr, DecidableEq

/-- A processed teaching event: `{id, type, duration, payload}`. -/
structure Event where
  id : EventId
  type : String
  duration : PyNum
  payload : Payload
  deriving Repr, DecidableEq

/-! ## Constants and default mappings (`ai_service.py` lines 654-739) -/

def BOARD_WIDTH : ℚ := 1600
def BOARD_HEIGHT : ℚ := 900

def ALLOWED_ANCHORS : List String := ["given", "work", "scratch", "final"]
def ALLOWED_ZONES : List String := ["given", "main", "scratch", "final"]
def ALLOWED_INTENTS : List String := ["introduce", "derive", "emphasize", "result", "side_note"]
def ALLOWED_LANES : List String := ["given", "derivation", "scratch", "final"]
def ALLOWED_TEACHING_PHASES : List String := ["setup", "derive", "checkpoint", "result"]
def ALLOWED_SCENE_TEMPLATES : List String :=
  ["given_intro", "derive_chain", "scratch_note", "final_result"]
def ALLOWED_SLOT_ROLES : List String := ["heading", "equation", "explanation", "result"]

/-- Membership of an optional string in an allowed set (`x in ALLOWED`,
false for an absent value). -/
def memAllowed (x : Option String) (allowed : List String) : Bool :=
  match x with
  | some s => s ∈ allowed
  | none => false

/-- `_LANE_HEIGHT_BUDGET`; an unknown key raises `KeyError` in the source
and is unreachable after normalization (modelled as 0). -/
def LANE_HEIGHT_BUDGET (lane : String) : ℚ :=
  if lane = "given" then 168
  else if lane = "derivation" then 444
  else if lane = "scratch" then 638
  else if lane = "final" then 132
  else 0

def anchor_to_zone (anchor : String) : String :=
  if anchor = "work" then "main" else anchor

def zone_to_anchor (zone : String) : String :=
  if zone = "main" then "work" else zone

def anchor_to_lane (anchor : String) : String :=
  if anchor = "work" then "derivation" else anchor

def lane_to_anchor (lane : String) : String :=
  if lane = "derivation" then "work" else lane

def DIAGRAM_TYPES : List String :=
  ["draw_axes", "plot_curve", "draw_line", "draw_arrow", "draw_rect", "draw_circle"]

def _default_anchor_for_event (event_type : String) (payload : Payload) : String :=
  if memAllowed payload.anchor ALLOWED_ANCHORS then payload.anchor.getD ""
  else if memAllowed payload.zone ALLOWED_ZONES then zone_to_anchor (payload.zone.getD "")
  else if event_type ∈ DIAGRAM_TYPES then "scratch"
  else "work"

def _infer_scene_template (anchor : String) (event_type : String) : String :=
  if anchor = "given" then "given_intro"
  else if anchor = "scratch" then "scratch_note"
  else if anchor = "final" then "final_result"
  else if event_type = "write_equation" then "derive_chain"
  else "derive_chain"

def _infer_slot_role (event_type : String) (payload : Payload) (anchor : String) : String :=
  if anchor = "final" ∨ payload.intent = some "result" then "result"
  else if event_type = "write_equation" then "equation"
  else if event_type = "write_text" then
    let text := pyLower (pyStrip (payload.text.getD ""))
    if endsWithColon text ∨ text ∈ ["given", "work", "scratch", "final"] then "heading"
    else "explanation"
  else "explanation"

def _default_sync_hold_ms (payload : Payload) : ℚ :=
  if payload.teaching_phase = some "result" ∨ payload.intent = some "result" then 280
  else if payload.teaching_phase = some "checkpoint" ∨ payload.intent = some "emphasize" then 220
  else if payload.teaching_phase = some "setup" then 160
  else 120

/-! ## `_normalize_payload_semantics`, split into its sequential blocks -/

/-- Lines 743-745: a supplied lane determines the anchor. -/
def alzLaneToAnchor (p : Payload) : Payload :=
  if memAllowed p.lane ALLOWED_LANES then
    { p with anchor := some (lane_to_anchor (p.lane.getD "")) }
  else p

/-- Lines 747-750: default an invalid/absent anchor. -/
def alzDefaultAnchor (p : Payload) (event_type : String) : Payload :=
  if memAllowed p.anchor ALLOWED_ANCHORS then p
  else { p with anchor := some (_default_anchor_for_event event_type p) }

/-- Lines 752-753: derive a missing lane from the anchor. -/
def alzLaneFromAnchor (p : Payload) : Payload :=
  if memAllowed p.lane ALLOWED_LANES then p
  else { p with lane := some (anchor_to_lane (p.anchor.getD "")) }

/-- Lines 755-759: keep a valid zone, else derive it from the anchor
(the `elif "anchor" not in payload` arm: the anchor key is always present
by this point). -/
def alzZone (p : Payload) : Payload :=
  if memAllowed p.zone ALLOWED_ZONES then
    if p.anchor.isSome then p
    else { p with anchor := some (zone_to_anchor (p.zone.getD "")) }
  else { p with zone := some (anchor_to_zone (p.anchor.getD "")) }

/-- Lines 743-759: resolve the `lane`/`anchor`/`zone` part of the tuple. -/
def resolveAnchorLaneZone (p : Payload) (event_type : String) : Payload :=
  alzZone (alzLaneFromAnchor (alzDefaultAnchor (alzLaneToAnchor p) event_type))

/-- Lines 761-769: default the `intent` from the anchor. -/
def resolveIntent (p : Payload) : Payload :=
  if memAllowed p.intent ALLOWED_INTENTS then p
  else if p.anchor = some "given" then { p with intent := some "introduce" }
  else if p.anchor = some "final" then { p with intent := some "result" }
  else if p.anchor = some "scratch" then { p with intent := some "side_note" }
  else { p with intent := some "derive" }

/-- Lines 771-781: default the `teaching_phase` from the intent. -/
def resolvePhase (p : Payload) : Payload :=
  if memAllowed p.teaching_phase ALLOWED_TEACHING_PHASES then p
  else if p.intent = some "introduce" then { p with teaching_phase := some "setup" }
  else if p.intent = some "result" then { p with teaching_phase := some "result" }
  else if p.intent = some "emphasize" then { p with teaching_phase := some "checkpoint" }
  else { p with teaching_phase := some "derive" }

/-- Lines 783-784: default the `scene_template` from the anchor. -/
def resolveTemplate (p : Payload) (event_type : String) : Payload :=
  if memAllowed p.scene_template ALLOWED_SCENE_TEMPLATES then p
  else { p with scene_template := some (_infer_scene_template (p.anchor.getD "") event_type) }

/-- Lines 786-787: default the `slot_role`. -/
def resolveRole (p : Payload) (event_type : String) : Payload :=
  if memAllowed p.slot_role ALLOWED_SLOT_ROLES then p
  else { p with slot_role := some (_infer_slot_role event_type p (p.anchor.getD "")) }

/-- Lines 789-795: default the `scene_id` from the chain or lane-anchor. -/
def resolveSceneId (p : Payload) : Payload :=
  match p.scene_id with
  | some s =>
    if pyStrip s = "" then resolveSceneIdMissing p else p
  | none => resolveSceneIdMissing p
where
  resolveSceneIdMissing (p : Payload) : Payload :=
    match p.transform_chain_id with
    | some c =>
      if pyStrip c = "" then { p with scene_id := some ((p.lane.getD "") ++ "-" ++ (p.anchor.getD "")) }
      else { p with scene_id := some (pyStrip c) }
    | none => { p with scene_id := some ((p.lane.getD "") ++ "-" ++ (p.anchor.getD "")) }

/-- Lines 797-799: default the `sync_hold_ms`. -/
def resolveSyncHold (p : Payload) : Payload :=
  match p.sync_hold_ms with
  | some _ => p
  | none => { p with sync_hold_ms := some (_default_sync_hold_ms p) }

/-- `_normalize_payload_semantics` (lines 742-799). -/
def _normalize_payload_semantics (p : Payload) (event_type : String) : Payload :=
  resolveSyncHold (resolveSceneId (resolveRole
    (resolveTemplate (resolvePhase (resolveIntent
      (resolveAnchorLaneZone p event_type))) event_type) event_type))

/-! ## `_clamp_payload_coordinates` (lines 802-833) -/

def _clamp_payload_coordinates (p : Payload) : Payload :=
  { p with
    board_page := p.board_page.map (fun bp => min (max bp 0) 8)
    slot_index := p.slot_index.map (fun si => max si 0)
    reserve_height := p.reserve_height.map (fun rh => max 28 (min rh 240))
    x := p.x.map (fun v => min (max v 0) (BOARD_WIDTH - 20))
    y := p.y.map (fun v => min (max v 0) (BOARD_HEIGHT - 20))
    x1 := p.x1.map (fun v => min (max v 0) BOARD_WIDTH)
    x2 := p.x2.map (fun v => min (max v 0) BOARD_WIDTH)
    cx := p.cx.map (fun v => min (max v 0) BOARD_WIDTH)
    y1 := p.y1.map (fun v => min (max v 0) BOARD_HEIGHT)
    y2 := p.y2.map (fun v => min (max v 0) BOARD_HEIGHT)
    cy := p.cy.map (fun v => min (max v 0) BOARD_HEIGHT)
    width := p.width.map (fun v => max 40 (min v BOARD_WIDTH))
    height := p.height.map (fun v => max 24 (min v BOARD_HEIGHT))
    r := p.r.map (fun v => max 10 (min v 420)) }

/-! ## `_build_common_payload` (lines 836-937) -/

/-- `_extract_points`: keep only entries with numeric `x` and `y`;
an empty result becomes `None`. -/
def _extract_points (raw : Option (List (Option ℚ × Option ℚ))) : Option (List (ℚ × ℚ)) :=
  match raw with
  | none => none
  | some l =>
    let pts := l.filterMap (fun q =>
      match q.1, q.2 with
      | some a, some b => some (a, b)
      | _, _ => none)
    if pts = [] then none else some pts

/-- Keep a string only when `strip()` of it is nonempty, storing the
stripped value. -/
def keepStripped (s : Option String) : Option String :=
  match s with
  | some v => if pyStrip v = "" then none else some (pyStrip v)
  | none => none

def _build_common_payload (raw : RawEvent) : Payload :=
  _clamp_payload_coordinates
  { zone := if memAllowed raw.zone ALLOWED_ZONES then raw.zone else none
    anchor := if memAllowed raw.anchor ALLOWED_ANCHORS then raw.anchor else none
    lane := if memAllowed raw.lane ALLOWED_LANES then raw.lane else none
    board_page := raw.board_page
    slot_index := raw.slot_index
    reserve_height := raw.reserve_height
    transform_chain_id := keepStripped raw.transform_chain_id
    is_page_turn_marker := raw.is_page_turn_marker
    align := if memAllowed raw.align ["left", "center", "right"] then raw.align else none
    group_id := keepStripped raw.group_id
    intent := if memAllowed raw.intent ALLOWED_INTENTS then raw.intent else none
    temporary := raw.temporary
    focus_target := keepStripped raw.focus_target
    teaching_phase :=
      if memAllowed raw.teaching_phase ALLOWED_TEACHING_PHASES then raw.teaching_phase else none
    scene_template :=
      if memAllowed raw.scene_template ALLOWED_SCENE_TEMPLATES then raw.scene_template else none
    scene_id := keepStripped raw.scene_id
    slot_role := if memAllowed raw.slot_role ALLOWED_SLOT_ROLES then raw.slot_role else none
    sync_hold_ms := raw.sync_hold_ms.map (fun v => max 0 (min v 1200))
    render_order := raw.render_order.map (fun v => max v 0)
    layout_locked := raw.layout_locked
    x := raw.x, y := raw.y, width := raw.width, height := raw.height
    x1 := raw.x1, y1 := raw.y1, x2 := raw.x2, y2 := raw.y2
    cx := raw.cx, cy := raw.cy, r := raw.r
    label := raw.label, x_label := raw.x_label, y_label := raw.y_label
    ticks := raw.ticks
    points := _extract_points raw.points
    style := raw.style }

/-! ## Duration and reserve-height estimation (lines 940-987) -/

def _estimate_event_duration_ms (event_type : String) (raw : RawEvent) : ℤ :=
  if event_type = "narrate" then
    max 1500 (⌊((wordCount (raw.text.getD "") : ℚ) / 2.5) * 1000⌋)
  else if event_type = "write_equation" then
    max 1200 ((raw.latex.getD "").length * 50)
  else if event_type = "write_text" then
    max 800 ((raw.text.getD "").length * 30)
  else if event_type ∈ ["draw_line", "draw_arrow"] then 900
  else if event_type ∈ ["draw_rect", "draw_circle"] then 1000
  else if event_type = "draw_axes" then 1300
  else if event_type = "plot_curve" then
    max 1000 (450 + ((_extract_points raw.points).getD []).length * 80)
  else if event_type = "annotate" then 600
  else if event_type = "clear_section" then 400
  else if event_type = "pause" then 1200
  else 800

/-- Count the occurrences of a pattern by scanning every position; for the
patterns used by the complexity score (single characters, `\sqrt`, `\frac`)
this coincides with Python's non-overlapping `str.count`. -/
def countPat (pat : List Char) : List Char → ℕ
  | [] => 0
  | c :: cs => (if charsLeading pat (c :: cs) then 1 else 0) + countPat pat cs

def _latex_complexity_score (latex : String) : ℚ :=
  let operators : ℕ := (["=", "+", "-", "*", "/"].map
    (fun op => countPat op.data latex.data)).sum
  let radicals : ℕ := countPat "\\sqrt".data latex.data
  let fractions : ℕ := countPat "\\frac".data latex.data
  (latex.length : ℚ) * 0.55 + (operators : ℚ) * 5 + (radicals : ℚ) * 8 + (fractions : ℚ) * 10

/-- `_default_reserve_height(event_type, raw)`; the source passes a dict and
reads `latex`/`text` from it, so the two fields are passed explicitly. -/
def _default_reserve_height (event_type : String) (latex text : String) : Option ℚ :=
  if event_type = "write_equation" then
    some (max 56 (min 150 (56 + _latex_complexity_score latex * 0.14)))
  else if event_type = "write_text" then
    some (max 34 (min 90 (34 + (text.length : ℚ) * 0.24)))
  else if event_type ∈ ["draw_line", "draw_arrow"] then some 64
  else if event_type ∈ ["draw_rect", "draw_circle"] then some 96
  else if event_type ∈ ["draw_axes", "plot_curve"] then some 220
  else none

def _is_visual_event (event_type : String) : Bool :=
  event_type ∈ ["write_equation", "write_text", "draw_line", "draw_arrow",
    "draw_rect", "draw_circle", "draw_axes", "plot_curve"]

/-! ## `_process_event_stream` (lines 1003-1118) -/

/-- The per-type payload adjustments of the loop body (lines 1041-1093);
`none` models the `continue` on an unknown event type. -/
def streamTypedPayload (event_type : String) (raw : RawEvent) (payload : Payload)
    (processed : List Event) : Option Payload :=
  if event_type = "narrate" then
    some { payload with text := some (raw.text.getD "") }
  else if event_type = "write_equation" then
    let payload := { payload with
      latex := some (raw.latex.getD ""), display := some (raw.display.getD true),
      width := none, height := none }
    some (_normalize_payload_semantics payload event_type)
  else if event_type = "write_text" then
    let payload := { payload with
      text := some (raw.text.getD ""), width := none, height := none }
    some (_normalize_payload_semantics payload event_type)
  else if event_type = "annotate" then
    let payload := { payload with annotation_type := some (raw.style_str.getD "highlight") }
    let payload := if memAllowed payload.intent ALLOWED_INTENTS then payload
      else { payload with intent := some "emphasize" }
    let payload :=
      if raw.target = some "previous" then
        match processed.reverse.find? (fun prev => _is_visual_event prev.type) with
        | some prev => { payload with target_id := some prev.id }
        | none => payload
      else
        match raw.target with
        | some t => { payload with target_id := some (EventId.str t) }
        | none => payload
    some payload
  else if event_type = "clear_section" then
    let payload := { payload with
      clear_target := if memAllowed raw.clear_target ["zone", "id"] then raw.clear_target else none
      clear_zone :=
        if memAllowed raw.clear_zone ["given", "main", "scratch", "final"] then raw.clear_zone
        else none
      clear_id := raw.clear_id.map EventId.str }
    let payload :=
      if payload.clear_target = none ∧ payload.clear_zone ≠ none then
        { payload with clear_target := some "zone" }
      else payload
    some payload
  else if event_type = "pause" then
    some payload
  else if event_type ∈ ["draw_line", "draw_arrow", "draw_rect", "draw_circle",
      "draw_axes", "plot_curve"] then
    some (_normalize_payload_semantics payload event_type)
  else
    none

/-- Chain/reserve handling for visual events (lines 1095-1109): default the
reserve height, and thread the open derivation chain id. -/
def streamVisualAdjust (event_type : String) (raw : RawEvent) (payload : Payload)
    (chain : Option String) (step_number : Option ℤ) (idPfx : String) :
    Payload × Option String :=
  if _is_visual_event event_type then
    let payload :=
      match payload.reserve_height with
      | none =>
        match _default_reserve_height event_type (raw.latex.getD "") (raw.text.getD "") with
        | some reserve => { payload with reserve_height := some reserve }
        | none => payload
      | some _ => payload
    if payload.lane = some "derivation" ∧ event_type ∈ ["write_equation", "write_text"] then
      if strTruthy payload.transform_chain_id then
        (payload, payload.transform_chain_id)
      else
        let c := match chain with
          | some c => c
          | none => idPfx ++ "_chain_" ++ toString (step_number.getD 0)
        ({ payload with transform_chain_id := some c }, some c)
    else if event_type ≠ "annotate" then
      (payload, none)
    else
      (payload, chain)
  else
    (payload, chain)

def streamGo (step_number : Option ℤ) (idPfx : String) :
    ℕ → ℕ → List Event → Option String → List RawEvent → List Event
  | _, _, _, _, [] => []
  | i, offset, processed, chain, raw :: rest =>
    let event_type := raw.type
    let event_id : EventId := match step_number with
      | some n => EventId.gen n (i + offset)
      | none => EventId.chatIdx i
    let payload := _build_common_payload raw
    let payload := match step_number with
      | some n => { payload with step_number := some n }
      | none => payload
    match streamTypedPayload event_type raw payload processed with
    | none => streamGo step_number idPfx (i + 1) offset processed chain rest
    | some payload =>
      let (payload, chain) :=
        streamVisualAdjust event_type raw payload chain step_number idPfx
      let ev : Event :=
        { id := event_id, type := event_type,
          duration := .int (_estimate_event_duration_ms event_type raw), payload := payload }
      ev :: streamGo step_number idPfx (i + 1) offset (processed ++ [ev]) chain rest

def _process_event_stream (raw_events : List RawEvent) (step_number : Option ℤ)
    (step_title : Option String) (with_step_marker : Bool) (idPfx : String) :
    List Event :=
  match step_number, with_step_marker with
  | some n, true =>
    let title := if strTruthy step_title then step_title.getD ""
      else "Step " ++ toString n
    let marker : Event :=
      { id := .gen n 0, type := "step_marker", duration := .int 300,
        payload := { step_number := some n, step_title := some title } }
    marker :: streamGo step_number idPfx 0 1 [marker] none raw_events
  | _, _ => streamGo step_number idPfx 0 0 [] none raw_events

/-! ## `_apply_preplanned_board_metadata` (lines 1136-1196)

The per-lane cursor/slot dictionaries (which hold exactly the four lane
keys; any other key would raise `KeyError`, unreachable after
normalization) are modelled as total functions from lane names. -/

/-- `float(payload.get("reserve_height") or _default_reserve_height(event_type,
payload) or 72.0)` with Python falsiness (`0.0` falls through). -/
def effectiveReserve (event_type : String) (q : Payload) : ℚ :=
  let fallback :=
    match _default_reserve_height event_type (q.latex.getD "") (q.text.getD "") with
    | some d => if d = 0 then 72 else d
    | none => 72
  match q.reserve_height with
  | some v => if v = 0 then fallback else v
  | none => fallback

def applyGo (page : ℤ) (chain : Option String) (ro : ℤ)
    (cur : String → ℚ) (slot : String → ℤ) : List Event → List Event
  | [] => []
  | e :: rest =>
    if e.type = "clear_section" then
      let q := match e.payload.board_page with
        | none => { e.payload with board_page := some page }
        | some _ => e.payload
      { e with payload := q } :: applyGo page chain ro cur slot rest
    else if ¬ _is_visual_event e.type then
      e :: applyGo page chain ro cur slot rest
    else
      let q := _normalize_payload_semantics e.payload e.type
      let lane := q.lane.getD "derivation"
      let reserve := effectiveReserve e.type q
      let qc :=
        if q.lane = some "derivation" ∧ e.type ∈ ["write_equation", "write_text"] then
          if strTruthy q.transform_chain_id then (q, q.transform_chain_id)
          else
            let c := match chain with
              | some c => c
              | none => "step_chain_" ++ toString (q.step_number.getD 0)
            ({ q with transform_chain_id := some c }, some c)
        else (q, none)
      let q := qc.1
      let chain := qc.2
      let st :=
        match q.board_page with
        | some bp => (min (max bp 0) 8, cur, slot, q)
        | none =>
          if LANE_HEIGHT_BUDGET lane < cur lane + reserve then
            let page := min (page + 1) 8
            ((page : ℤ), (fun _ => (8 : ℚ)), (fun _ => (0 : ℤ)),
              { q with is_page_turn_marker := some true, board_page := some page })
          else
            (page, cur, slot, { q with board_page := some page })
      let page := st.1
      let cur := st.2.1
      let slot := st.2.2.1
      let q := st.2.2.2
      let q := { q with
        slot_index := some (q.slot_index.getD (slot lane)),
        reserve_height := some reserve,
        render_order := some ro,
        layout_locked := some true }
      { e with payload := q } :: applyGo page chain (ro + 1)
        (Function.update cur lane (cur lane + reserve + 14))
        (Function.update slot lane (slot lane + 1)) rest

def _apply_preplanned_board_metadata (events : List Event) : List Event :=
  applyGo 0 none 0 (fun _ => 8) (fun _ => 0) events

/-! ## `_repair_step_events` (lines 1199-1325), block by block -/

/-- Python `list.insert(n, a)` (clamping `n` to the length). -/
def insertAt (n : ℕ) (a : α) : List α → List α
  | [] => [a]
  | x :: xs =>
    match n with
    | 0 => a :: x :: xs
    | m + 1 => x :: insertAt m a xs

def synthNarrate (n : ℤ) (t : String) : Event :=
  { id := .gen n 900, type := "narrate", duration := .int 1800,
    payload := { text := some ("Let's work through " ++ t ++ "."), step_number := some n } }

/-- Lines 1213-1223: ensure there is at least one narrate event. -/
def ensureNarrate (evs : List Event) (n : ℤ) (t : String) : List Event :=
  if evs.any (fun e => e.type = "narrate") then evs
  else
    let idx : ℕ := match evs.head? with
      | some e => if e.type = "step_marker" then 1 else 0
      | none => 0
    insertAt idx (synthNarrate n t) evs

def setupNarrate (n : ℤ) (t : String) : Event :=
  { id := .gen n 905, type := "narrate", duration := .int 1700,
    payload := { text := some ("First, we set up " ++ pyLower t ++ "."),
                 step_number := some n, teaching_phase := some "setup" } }

/-- Lines 1225-1236: the first content event must be a narrate. -/
def ensureLeadNarrate (evs : List Event) (n : ℤ) (t : String) : List Event :=
  let i : ℕ := match evs.head? with
    | some e => if e.type = "step_marker" then 1 else 0
    | none => 0
  match evs.get? i with
  | some e => if e.type ≠ "narrate" then insertAt i (setupNarrate n t) evs else evs
  | none => evs

def genericVisual (n : ℤ) : Event :=
  { id := .gen n 910, type := "write_text", duration := .int 1100,
    payload := { text := some "Set up the next transformation.", step_number := some n,
                 zone := some "main", anchor := some "work", intent := some "derive" } }

/-- Lines 1238-1252: ensure at least two visual events. -/
def ensureVisuals (evs : List Event) (n : ℤ) : List Event :=
  if evs.countP (fun e => _is_visual_event e.type) < 2 then evs ++ [genericVisual n]
  else evs

def mkAnnotate (n : ℤ) (target : EventId) : Event :=
  { id := .gen n 920, type := "annotate", duration := .int 600,
    payload := { annotation_type := some "highlight", target_id := some target,
                 step_number := some n, intent := some "emphasize" } }

/-- Lines 1254-1270: ensure at least one annotation, targeting the most
recent visual event. -/
def ensureAnnotate (evs : List Event) (n : ℤ) : List Event :=
  if evs.any (fun e => e.type = "annotate") then evs
  else
    match evs.reverse.find? (fun e => _is_visual_event e.type) with
    | some e => evs ++ [mkAnnotate n e.id]
    | none => evs

def checkpointNarrate (n : ℤ) : Event :=
  { id := .gen n 930, type := "narrate", duration := .int 1500,
    payload :=
      { text := some "Notice this transformation and why it keeps the equation consistent.",
        step_number := some n, teaching_phase := some "checkpoint" } }

/-- Lines 1272-1293: ensure a checkpoint narration, inserted after the
first annotate (or appended). -/
def ensureCheckpoint (evs : List Event) (n : ℤ) : List Event :=
  if evs.any (fun e => e.type = "narrate" ∧ e.payload.teaching_phase = some "checkpoint") then
    evs
  else
    let insert_at := match evs.findIdx? (fun e => e.type = "annotate") with
      | some idx => idx + 1
      | none => evs.length
    insertAt insert_at (checkpointNarrate n) evs

def mkPause (n : ℤ) : Event :=
  { id := .gen n 999, type := "pause", duration := .int 900,
    payload := { step_number := some n } }

/-- Lines 1295-1302: the step must end with a pause. -/
def ensurePause (evs : List Event) (n : ℤ) : List Event :=
  match evs.getLast? with
  | some e => if e.type ≠ "pause" then evs ++ [mkPause n] else evs
  | none => evs ++ [mkPause n]

/-- Lines 1311-1320: keyword heuristics for a narrate's teaching phase. -/
def classifyNarratePhase (p : Payload) : Payload :=
  if memAllowed p.teaching_phase ALLOWED_TEACHING_PHASES then p
  else
    let text := pyLower (p.text.getD "")
    if pyIn "final" text ∨ pyIn "answer" text then { p with teaching_phase := some "result" }
    else if pyIn "notice" text ∨ pyIn "check" text then
      { p with teaching_phase := some "checkpoint" }
    else if pyIn "first" text ∨ pyIn "given" text then { p with teaching_phase := some "setup" }
    else { p with teaching_phase := some "derive" }

/-- Lines 1304-1321: re-normalize visual payloads, classify narrate phases,
clamp every payload's coordinates. -/
def repairNormalizeEvent (e : Event) : Event :=
  let p := e.payload
  let p := if _is_visual_event e.type then _normalize_payload_semantics p e.type else p
  let p := if e.type = "narrate" then classifyNarratePhase p else p
  { e with payload := _clamp_payload_coordinates p }

def repairNormalizePass (evs : List Event) : List Event :=
  evs.map repairNormalizeEvent

/-- `_repair_step_events` (lines 1199-1325), as the composition of its
sequential blocks. -/
def _repair_step_events (events : List Event) (n : ℤ) (t : String) : List Event :=
  _apply_preplanned_board_metadata (repairNormalizePass
    (ensurePause (ensureCheckpoint (ensureAnnotate (ensureVisuals
      (ensureLeadNarrate (ensureNarrate events n t) n t) n) n) n) n))

/-! ## `_mark_chat_events_temporary` (lines 1328-1400) -/

def CHAT_VISUAL_OR_ANNOT : List String :=
  ["write_equation", "write_text", "draw_line", "draw_arrow", "draw_rect",
    "draw_circle", "draw_axes", "plot_curve", "annotate"]

/-- Lines 1351-1352: tag a retained chat event temporary with the shared
group id. -/
def chatTagPayload (e : Event) : Payload :=
  { e.payload with temporary := some true, group_id := some chatGroupId }

/-- Lines 1354-1357: force the scratch placement and default the intent. -/
def chatForceScratch (p : Payload) : Payload :=
  let p := { p with lane := some "scratch", anchor := some "scratch", zone := some "scratch" }
  if p.intent = none then { p with intent := some "side_note" } else p

/-- Lines 1359-1362: default the reserve height after normalization. -/
def chatDefaultReserve (event_type : String) (p : Payload) : Payload :=
  match p.reserve_height with
  | none =>
    match _default_reserve_height event_type (p.latex.getD "") (p.text.getD "") with
    | some reserve => { p with reserve_height := some reserve }
    | none => p
  | some _ => p

/-- Lines 1350-1364: tag a retained chat event temporary and force visual
events into the scratch lane. -/
def chatAdjustPayload (e : Event) : Payload :=
  if _is_visual_event e.type then
    chatDefaultReserve e.type
      (_normalize_payload_semantics (chatForceScratch (chatTagPayload e)) e.type)
  else chatTagPayload e

/-- Lines 1335-1371: the retention loop; returns the retained events and
the ids of the retained visual events in order. -/
def chatKeep (narrateCount visualCount : ℕ) : List Event → List Event × List EventId
  | [] => ([], [])
  | e :: rest =>
    if e.type = "step_marker" then chatKeep narrateCount visualCount rest
    else if e.type = "narrate" then
      if 1 ≤ narrateCount then chatKeep narrateCount visualCount rest
      else
        let out := chatKeep (narrateCount + 1) visualCount rest
        ({ e with payload := chatAdjustPayload e } :: out.1, out.2)
    else if e.type ∈ CHAT_VISUAL_OR_ANNOT then
      if 4 ≤ visualCount then chatKeep narrateCount visualCount rest
      else
        let out := chatKeep narrateCount (visualCount + 1) rest
        ({ e with payload := chatAdjustPayload e } :: out.1,
          if _is_visual_event e.type then e.id :: out.2 else out.2)
    else if e.type = "pause" then chatKeep narrateCount visualCount rest
    else
      let out := chatKeep narrateCount visualCount rest
      ({ e with payload := chatAdjustPayload e } :: out.1, out.2)

/-- Lines 1373-1387: one synthetic `clear_section` per retained visual id
(`cleanup_index` is 1-based). -/
def mkCleanups (k : ℕ) : List EventId → List Event
  | [] => []
  | id :: ids =>
    { id := .chatClear (k + 1), type := "clear_section", duration := .int 220,
      payload := { clear_target := some "id", clear_id := some id,
                   temporary := some true, group_id := some chatGroupId } }
      :: mkCleanups (k + 1) ids

def chatFinalPause : Event :=
  { id := .chatPause, type := "pause", duration := .int 450,
    payload := { temporary := some true, group_id := some chatGroupId } }

def _mark_chat_events_temporary (events : List Event) : List Event :=
  let kept := chatKeep 0 0 events
  let repaired := kept.1 ++ mkCleanups 0 kept.2
  match repaired.getLast? with
  | some e => if e.type ≠ "pause" then repaired ++ [chatFinalPause] else repaired
  | none => repaired

/-- The chat pipeline of `_parse_chat_response` (lines 1647-1656): process
the raw stream without a step marker, then apply the overlay adapter. -/
def parseChatEvents (raw_events : List RawEvent) : List Event :=
  _mark_chat_events_temporary (_process_event_stream raw_events none none false "chat")

/-! ## `_generate_events_from_content` (lines 1544-1623) -/

structure MathBlock where
  latex : String := ""
  display : Bool := true
  deriving Repr, DecidableEq

structure RawStep where
  step_number : ℤ := 1
  title : String := ""
  content : String := ""
  math_blocks : List MathBlock := []
  deriving Repr, DecidableEq

def fallbackMathEvents (n : ℤ) (j : ℕ) : List MathBlock → List Event
  | [] => []
  | mb :: rest =>
    { id := .gen n (3 + j), type := "write_equation",
      duration := .int (max 1200 (mb.latex.length * 50)),
      payload := { latex := some mb.latex, display := some mb.display,
                   step_number := some n, zone := some "main", anchor := some "work",
                   lane := some "derivation", align := some "left", intent := some "derive",
                   transform_chain_id := some ("s" ++ toString n ++ "_fallback_chain") } }
      :: fallbackMathEvents n (j + 1) rest

def _generate_events_from_content (step : RawStep) : List Event :=
  let n := step.step_number
  let title_text := "Step " ++ toString n ++ ": " ++ step.title
  let marker : Event :=
    { id := .gen n 0, type := "step_marker", duration := .int 300,
      payload := { step_number := some n, step_title := some step.title } }
  let titleNarrate : Event :=
    { id := .gen n 1, type := "narrate",
      duration := pyMax (.int 1500) (.float ((wordCount title_text : ℚ) / 2.5 * 1000)),
      payload := { text := some title_text, step_number := some n,
                   zone := some "given", anchor := some "given", intent := some "introduce" } }
  let contentEvents : List Event :=
    if step.content ≠ "" then
      [{ id := .gen n 2, type := "write_text",
         duration := .int (max 800 (step.content.length * 20)),
         payload := { text := some step.content, step_number := some n,
                      zone := some "main", anchor := some "work", lane := some "derivation",
                      align := some "left", intent := some "derive" } }]
    else []
  let pauseEvent : Event :=
    { id := .gen n 99, type := "pause", duration := .int 1200,
      payload := { step_number := some n } }
  [marker, titleNarrate] ++ contentEvents ++ fallbackMathEvents n 0 step.math_blocks
    ++ [pauseEvent]

/-- The fallback step finalization of `_parse_lesson_response` (lines
1461-1466): synthesize events from flat content, then repair. -/
def finalizeFallbackStep (step : RawStep) : List Event :=
  _repair_step_events (_generate_events_from_content step) step.step_number step.title

/-! ## Observables and concrete inputs used by the verification -/

/-- Does the payload's `(zone, anchor, lane)` triple satisfy the fixed
bijection `work↔main↔derivation`, `given↔given↔given`,
`scratch↔scratch↔scratch`, `final↔final↔final`? -/
def bijectionOK (p : Payload) : Bool :=
  match p.anchor, p.zone, p.lane with
  | some a, some z, some l =>
    a ∈ ALLOWED_ANCHORS && z = anchor_to_zone a && l = anchor_to_lane a
  | _, _, _ => false

/-- Number of visual events in a list. -/
def visualCount (evs : List Event) : ℕ :=
  evs.countP (fun e => _is_visual_event e.type)

/-- The running sum of `reserve_height + 14` over the visual events
assigned to one `(page, lane)` pair. -/
def sumReserve (pg : ℤ) (l : String) : List Event → ℚ
  | [] => 0
  | e :: rest =>
    (if _is_visual_event e.type ∧ e.payload.board_page = some pg ∧ e.payload.lane = some l
      then e.payload.reserve_height.getD 0 + 14 else 0) + sumReserve pg l rest

/-- The §4.4 sentence "If the model supplied an explicit `board_page`,
honor it and reset cursors to baseline" rendered as a variant of `applyGo`
that is identical except that the explicit-page branch also resets the
per-lane cursors and slot counters to baseline; compared against the
code's `applyGo` for claim C6. -/
def applyGoSpecC6 (page : ℤ) (chain : Option String) (ro : ℤ)
    (cur : String → ℚ) (slot : String → ℤ) : List Event → List Event
  | [] => []
  | e :: rest =>
    if e.type = "clear_section" then
      let q := match e.payload.board_page with
        | none => { e.payload with board_page := some page }
        | some _ => e.payload
      { e with payload := q } :: applyGoSpecC6 page chain ro cur slot rest
    else if ¬ _is_visual_event e.type then
      e :: applyGoSpecC6 page chain ro cur slot rest
    else
      let q := _normalize_payload_semantics e.payload e.type
      let lane := q.lane.getD "derivation"
      let reserve := effectiveReserve e.type q
      let qc :=
        if q.lane = some "derivation" ∧ e.type ∈ ["write_equation", "write_text"] then
          if strTruthy q.transform_chain_id then (q, q.transform_chain_id)
          else
            let c := match chain with
              | some c => c
              | none => "step_chain_" ++ toString (q.step_number.getD 0)
            ({ q with transform_chain_id := some c }, some c)
        else (q, none)
      let q := qc.1
      let chain := qc.2
      let st :=
        match q.board_page with
        | some bp =>
          ((min (max bp 0) 8 : ℤ), (fun (_ : String) => (8 : ℚ)), (fun (_ : String) => (0 : ℤ)), q)
        | none =>
          if LANE_HEIGHT_BUDGET lane < cur lane + reserve then
            let page := min (page + 1) 8
            ((page : ℤ), (fun (_ : String) => (8 : ℚ)), (fun (_ : String) => (0 : ℤ)),
              { q with is_page_turn_marker := some true, board_page := some page })
          else
            (page, cur, slot, { q with board_page := some page })
      let page := st.1
      let cur := st.2.1
      let slot := st.2.2.1
      let q := st.2.2.2
      let q := { q with
        slot_index := some (q.slot_index.getD (slot lane)),
        reserve_height := some reserve,
        render_order := some ro,
        layout_locked := some true }
      { e with payload := q } :: applyGoSpecC6 page chain (ro + 1)
        (Function.update cur lane (cur lane + reserve + 14))
        (Function.update slot lane (slot lane + 1)) rest

/-- The spec-worded pagination variant entry point for claim C6. -/
def boardMetadataSpecC6 (events : List Event) : List Event :=
  applyGoSpecC6 0 none 0 (fun _ => 8) (fun _ => 0) events

/-- A raw event that supplies the mutually inconsistent pair
`zone=final, lane=derivation` (claim C1's probe). -/
def c1CexRaw : RawEvent :=
  { type := "write_text", zone := some "final", lane := some "derivation", text := some "x" }

/-- A raw event that supplies only a lane. -/
def c1WitRaw : RawEvent :=
  { type := "write_text", lane := some "derivation", text := some "x" }

/-- A raw event that supplies both an anchor and a lane (claim C7's probe). -/
def c7CexRaw : RawEvent :=
  { type := "write_text", anchor := some "final", lane := some "derivation", text := some "x" }

/-- A single final-lane event whose reserve height (240) exceeds the final
lane's budget (132) — claim C2's probe. -/
def c2CexEvent : Event :=
  { id := .str "e1", type := "write_text", duration := .int 800,
    payload := { lane := some "final", reserve_height := some 240, text := some "t" } }

/-- Two well-sized derivation-lane events for the C2 witness. -/
def c2WitEvents : List Event :=
  [{ id := .str "w1", type := "write_text", duration := .int 800,
     payload := { lane := some "derivation", reserve_height := some 100, text := some "a" } },
   { id := .str "w2", type := "write_text", duration := .int 800,
     payload := { lane := some "derivation", reserve_height := some 150, text := some "b" } }]

/-- A one-visual-event input for the C4 witness. -/
def c4WitEvents : List Event :=
  [{ id := .str "v1", type := "write_equation", duration := .int 1200,
     payload := { latex := some "x+1=2", display := some true } }]

/-- Two explicit-page events in the given lane (claim C6's probe). -/
def c6CexEvents : List Event :=
  [{ id := .str "a", type := "write_text", duration := .int 800,
     payload := { lane := some "given", board_page := some 0, reserve_height := some 100,
                  text := some "x" } },
   { id := .str "b", type := "write_text", duration := .int 800,
     payload := { lane := some "given", board_page := some 2, reserve_height := some 100,
                  text := some "y" } }]

/-- A flat fallback step whose title has more than three words, so the
synthesized title narration's duration is a float (claim C9's probe). -/
def c9FailStep : RawStep :=
  { step_number := 1, title := "Solve the quadratic equation" }

/-- The normalized payload the pagination loop computes for an event. -/
def evNorm (e : Event) : Payload :=
  _normalize_payload_semantics e.payload e.type

/-- The effective reserve height the pagination loop charges for an event. -/
def evReserve (e : Event) : ℚ :=
  effectiveReserve e.type (evNorm e)

/-- The lane the pagination loop charges an event against. -/
def evLane (e : Event) : String :=
  (evNorm e).lane.getD "derivation"

/-- A single explicit-page event for the C6 witness. -/
def c6WitEvent : Event :=
  { id := .str "b", type := "write_text", duration := .int 800,
    payload := { lane := some "given", board_page := some 2, reserve_height := some 100,
                 text := some "y" } }

/-! # Verification

## String lemmas -/

theorem dropWhile_head_not (w : Char → Bool) :
    ∀ (l : List Char), ∀ x ∈ (l.dropWhile w).head?, ¬ w x := by
  intro l
  induction l with
  | nil => intro x hx; simp at hx
  | cons c cs ih =>
    intro x hx
    by_cases hc : w c
    · rw [List.dropWhile_cons_of_pos hc] at hx
      exact ih x hx
    · rw [List.dropWhile_cons_of_neg hc] at hx
      simp at hx
      subst hx
      simp [hc]

theorem dropWhile_eq_self_of_head (w : Char → Bool) (l : List Char)
    (h : ∀ x ∈ l.head?, ¬ w x) : l.dropWhile w = l := by
  cases l with
  | nil => rfl
  | cons c cs =>
    have : ¬ w c := h c (by simp)
    simp [List.dropWhile_cons, this]

theorem dropWhile_getLast? (w : Char → Bool) :
    ∀ (l : List Char), l.dropWhile w ≠ [] → (l.dropWhile w).getLast? = l.getLast? := by
  intro l
  induction l with
  | nil => intro h; simp at h
  | cons c cs ih =>
    intro h
    by_cases hc : w c
    · rw [List.dropWhile_cons_of_pos hc] at h ⊢
      rw [ih h]
      have hcs : cs ≠ [] := by
        intro he; rw [he] at h; simp at h
      rw [List.getLast?_cons]
      cases hl : cs.getLast? with
      | none => exact absurd (List.getLast?_eq_none_iff.mp hl) hcs
      | some x => simp
    · rw [List.dropWhile_cons_of_neg hc]

/-- `strip()` is idempotent. -/
theorem pyStrip_idem (s : String) : pyStrip (pyStrip s) = pyStrip s := by
  unfold pyStrip
  congr 1
  set w := Char.isWhitespace
  set l := s.data with hl
  set l1 := l.dropWhile w with hl1
  set m := (l1.reverse.dropWhile w).reverse with hm
  show ((m.dropWhile w).reverse.dropWhile w).reverse = m
  have hhead : ∀ x ∈ m.head?, ¬ w x := by
    intro x hx
    rcases hme : l1.reverse.dropWhile w with _ | ⟨c, cs⟩
    · rw [hm, hme] at hx; simp at hx
    · have hne : l1.reverse.dropWhile w ≠ [] := by rw [hme]; simp
      have h1 : m.head? = (l1.reverse.dropWhile w).getLast? := by
        rw [hm, List.head?_reverse]
      have h2 : (l1.reverse.dropWhile w).getLast? = l1.reverse.getLast? :=
        dropWhile_getLast? w _ hne
      have h3 : l1.reverse.getLast? = l1.head? := by rw [List.getLast?_reverse]
      rw [h1, h2, h3] at hx
      rw [hl1] at hx
      exact dropWhile_head_not w l x hx
  have hstep : m.dropWhile w = m := dropWhile_eq_self_of_head w m hhead
  rw [hstep]
  have hlast : ∀ x ∈ m.reverse.head?, ¬ w x := by
    intro x hx
    rw [hm, List.reverse_reverse] at hx
    exact dropWhile_head_not w l1.reverse x hx
  rw [dropWhile_eq_self_of_head w m.reverse hlast, List.reverse_reverse]

/-! ## Shape of the placement-resolution passes

`_normalize_payload_semantics` only ever writes the nine semantic fields;
every other payload field passes through untouched. -/

def semUpdate (p : Payload) (a l z i ph te ro sc : Option String) (sy : Option ℚ) : Payload :=
  { p with
    anchor := a, lane := l, zone := z, intent := i, teaching_phase := ph,
    scene_template := te, slot_role := ro, scene_id := sc, sync_hold_ms := sy }

def SemShape (p q : Payload) : Prop :=
  ∃ a l z i ph te ro sc sy, q = semUpdate p a l z i ph te ro sc sy

theorem SemShape.rfl (p : Payload) : SemShape p p :=
  ⟨p.anchor, p.lane, p.zone, p.intent, p.teaching_phase, p.scene_template,
    p.slot_role, p.scene_id, p.sync_hold_ms, Eq.refl p⟩

theorem SemShape.trans {p q r : Payload} (h1 : SemShape p q) (h2 : SemShape q r) :
    SemShape p r := by
  obtain ⟨a, l, z, i, ph, te, ro, sc, sy, rfl⟩ := h1
  obtain ⟨a', l', z', i', ph', te', ro', sc', sy', rfl⟩ := h2
  exact ⟨a', l', z', i', ph', te', ro', sc', sy', Eq.refl _⟩

theorem semShape_alzLaneToAnchor (p : Payload) : SemShape p (alzLaneToAnchor p) := by
  unfold alzLaneToAnchor
  split
  · exact ⟨_, p.lane, p.zone, p.intent, p.teaching_phase, p.scene_template,
      p.slot_role, p.scene_id, p.sync_hold_ms, Eq.refl _⟩
  · exact SemShape.rfl p

theorem semShape_alzDefaultAnchor (p : Payload) (t : String) :
    SemShape p (alzDefaultAnchor p t) := by
  unfold alzDefaultAnchor
  split
  · exact SemShape.rfl p
  · exact ⟨_, p.lane, p.zone, p.intent, p.teaching_phase, p.scene_template,
      p.slot_role, p.scene_id, p.sync_hold_ms, Eq.refl _⟩

theorem semShape_alzLaneFromAnchor (p : Payload) : SemShape p (alzLaneFromAnchor p) := by
  unfold alzLaneFromAnchor
  split
  · exact SemShape.rfl p
  · exact ⟨p.anchor, _, p.zone, p.intent, p.teaching_phase, p.scene_template,
      p.slot_role, p.scene_id, p.sync_hold_ms, Eq.refl _⟩

theorem semShape_alzZone (p : Payload) : SemShape p (alzZone p) := by
  unfold alzZone
  split
  · split
    · exact SemShape.rfl p
    · exact ⟨_, p.lane, p.zone, p.intent, p.teaching_phase, p.scene_template,
        p.slot_role, p.scene_id, p.sync_hold_ms, Eq.refl _⟩
  · exact ⟨p.anchor, p.lane, _, p.intent, p.teaching_phase, p.scene_template,
      p.slot_role, p.scene_id, p.sync_hold_ms, Eq.refl _⟩

theorem semShape_resolveIntent (p : Payload) : SemShape p (resolveIntent p) := by
  unfold resolveIntent
  split
  · exact SemShape.rfl p
  all_goals split
  all_goals first
    | exact ⟨p.anchor, p.lane, p.zone, _, p.teaching_phase, p.scene_template,
        p.slot_role, p.scene_id, p.sync_hold_ms, Eq.refl _⟩
    | split
  all_goals first
    | exact ⟨p.anchor, p.lane, p.zone, _, p.teaching_phase, p.scene_template,
        p.slot_role, p.scene_id, p.sync_hold_ms, Eq.refl _⟩
    | split
  all_goals exact ⟨p.anchor, p.lane, p.zone, _, p.teaching_phase, p.scene_template,
    p.slot_role, p.scene_id, p.sync_hold_ms, Eq.refl _⟩

theorem semShape_resolvePhase (p : Payload) : SemShape p (resolvePhase p) := by
  unfold resolvePhase
  split
  · exact SemShape.rfl p
  all_goals split
  all_goals first
    | exact ⟨p.anchor, p.lane, p.zone, p.intent, _, p.scene_template,
        p.slot_role, p.scene_id, p.sync_hold_ms, Eq.refl _⟩
    | split
  all_goals first
    | exact ⟨p.anchor, p.lane, p.zone, p.intent, _, p.scene_template,
        p.slot_role, p.scene_id, p.sync_hold_ms, Eq.refl _⟩
    | split
  all_goals exact ⟨p.anchor, p.lane, p.zone, p.intent, _, p.scene_template,
    p.slot_role, p.scene_id, p.sync_hold_ms, Eq.refl _⟩

theorem semShape_resolveTemplate (p : Payload) (t : String) :
    SemShape p (resolveTemplate p t) := by
  unfold resolveTemplate
  split
  · exact SemShape.rfl p
  · exact ⟨p.anchor, p.lane, p.zone, p.intent, p.teaching_phase, _,
      p.slot_role, p.scene_id, p.sync_hold_ms, Eq.refl _⟩

theorem semShape_resolveRole (p : Payload) (t : String) :
    SemShape p (resolveRole p t) := by
  unfold resolveRole
  split
  · exact SemShape.rfl p
  · exact ⟨p.anchor, p.lane, p.zone, p.intent, p.teaching_phase, p.scene_template,
      _, p.scene_id, p.sync_hold_ms, Eq.refl _⟩

theorem semShape_resolveSceneIdMissing (p : Payload) :
    SemShape p (resolveSceneId.resolveSceneIdMissing p) := by
  unfold resolveSceneId.resolveSceneIdMissing
  have upd : ∀ s : Option String, SemShape p { p with scene_id := s } := fun s =>
    ⟨p.anchor, p.lane, p.zone, p.intent, p.teaching_phase, p.scene_template,
      p.slot_role, s, p.sync_hold_ms, Eq.refl _⟩
  split
  · split
    · exact upd _
    · exact upd _
  · exact upd _

theorem semShape_resolveSceneId (p : Payload) : SemShape p (resolveSceneId p) := by
  unfold resolveSceneId
  split
  · split
    · exact semShape_resolveSceneIdMissing p
    · exact SemShape.rfl p
  · exact semShape_resolveSceneIdMissing p

theorem semShape_resolveSyncHold (p : Payload) : SemShape p (resolveSyncHold p) := by
  unfold resolveSyncHold
  split
  · exact SemShape.rfl p
  · exact ⟨p.anchor, p.lane, p.zone, p.intent, p.teaching_phase, p.scene_template,
      p.slot_role, p.scene_id, _, Eq.refl _⟩

theorem alzLaneToAnchor_shape (p : Payload) : ∃ a, alzLaneToAnchor p = { p with anchor := a } := by
  unfold alzLaneToAnchor
  split
  · exact ⟨_, Eq.refl _⟩
  · exact ⟨p.anchor, Eq.refl p⟩

theorem alzDefaultAnchor_shape (p : Payload) (t : String) :
    ∃ a, alzDefaultAnchor p t = { p with anchor := a } := by
  unfold alzDefaultAnchor
  split
  · exact ⟨p.anchor, Eq.refl p⟩
  · exact ⟨_, Eq.refl _⟩

theorem alzLaneFromAnchor_shape (p : Payload) :
    ∃ l, alzLaneFromAnchor p = { p with lane := l } := by
  unfold alzLaneFromAnchor
  split
  · exact ⟨p.lane, Eq.refl p⟩
  · exact ⟨_, Eq.refl _⟩

theorem alzZone_shape (p : Payload) :
    ∃ a z, alzZone p = { p with anchor := a, zone := z } := by
  unfold alzZone
  split
  · split
    · exact ⟨p.anchor, p.zone, Eq.refl p⟩
    · exact ⟨_, p.zone, Eq.refl _⟩
  · exact ⟨p.anchor, _, Eq.refl _⟩

theorem resolveIntent_shape (p : Payload) : ∃ i, resolveIntent p = { p with intent := i } := by
  unfold resolveIntent
  split
  · exact ⟨p.intent, Eq.refl p⟩
  all_goals split
  all_goals first
    | exact ⟨_, Eq.refl _⟩
    | split
  all_goals first
    | exact ⟨_, Eq.refl _⟩
    | split
  all_goals exact ⟨_, Eq.refl _⟩

theorem resolvePhase_shape (p : Payload) :
    ∃ ph, resolvePhase p = { p with teaching_phase := ph } := by
  unfold resolvePhase
  split
  · exact ⟨p.teaching_phase, Eq.refl p⟩
  all_goals split
  all_goals first
    | exact ⟨_, Eq.refl _⟩
    | split
  all_goals first
    | exact ⟨_, Eq.refl _⟩
    | split
  all_goals exact ⟨_, Eq.refl _⟩

theorem resolveTemplate_shape (p : Payload) (t : String) :
    ∃ te, resolveTemplate p t = { p with scene_template := te } := by
  unfold resolveTemplate
  split
  · exact ⟨p.scene_template, Eq.refl p⟩
  · exact ⟨_, Eq.refl _⟩

theorem resolveRole_shape (p : Payload) (t : String) :
    ∃ ro, resolveRole p t = { p with slot_role := ro } := by
  unfold resolveRole
  split
  · exact ⟨p.slot_role, Eq.refl p⟩
  · exact ⟨_, Eq.refl _⟩

theorem resolveSceneId_shape (p : Payload) :
    ∃ sc, resolveSceneId p = { p with scene_id := sc } := by
  have hm : ∃ sc, resolveSceneId.resolveSceneIdMissing p = { p with scene_id := sc } := by
    unfold resolveSceneId.resolveSceneIdMissing
    split
    · split
      · exact ⟨_, Eq.refl _⟩
      · exact ⟨_, Eq.refl _⟩
    · exact ⟨_, Eq.refl _⟩
  unfold resolveSceneId
  split
  · split
    · exact hm
    · exact ⟨p.scene_id, Eq.refl p⟩
  · exact hm

theorem resolveSyncHold_shape (p : Payload) :
    ∃ sy, resolveSyncHold p = { p with sync_hold_ms := sy } := by
  unfold resolveSyncHold
  split
  · exact ⟨p.sync_hold_ms, Eq.refl p⟩
  · exact ⟨_, Eq.refl _⟩

theorem semShape_normalize (p : Payload) (t : String) :
    SemShape p (_normalize_payload_semantics p t) := by
  unfold _normalize_payload_semantics resolveAnchorLaneZone
  exact ((((((((semShape_alzLaneToAnchor p).trans
    (semShape_alzDefaultAnchor _ t)).trans
    (semShape_alzLaneFromAnchor _)).trans
    (semShape_alzZone _)).trans
    (semShape_resolveIntent _)).trans
    (semShape_resolvePhase _)).trans
    (semShape_resolveTemplate _ t)).trans
    (semShape_resolveRole _ t)).trans
    ((semShape_resolveSceneId _).trans (semShape_resolveSyncHold _))

/-! ## The normalized-payload invariant -/

theorem memAllowed_iff {x : Option String} {al : List String} :
    memAllowed x al = true ↔ ∃ s, x = some s ∧ s ∈ al := by
  cases x <;> simp [memAllowed]

/-- A payload is `Normalized` when every semantic field carries an allowed
value, the anchor and lane cohere, the scene id survives a strip, and a
sync hold is present — the state `_normalize_payload_semantics` leaves
behind and then never disturbs. -/
def Normalized (p : Payload) : Prop :=
  (∃ a, a ∈ ALLOWED_ANCHORS ∧ p.anchor = some a ∧ p.lane = some (anchor_to_lane a)) ∧
  memAllowed p.zone ALLOWED_ZONES = true ∧
  memAllowed p.intent ALLOWED_INTENTS = true ∧
  memAllowed p.teaching_phase ALLOWED_TEACHING_PHASES = true ∧
  memAllowed p.scene_template ALLOWED_SCENE_TEMPLATES = true ∧
  memAllowed p.slot_role ALLOWED_SLOT_ROLES = true ∧
  (∃ s, p.scene_id = some s ∧ pyStrip s ≠ "") ∧
  p.sync_hold_ms.isSome = true

theorem lane_maps_mem :
    ∀ l ∈ ALLOWED_LANES, lane_to_anchor l ∈ ALLOWED_ANCHORS ∧
      anchor_to_lane (lane_to_anchor l) = l := by decide

theorem zone_maps_mem :
    ∀ z ∈ ALLOWED_ZONES, zone_to_anchor z ∈ ALLOWED_ANCHORS ∧
      anchor_to_zone (zone_to_anchor z) = z := by decide

theorem anchor_maps_mem :
    ∀ a ∈ ALLOWED_ANCHORS, anchor_to_lane a ∈ ALLOWED_LANES ∧
      lane_to_anchor (anchor_to_lane a) = a ∧ anchor_to_zone a ∈ ALLOWED_ZONES := by decide

theorem default_anchor_mem (t : String) (p : Payload) :
    _default_anchor_for_event t p ∈ ALLOWED_ANCHORS := by
  unfold _default_anchor_for_event
  split
  · next h =>
    obtain ⟨s, hs, hmem⟩ := memAllowed_iff.mp h
    rw [hs]
    exact hmem
  · split
    · next _ h =>
      obtain ⟨s, hs, hmem⟩ := memAllowed_iff.mp h
      rw [hs]
      exact (zone_maps_mem s hmem).1
    · split
      · decide
      · decide

theorem infer_scene_template_mem (a t : String) :
    _infer_scene_template a t ∈ ALLOWED_SCENE_TEMPLATES := by
  unfold _infer_scene_template
  split
  · decide
  · split
    · decide
    · split
      · decide
      · split <;> decide

theorem infer_slot_role_mem (t : String) (p : Payload) (a : String) :
    _infer_slot_role t p a ∈ ALLOWED_SLOT_ROLES := by
  unfold _infer_slot_role
  split
  · decide
  · split
    · decide
    · split
      · dsimp only
        split <;> decide
      · decide

/-- The anchor-lane-zone block leaves behind a coherent, allowed triple. -/
theorem alz_spec (p : Payload) (t : String) :
    ∃ a, a ∈ ALLOWED_ANCHORS ∧ (resolveAnchorLaneZone p t).anchor = some a ∧
      (resolveAnchorLaneZone p t).lane = some (anchor_to_lane a) ∧
      memAllowed (resolveAnchorLaneZone p t).zone ALLOWED_ZONES = true ∧
      (memAllowed p.zone ALLOWED_ZONES = true → (resolveAnchorLaneZone p t).zone = p.zone) ∧
      (memAllowed p.zone ALLOWED_ZONES = false →
        (resolveAnchorLaneZone p t).zone = some (anchor_to_zone a)) ∧
      (memAllowed p.lane ALLOWED_LANES = true → (resolveAnchorLaneZone p t).lane = p.lane) ∧
      (memAllowed p.anchor ALLOWED_ANCHORS = true → memAllowed p.lane ALLOWED_LANES = false →
        (resolveAnchorLaneZone p t).anchor = p.anchor) ∧
      (p.anchor = none → p.lane = none → memAllowed p.zone ALLOWED_ZONES = true →
        a = zone_to_anchor (p.zone.getD "")) := by
  unfold resolveAnchorLaneZone
  -- after the first two blocks the anchor is an allowed value and lane/zone
  -- are untouched
  have step2 : ∃ a, a ∈ ALLOWED_ANCHORS ∧
      (alzDefaultAnchor (alzLaneToAnchor p) t).anchor = some a ∧
      (alzDefaultAnchor (alzLaneToAnchor p) t).lane = p.lane ∧
      (alzDefaultAnchor (alzLaneToAnchor p) t).zone = p.zone ∧
      (memAllowed p.lane ALLOWED_LANES = true → p.lane = some (anchor_to_lane a)) ∧
      (memAllowed p.anchor ALLOWED_ANCHORS = true → memAllowed p.lane ALLOWED_LANES = false →
        some a = p.anchor) ∧
      (p.anchor = none → p.lane = none → memAllowed p.zone ALLOWED_ZONES = true →
        a = zone_to_anchor (p.zone.getD "")) := by
    by_cases hl : memAllowed p.lane ALLOWED_LANES = true
    · obtain ⟨l, hpl, hlL⟩ := memAllowed_iff.mp hl
      have h1 : alzLaneToAnchor p = { p with anchor := some (lane_to_anchor l) } := by
        unfold alzLaneToAnchor
        rw [if_pos hl, hpl]
        rfl
      have hmemA : memAllowed (some (lane_to_anchor l)) ALLOWED_ANCHORS = true := by
        rw [memAllowed_iff]
        exact ⟨_, rfl, (lane_maps_mem l hlL).1⟩
      have h2 : alzDefaultAnchor (alzLaneToAnchor p) t =
          { p with anchor := some (lane_to_anchor l) } := by
        rw [h1]
        unfold alzDefaultAnchor
        rw [if_pos hmemA]
      refine ⟨lane_to_anchor l, (lane_maps_mem l hlL).1, ?_, ?_, ?_, ?_, ?_, ?_⟩
      · rw [h2]
      · rw [h2]
      · rw [h2]
      · intro _
        rw [hpl, (lane_maps_mem l hlL).2]
      · intro _ hc
        rw [hl] at hc
        exact absurd hc (by decide)
      · intro _ hle
        rw [hle] at hl
        exact absurd hl (by decide)
    · have h1 : alzLaneToAnchor p = p := by
        unfold alzLaneToAnchor
        rw [if_neg hl]
      rw [h1]
      by_cases ha : memAllowed p.anchor ALLOWED_ANCHORS = true
      · obtain ⟨a, hpa, haA⟩ := memAllowed_iff.mp ha
        have h2 : alzDefaultAnchor p t = p := by
          unfold alzDefaultAnchor
          rw [if_pos ha]
        refine ⟨a, haA, by rw [h2, hpa], by rw [h2], by rw [h2],
          fun hc => absurd hc hl, fun _ _ => hpa.symm, ?_⟩
        intro han _ _
        rw [han] at hpa
        exact absurd hpa (by simp)
      · have h2 : alzDefaultAnchor p t = { p with anchor := some (_default_anchor_for_event t p) } := by
          unfold alzDefaultAnchor
          rw [if_neg ha]
        refine ⟨_, default_anchor_mem t p, by rw [h2], by rw [h2], by rw [h2],
          fun hc => absurd hc hl, fun hc _ => absurd hc ha, ?_⟩
        intro _ _ hzm
        unfold _default_anchor_for_event
        rw [if_neg ha, if_pos hzm]
  obtain ⟨a, haA, ha2, hl2, hz2, hcoh, hkeepa, hdza⟩ := step2
  set p2 := alzDefaultAnchor (alzLaneToAnchor p) t with hp2
  -- third block: derive the lane when missing
  have step3 : (alzLaneFromAnchor p2).anchor = some a ∧
      (alzLaneFromAnchor p2).lane = some (anchor_to_lane a) ∧
      (alzLaneFromAnchor p2).zone = p.zone := by
    by_cases hl : memAllowed p2.lane ALLOWED_LANES = true
    · have h3 : alzLaneFromAnchor p2 = p2 := by
        unfold alzLaneFromAnchor
        rw [if_pos hl]
      rw [hl2] at hl
      refine ⟨by rw [h3, ha2], ?_, by rw [h3, hz2]⟩
      rw [h3, hl2]
      exact hcoh hl
    · have h3 : alzLaneFromAnchor p2 = { p2 with lane := some (anchor_to_lane (p2.anchor.getD "")) } := by
        unfold alzLaneFromAnchor
        rw [if_neg hl]
      rw [h3, ha2]
      exact ⟨rfl, by simp, hz2⟩
  obtain ⟨ha3, hl3, hz3⟩ := step3
  set p3 := alzLaneFromAnchor p2 with hp3
  have hlane_keep : memAllowed p.lane ALLOWED_LANES = true →
      some (anchor_to_lane a) = p.lane := fun hm => (hcoh hm).symm
  have hanch_keep : memAllowed p.anchor ALLOWED_ANCHORS = true →
      memAllowed p.lane ALLOWED_LANES = false → some a = p.anchor := hkeepa
  -- zone block
  by_cases hz : memAllowed p3.zone ALLOWED_ZONES = true
  · have h4 : alzZone p3 = p3 := by
      unfold alzZone
      rw [if_pos hz, if_pos (by rw [ha3]; rfl)]
    rw [hz3] at hz
    refine ⟨a, haA, by rw [h4, ha3], by rw [h4, hl3], by rw [h4, hz3]; exact hz,
      fun _ => by rw [h4, hz3], fun hmf => by rw [hz] at hmf; exact absurd hmf (by decide),
      ?_, ?_, hdza⟩
    · intro hm
      rw [h4, hl3]
      exact hlane_keep hm
    · intro hma hml
      rw [h4, ha3]
      exact hanch_keep hma hml
  · have h4 : alzZone p3 = { p3 with zone := some (anchor_to_zone (p3.anchor.getD "")) } := by
      unfold alzZone
      rw [if_neg hz]
    refine ⟨a, haA, by rw [h4]; exact ha3, by rw [h4]; exact hl3, ?_, ?_, ?_, ?_, ?_, hdza⟩
    · rw [h4, ha3, memAllowed_iff]
      exact ⟨_, rfl, by simpa using (anchor_maps_mem a haA).2.2⟩
    · intro hm
      rw [hz3] at hz
      exact absurd hm hz
    · intro _
      rw [h4, ha3]
      rfl
    · intro hm
      rw [h4]
      show p3.lane = p.lane
      rw [hl3]
      exact hlane_keep hm
    · intro hma hml
      rw [h4]
      show p3.anchor = p.anchor
      rw [ha3]
      exact hanch_keep hma hml

theorem resolveIntent_mem (p : Payload) :
    memAllowed (resolveIntent p).intent ALLOWED_INTENTS = true := by
  unfold resolveIntent
  split
  · assumption
  all_goals split
  all_goals first | rfl | split
  all_goals first | rfl | split
  all_goals rfl

theorem resolvePhase_mem (p : Payload) :
    memAllowed (resolvePhase p).teaching_phase ALLOWED_TEACHING_PHASES = true := by
  unfold resolvePhase
  split
  · assumption
  all_goals split
  all_goals first | rfl | split
  all_goals first | rfl | split
  all_goals rfl

theorem resolveTemplate_mem (p : Payload) (t : String) :
    memAllowed (resolveTemplate p t).scene_template ALLOWED_SCENE_TEMPLATES = true := by
  unfold resolveTemplate
  split
  · assumption
  · rw [memAllowed_iff]
    exact ⟨_, rfl, infer_scene_template_mem _ t⟩

theorem resolveRole_mem (p : Payload) (t : String) :
    memAllowed (resolveRole p t).slot_role ALLOWED_SLOT_ROLES = true := by
  unfold resolveRole
  split
  · assumption
  · rw [memAllowed_iff]
    exact ⟨_, rfl, infer_slot_role_mem t p _⟩

theorem strip_lane_anchor_ne :
    ∀ a ∈ ALLOWED_ANCHORS, pyStrip (anchor_to_lane a ++ "-" ++ a) ≠ "" := by decide

theorem resolveSceneId_spec (p : Payload)
    (h : ∃ a, a ∈ ALLOWED_ANCHORS ∧ p.anchor = some a ∧ p.lane = some (anchor_to_lane a)) :
    ∃ s, (resolveSceneId p).scene_id = some s ∧ pyStrip s ≠ "" := by
  obtain ⟨a, haA, ha, hl⟩ := h
  have hmiss : ∃ s, (resolveSceneId.resolveSceneIdMissing p).scene_id = some s ∧
      pyStrip s ≠ "" := by
    unfold resolveSceneId.resolveSceneIdMissing
    split
    · split
      · next hc =>
        rw [hl, ha]
        exact ⟨_, rfl, by simpa using strip_lane_anchor_ne a haA⟩
      · next hc =>
        exact ⟨_, rfl, by rw [pyStrip_idem]; exact hc⟩
    · rw [hl, ha]
      exact ⟨_, rfl, by simpa using strip_lane_anchor_ne a haA⟩
  unfold resolveSceneId
  split
  · next s heq =>
    split
    · exact hmiss
    · next hne => exact ⟨s, heq, hne⟩
  · exact hmiss

theorem resolveSyncHold_isSome (p : Payload) :
    (resolveSyncHold p).sync_hold_ms.isSome = true := by
  unfold resolveSyncHold
  split
  · next v hv => rw [hv]; rfl
  · rfl

/-- `_normalize_payload_semantics` always establishes the invariant. -/
theorem normalize_normalized (p : Payload) (t : String) :
    Normalized (_normalize_payload_semantics p t) := by
  obtain ⟨a, haA, ha, hl, hz, -, -, -, -, -⟩ := alz_spec p t
  set p4 := resolveAnchorLaneZone p t with hp4
  obtain ⟨i, hi⟩ := resolveIntent_shape p4
  have hia : (resolveIntent p4).anchor = some a := by rw [hi]; exact ha
  have hil : (resolveIntent p4).lane = some (anchor_to_lane a) := by rw [hi]; exact hl
  have hiz : memAllowed (resolveIntent p4).zone ALLOWED_ZONES = true := by rw [hi]; exact hz
  have hii := resolveIntent_mem p4
  set p5 := resolveIntent p4 with hp5
  obtain ⟨ph, hph⟩ := resolvePhase_shape p5
  have hpa : (resolvePhase p5).anchor = some a := by rw [hph]; exact hia
  have hpl : (resolvePhase p5).lane = some (anchor_to_lane a) := by rw [hph]; exact hil
  have hpz : memAllowed (resolvePhase p5).zone ALLOWED_ZONES = true := by rw [hph]; exact hiz
  have hpi : memAllowed (resolvePhase p5).intent ALLOWED_INTENTS = true := by
    rw [hph]; exact hii
  have hpp := resolvePhase_mem p5
  set p6 := resolvePhase p5 with hp6
  obtain ⟨te, hte⟩ := resolveTemplate_shape p6 t
  have hta : (resolveTemplate p6 t).anchor = some a := by rw [hte]; exact hpa
  have htl : (resolveTemplate p6 t).lane = some (anchor_to_lane a) := by rw [hte]; exact hpl
  have htz : memAllowed (resolveTemplate p6 t).zone ALLOWED_ZONES = true := by
    rw [hte]; exact hpz
  have hti : memAllowed (resolveTemplate p6 t).intent ALLOWED_INTENTS = true := by
    rw [hte]; exact hpi
  have htp : memAllowed (resolveTemplate p6 t).teaching_phase ALLOWED_TEACHING_PHASES = true := by
    rw [hte]; exact hpp
  have htt := resolveTemplate_mem p6 t
  set p7 := resolveTemplate p6 t with hp7
  obtain ⟨ro, hro⟩ := resolveRole_shape p7 t
  have hra : (resolveRole p7 t).anchor = some a := by rw [hro]; exact hta
  have hrl : (resolveRole p7 t).lane = some (anchor_to_lane a) := by rw [hro]; exact htl
  have hrz : memAllowed (resolveRole p7 t).zone ALLOWED_ZONES = true := by rw [hro]; exact htz
  have hri : memAllowed (resolveRole p7 t).intent ALLOWED_INTENTS = true := by
    rw [hro]; exact hti
  have hrp : memAllowed (resolveRole p7 t).teaching_phase ALLOWED_TEACHING_PHASES = true := by
    rw [hro]; exact htp
  have hrt : memAllowed (resolveRole p7 t).scene_template ALLOWED_SCENE_TEMPLATES = true := by
    rw [hro]; exact htt
  have hrr := resolveRole_mem p7 t
  set p8 := resolveRole p7 t with hp8
  obtain ⟨sc, hsc⟩ := resolveSceneId_shape p8
  have hsa : (resolveSceneId p8).anchor = some a := by rw [hsc]; exact hra
  have hsl : (resolveSceneId p8).lane = some (anchor_to_lane a) := by rw [hsc]; exact hrl
  have hsz : memAllowed (resolveSceneId p8).zone ALLOWED_ZONES = true := by rw [hsc]; exact hrz
  have hsi : memAllowed (resolveSceneId p8).intent ALLOWED_INTENTS = true := by
    rw [hsc]; exact hri
  have hsp : memAllowed (resolveSceneId p8).teaching_phase ALLOWED_TEACHING_PHASES = true := by
    rw [hsc]; exact hrp
  have hst : memAllowed (resolveSceneId p8).scene_template ALLOWED_SCENE_TEMPLATES = true := by
    rw [hsc]; exact hrt
  have hsr : memAllowed (resolveSceneId p8).slot_role ALLOWED_SLOT_ROLES = true := by
    rw [hsc]; exact hrr
  have hss := resolveSceneId_spec p8 ⟨a, haA, hra, hrl⟩
  set p9 := resolveSceneId p8 with hp9
  obtain ⟨sy, hsy⟩ := resolveSyncHold_shape p9
  have key : _normalize_payload_semantics p t = resolveSyncHold p9 := by
    unfold _normalize_payload_semantics
    rw [← hp4, ← hp5, ← hp6, ← hp7, ← hp8, ← hp9]
  rw [key]
  refine ⟨⟨a, haA, ?_, ?_⟩, ?_, ?_, ?_, ?_, ?_, ?_, resolveSyncHold_isSome p9⟩
  · rw [hsy]; exact hsa
  · rw [hsy]; exact hsl
  · rw [hsy]; exact hsz
  · rw [hsy]; exact hsi
  · rw [hsy]; exact hsp
  · rw [hsy]; exact hst
  · rw [hsy]; exact hsr
  · obtain ⟨s, hs, hne⟩ := hss
    exact ⟨s, by rw [hsy]; exact hs, hne⟩

/-- On an already-normalized payload every block of
`_normalize_payload_semantics` is the identity. -/
theorem normalize_of_normalized {p : Payload} (h : Normalized p) (t : String) :
    _normalize_payload_semantics p t = p := by
  obtain ⟨⟨a, haA, ha, hl⟩, hz, hi, hph, hte, hro, ⟨s, hs, hsne⟩, hsy⟩ := h
  have hlmem : memAllowed p.lane ALLOWED_LANES = true := by
    rw [memAllowed_iff]
    exact ⟨_, hl, (anchor_maps_mem a haA).1⟩
  have hamem : memAllowed p.anchor ALLOWED_ANCHORS = true := by
    rw [memAllowed_iff]
    exact ⟨a, ha, haA⟩
  have e1 : alzLaneToAnchor p = p := by
    unfold alzLaneToAnchor
    rw [if_pos hlmem, hl]
    have : lane_to_anchor ((some (anchor_to_lane a)).getD "") = a :=
      (anchor_maps_mem a haA).2.1
    rw [this, ← ha, ← hl]
  have e2 : alzDefaultAnchor p t = p := by
    unfold alzDefaultAnchor
    rw [if_pos hamem]
  have e3 : alzLaneFromAnchor p = p := by
    unfold alzLaneFromAnchor
    rw [if_pos hlmem]
  have e4 : alzZone p = p := by
    unfold alzZone
    rw [if_pos hz, if_pos (by rw [ha]; rfl)]
  have e5 : resolveIntent p = p := by
    unfold resolveIntent
    rw [if_pos hi]
  have e6 : resolvePhase p = p := by
    unfold resolvePhase
    rw [if_pos hph]
  have e7 : resolveTemplate p t = p := by
    unfold resolveTemplate
    rw [if_pos hte]
  have e8 : resolveRole p t = p := by
    unfold resolveRole
    rw [if_pos hro]
  have e9 : resolveSceneId p = p := by
    unfold resolveSceneId
    simp only [hs]
    rw [if_neg hsne]
  have e10 : resolveSyncHold p = p := by
    unfold resolveSyncHold
    obtain ⟨v, hv⟩ := Option.isSome_iff_exists.mp hsy
    simp only [hv]
  unfold _normalize_payload_semantics resolveAnchorLaneZone
  rw [e1, e2, e3, e4, e5, e6, e7, e8, e9, e10]

/-- Normalization is stable: a second pass is the identity. -/
theorem normalize_stable (p : Payload) (t : String) :
    _normalize_payload_semantics (_normalize_payload_semantics p t) t =
      _normalize_payload_semantics p t :=
  normalize_of_normalized (normalize_normalized p t) t

/-- Each later block keeps the other eight semantic fields unchanged. -/
theorem resolveIntent_keeps (p : Payload) :
    (resolveIntent p).anchor = p.anchor ∧ (resolveIntent p).lane = p.lane ∧
    (resolveIntent p).zone = p.zone ∧ (resolveIntent p).teaching_phase = p.teaching_phase ∧
    (resolveIntent p).scene_template = p.scene_template ∧
    (resolveIntent p).slot_role = p.slot_role ∧ (resolveIntent p).scene_id = p.scene_id ∧
    (resolveIntent p).sync_hold_ms = p.sync_hold_ms := by
  obtain ⟨i, h⟩ := resolveIntent_shape p
  rw [h]
  exact ⟨rfl, rfl, rfl, rfl, rfl, rfl, rfl, rfl⟩

theorem resolvePhase_keeps (p : Payload) :
    (resolvePhase p).anchor = p.anchor ∧ (resolvePhase p).lane = p.lane ∧
    (resolvePhase p).zone = p.zone ∧ (resolvePhase p).intent = p.intent ∧
    (resolvePhase p).scene_template = p.scene_template ∧
    (resolvePhase p).slot_role = p.slot_role ∧ (resolvePhase p).scene_id = p.scene_id ∧
    (resolvePhase p).sync_hold_ms = p.sync_hold_ms := by
  obtain ⟨ph, h⟩ := resolvePhase_shape p
  rw [h]
  exact ⟨rfl, rfl, rfl, rfl, rfl, rfl, rfl, rfl⟩

theorem resolveTemplate_keeps (p : Payload) (t : String) :
    (resolveTemplate p t).anchor = p.anchor ∧ (resolveTemplate p t).lane = p.lane ∧
    (resolveTemplate p t).zone = p.zone ∧ (resolveTemplate p t).intent = p.intent ∧
    (resolveTemplate p t).teaching_phase = p.teaching_phase ∧
    (resolveTemplate p t).slot_role = p.slot_role ∧
    (resolveTemplate p t).scene_id = p.scene_id ∧
    (resolveTemplate p t).sync_hold_ms = p.sync_hold_ms := by
  obtain ⟨te, h⟩ := resolveTemplate_shape p t
  rw [h]
  exact ⟨rfl, rfl, rfl, rfl, rfl, rfl, rfl, rfl⟩

theorem resolveRole_keeps (p : Payload) (t : String) :
    (resolveRole p t).anchor = p.anchor ∧ (resolveRole p t).lane = p.lane ∧
    (resolveRole p t).zone = p.zone ∧ (resolveRole p t).intent = p.intent ∧
    (resolveRole p t).teaching_phase = p.teaching_phase ∧
    (resolveRole p t).scene_template = p.scene_template ∧
    (resolveRole p t).scene_id = p.scene_id ∧
    (resolveRole p t).sync_hold_ms = p.sync_hold_ms := by
  obtain ⟨ro, h⟩ := resolveRole_shape p t
  rw [h]
  exact ⟨rfl, rfl, rfl, rfl, rfl, rfl, rfl, rfl⟩

theorem resolveSceneId_keeps (p : Payload) :
    (resolveSceneId p).anchor = p.anchor ∧ (resolveSceneId p).lane = p.lane ∧
    (resolveSceneId p).zone = p.zone ∧ (resolveSceneId p).intent = p.intent ∧
    (resolveSceneId p).teaching_phase = p.teaching_phase ∧
    (resolveSceneId p).scene_template = p.scene_template ∧
    (resolveSceneId p).slot_role = p.slot_role ∧
    (resolveSceneId p).sync_hold_ms = p.sync_hold_ms := by
  obtain ⟨sc, h⟩ := resolveSceneId_shape p
  rw [h]
  exact ⟨rfl, rfl, rfl, rfl, rfl, rfl, rfl, rfl⟩

theorem resolveSyncHold_keeps (p : Payload) :
    (resolveSyncHold p).anchor = p.anchor ∧ (resolveSyncHold p).lane = p.lane ∧
    (resolveSyncHold p).zone = p.zone ∧ (resolveSyncHold p).intent = p.intent ∧
    (resolveSyncHold p).teaching_phase = p.teaching_phase ∧
    (resolveSyncHold p).scene_template = p.scene_template ∧
    (resolveSyncHold p).slot_role = p.slot_role ∧
    (resolveSyncHold p).scene_id = p.scene_id := by
  obtain ⟨sy, h⟩ := resolveSyncHold_shape p
  rw [h]
  exact ⟨rfl, rfl, rfl, rfl, rfl, rfl, rfl, rfl⟩

/-- The four blocks after the anchor-lane-zone resolution never touch that
triple, so the final projections agree with the block-4 output; dually the
anchor-lane-zone blocks never touch the later fields. -/
theorem normalize_stage_proj (p : Payload) (t : String) :
    (_normalize_payload_semantics p t).anchor = (resolveAnchorLaneZone p t).anchor ∧
    (_normalize_payload_semantics p t).lane = (resolveAnchorLaneZone p t).lane ∧
    (_normalize_payload_semantics p t).zone = (resolveAnchorLaneZone p t).zone ∧
    (_normalize_payload_semantics p t).intent = (resolveIntent (resolveAnchorLaneZone p t)).intent ∧
    (_normalize_payload_semantics p t).teaching_phase =
      (resolvePhase (resolveIntent (resolveAnchorLaneZone p t))).teaching_phase ∧
    (_normalize_payload_semantics p t).scene_template =
      (resolveTemplate (resolvePhase (resolveIntent (resolveAnchorLaneZone p t))) t).scene_template ∧
    (_normalize_payload_semantics p t).slot_role =
      (resolveRole (resolveTemplate (resolvePhase (resolveIntent (resolveAnchorLaneZone p t))) t) t).slot_role := by
  unfold _normalize_payload_semantics
  refine ⟨?_, ?_, ?_, ?_, ?_, ?_, ?_⟩
  · rw [(resolveSyncHold_keeps _).1, (resolveSceneId_keeps _).1, (resolveRole_keeps _ t).1,
      (resolveTemplate_keeps _ t).1, (resolvePhase_keeps _).1, (resolveIntent_keeps _).1]
  · rw [(resolveSyncHold_keeps _).2.1, (resolveSceneId_keeps _).2.1, (resolveRole_keeps _ t).2.1,
      (resolveTemplate_keeps _ t).2.1, (resolvePhase_keeps _).2.1, (resolveIntent_keeps _).2.1]
  · rw [(resolveSyncHold_keeps _).2.2.1, (resolveSceneId_keeps _).2.2.1,
      (resolveRole_keeps _ t).2.2.1, (resolveTemplate_keeps _ t).2.2.1,
      (resolvePhase_keeps _).2.2.1, (resolveIntent_keeps _).2.2.1]
  · rw [(resolveSyncHold_keeps _).2.2.2.1, (resolveSceneId_keeps _).2.2.2.1,
      (resolveRole_keeps _ t).2.2.2.1, (resolveTemplate_keeps _ t).2.2.2.1,
      (resolvePhase_keeps _).2.2.2.1]
  · rw [(resolveSyncHold_keeps _).2.2.2.2.1, (resolveSceneId_keeps _).2.2.2.2.1,
      (resolveRole_keeps _ t).2.2.2.2.1, (resolveTemplate_keeps _ t).2.2.2.2.1]
  · rw [(resolveSyncHold_keeps _).2.2.2.2.2.1, (resolveSceneId_keeps _).2.2.2.2.2.1,
      (resolveRole_keeps _ t).2.2.2.2.2.1]
  · rw [(resolveSyncHold_keeps _).2.2.2.2.2.2.1, (resolveSceneId_keeps _).2.2.2.2.2.2.1]

/-- The anchor-lane-zone blocks never write the intent, phase, template,
role, scene id, sync hold, or any non-semantic field. -/
theorem alz_keeps (p : Payload) (t : String) :
    (resolveAnchorLaneZone p t).intent = p.intent ∧
    (resolveAnchorLaneZone p t).teaching_phase = p.teaching_phase ∧
    (resolveAnchorLaneZone p t).scene_template = p.scene_template ∧
    (resolveAnchorLaneZone p t).slot_role = p.slot_role := by
  obtain ⟨a1, h1⟩ := alzLaneToAnchor_shape p
  obtain ⟨a2, h2⟩ := alzDefaultAnchor_shape (alzLaneToAnchor p) t
  obtain ⟨l3, h3⟩ := alzLaneFromAnchor_shape (alzDefaultAnchor (alzLaneToAnchor p) t)
  obtain ⟨a4, z4, h4⟩ := alzZone_shape (alzLaneFromAnchor (alzDefaultAnchor (alzLaneToAnchor p) t))
  unfold resolveAnchorLaneZone
  rw [h4, h3, h2, h1]
  exact ⟨rfl, rfl, rfl, rfl⟩

/-- Later blocks fill only missing fields: an explicitly supplied allowed
zone / lane / intent / teaching phase / scene template / slot role survives
normalization unchanged, and a supplied anchor survives unless a lane was
also supplied (in which case lines 743-745 overwrite it). -/
theorem normalize_preserves (p : Payload) (t : String) :
    (memAllowed p.zone ALLOWED_ZONES = true →
      (_normalize_payload_semantics p t).zone = p.zone) ∧
    (memAllowed p.lane ALLOWED_LANES = true →
      (_normalize_payload_semantics p t).lane = p.lane) ∧
    (memAllowed p.anchor ALLOWED_ANCHORS = true → memAllowed p.lane ALLOWED_LANES = false →
      (_normalize_payload_semantics p t).anchor = p.anchor) ∧
    (memAllowed p.intent ALLOWED_INTENTS = true →
      (_normalize_payload_semantics p t).intent = p.intent) ∧
    (memAllowed p.teaching_phase ALLOWED_TEACHING_PHASES = true →
      (_normalize_payload_semantics p t).teaching_phase = p.teaching_phase) ∧
    (memAllowed p.scene_template ALLOWED_SCENE_TEMPLATES = true →
      (_normalize_payload_semantics p t).scene_template = p.scene_template) ∧
    (memAllowed p.slot_role ALLOWED_SLOT_ROLES = true →
      (_normalize_payload_semantics p t).slot_role = p.slot_role) := by
  obtain ⟨hpa, hpl, hpz, hpi, hpph, hpte, hpro⟩ := normalize_stage_proj p t
  obtain ⟨a, haA, ha, hl, hz, hzk, hzd, hlk, hak, hdz⟩ := alz_spec p t
  obtain ⟨ki, kph, kte, kro⟩ := alz_keeps p t
  set p4 := resolveAnchorLaneZone p t
  refine ⟨?_, ?_, ?_, ?_, ?_, ?_, ?_⟩
  · intro hm
    rw [hpz]
    exact hzk hm
  · intro hm
    rw [hpl]
    exact hlk hm
  · intro hma hml
    rw [hpa]
    exact hak hma hml
  · intro hm
    rw [hpi]
    have him : memAllowed p4.intent ALLOWED_INTENTS = true := by rw [ki]; exact hm
    unfold resolveIntent
    rw [if_pos him]
    exact ki
  · intro hm
    have him : memAllowed (resolveIntent p4).teaching_phase ALLOWED_TEACHING_PHASES = true := by
      obtain ⟨i, hi⟩ := resolveIntent_shape p4
      rw [hi]
      show memAllowed p4.teaching_phase ALLOWED_TEACHING_PHASES = true
      rw [kph]
      exact hm
    rw [hpph]
    unfold resolvePhase
    rw [if_pos him]
    obtain ⟨i, hi⟩ := resolveIntent_shape p4
    rw [hi]
    show p4.teaching_phase = p.teaching_phase
    exact kph
  · intro hm
    obtain ⟨i, hi⟩ := resolveIntent_shape p4
    obtain ⟨ph, hph⟩ := resolvePhase_shape (resolveIntent p4)
    have him : memAllowed (resolvePhase (resolveIntent p4)).scene_template
        ALLOWED_SCENE_TEMPLATES = true := by
      rw [hph, hi]
      show memAllowed p4.scene_template ALLOWED_SCENE_TEMPLATES = true
      rw [kte]
      exact hm
    rw [hpte]
    unfold resolveTemplate
    rw [if_pos him, hph, hi]
    show p4.scene_template = p.scene_template
    exact kte
  · intro hm
    obtain ⟨i, hi⟩ := resolveIntent_shape p4
    obtain ⟨ph, hph⟩ := resolvePhase_shape (resolveIntent p4)
    obtain ⟨te, hte⟩ := resolveTemplate_shape (resolvePhase (resolveIntent p4)) t
    have him : memAllowed (resolveTemplate (resolvePhase (resolveIntent p4)) t).slot_role
        ALLOWED_SLOT_ROLES = true := by
      rw [hte, hph, hi]
      show memAllowed p4.slot_role ALLOWED_SLOT_ROLES = true
      rw [kro]
      exact hm
    rw [hpro]
    unfold resolveRole
    rw [if_pos him, hte, hph, hi]
    show p4.slot_role = p.slot_role
    exact kro

/-- Fields outside the nine semantic ones pass through
`_normalize_payload_semantics` untouched. -/
theorem semShape_untouched {p q : Payload} (h : SemShape p q) :
    q.board_page = p.board_page ∧ q.slot_index = p.slot_index ∧
    q.reserve_height = p.reserve_height ∧ q.transform_chain_id = p.transform_chain_id ∧
    q.text = p.text ∧ q.latex = p.latex ∧ q.step_number = p.step_number ∧
    q.is_page_turn_marker = p.is_page_turn_marker ∧ q.render_order = p.render_order ∧
    q.layout_locked = p.layout_locked ∧ q.temporary = p.temporary ∧
    q.group_id = p.group_id ∧ q.x = p.x ∧ q.y = p.y ∧ q.x1 = p.x1 ∧ q.y1 = p.y1 ∧
    q.x2 = p.x2 ∧ q.y2 = p.y2 ∧ q.cx = p.cx ∧ q.cy = p.cy ∧ q.width = p.width ∧
    q.height = p.height ∧ q.r = p.r := by
  obtain ⟨a, l, z, i, ph, te, ro, sc, sy, rfl⟩ := h
  exact ⟨rfl, rfl, rfl, rfl, rfl, rfl, rfl, rfl, rfl, rfl, rfl, rfl, rfl, rfl,
    rfl, rfl, rfl, rfl, rfl, rfl, rfl, rfl, rfl⟩

theorem normalize_board_page (p : Payload) (t : String) :
    (_normalize_payload_semantics p t).board_page = p.board_page :=
  (semShape_untouched (semShape_normalize p t)).1

theorem normalize_reserve_height (p : Payload) (t : String) :
    (_normalize_payload_semantics p t).reserve_height = p.reserve_height :=
  (semShape_untouched (semShape_normalize p t)).2.2.1

/-- When a payload supplies no zone, or supplies neither anchor nor lane,
normalization resolves a triple satisfying the fixed bijection. -/
theorem normalize_bijection (p : Payload) (t : String)
    (h : p.zone = none ∨ (p.anchor = none ∧ p.lane = none)) :
    bijectionOK (_normalize_payload_semantics p t) = true := by
  obtain ⟨hpa, hpl, hpz, -, -, -, -⟩ := normalize_stage_proj p t
  obtain ⟨a, haA, ha, hl, hz, hzk, hzd, hlk, hak, hdz⟩ := alz_spec p t
  have hzone : (resolveAnchorLaneZone p t).zone = some (anchor_to_zone a) := by
    rcases h with h0 | ⟨han, hln⟩
    · apply hzd
      rw [h0]
      rfl
    · by_cases hm : memAllowed p.zone ALLOWED_ZONES = true
      · obtain ⟨z, hpzv, hzZ⟩ := memAllowed_iff.mp hm
        have hzp := hzk hm
        have haz : a = zone_to_anchor z := by
          have := hdz han hln hm
          rw [hpzv] at this
          simpa using this
        rw [hzp, hpzv, haz, (zone_maps_mem z hzZ).2]
      · apply hzd
        simpa using hm
  unfold bijectionOK
  rw [hpa, hpl, hpz, ha, hl, hzone]
  simp [haA]

/-- C1 — corrected. Placement consistency: when the raw event supplies no
zone, or supplies neither anchor nor lane (in particular when it supplies
at most one member of the triple), the resolved `(zone, anchor, lane)` of
a visual event satisfies the fixed bijection
`work↔main↔derivation, given↔given↔given, scratch↔scratch↔scratch,
final↔final↔final`. (The original claim, which also covered a supplied
zone conflicting with a supplied anchor or lane, is refuted by
`C1_counterexample`.) -/
theorem C1_placement_bijection (raw : RawEvent) (t : String)
    (h : (_build_common_payload raw).zone = none ∨
      ((_build_common_payload raw).anchor = none ∧ (_build_common_payload raw).lane = none)) :
    bijectionOK (_normalize_payload_semantics (_build_common_payload raw) t) = true :=
  normalize_bijection (_build_common_payload raw) t h

/-- C1's probe: a raw event carrying `zone=final` together with
`lane=derivation` resolves to the inconsistent triple
`(zone=final, anchor=work, lane=derivation)` — the supplied zone is kept
while anchor/lane are derived from the lane, so the fixed bijection fails. -/
theorem C1_counterexample :
    c1CexRaw.zone = some "final" ∧ c1CexRaw.lane = some "derivation" ∧
    bijectionOK (_normalize_payload_semantics (_build_common_payload c1CexRaw) "write_text") =
      false := by
  refine ⟨rfl, rfl, ?_⟩
  decide

theorem C1_witness :
    ((_build_common_payload c1WitRaw).zone = none ∨
      ((_build_common_payload c1WitRaw).anchor = none ∧
        (_build_common_payload c1WitRaw).lane = none)) ∧
    bijectionOK (_normalize_payload_semantics (_build_common_payload c1WitRaw) "write_text") =
      true :=
  ⟨Or.inl (by decide), C1_placement_bijection c1WitRaw "write_text" (Or.inl (by decide))⟩

/-- C7 — corrected. Placement resolution fills only missing fields for
zone, lane, intent, teaching_phase, scene_template and slot_role: a value
the raw event supplied with an allowed value is carried through unchanged.
A supplied anchor, however, survives only when no lane was supplied
alongside it — lines 743-745 overwrite the anchor with the lane-derived
one (the original claim's "a supplied anchor survives even when a lane is
also supplied" is refuted by `C7_counterexample`). -/
theorem C7_supplied_fields_survive (raw : RawEvent) (t : String) :
    (memAllowed raw.zone ALLOWED_ZONES = false ∨
      (_normalize_payload_semantics (_build_common_payload raw) t).zone = raw.zone) ∧
    (memAllowed raw.lane ALLOWED_LANES = false ∨
      (_normalize_payload_semantics (_build_common_payload raw) t).lane = raw.lane) ∧
    (memAllowed raw.anchor ALLOWED_ANCHORS = false ∨ memAllowed raw.lane ALLOWED_LANES = true ∨
      (_normalize_payload_semantics (_build_common_payload raw) t).anchor = raw.anchor) ∧
    (memAllowed raw.intent ALLOWED_INTENTS = false ∨
      (_normalize_payload_semantics (_build_common_payload raw) t).intent = raw.intent) ∧
    (memAllowed raw.teaching_phase ALLOWED_TEACHING_PHASES = false ∨
      (_normalize_payload_semantics (_build_common_payload raw) t).teaching_phase =
        raw.teaching_phase) ∧
    (memAllowed raw.scene_template ALLOWED_SCENE_TEMPLATES = false ∨
      (_normalize_payload_semantics (_build_common_payload raw) t).scene_template =
        raw.scene_template) ∧
    (memAllowed raw.slot_role ALLOWED_SLOT_ROLES = false ∨
      (_normalize_payload_semantics (_build_common_payload raw) t).slot_role = raw.slot_role) := by
  set p := _build_common_payload raw with hp
  obtain ⟨przo, prla, pran, prin, prph, prte, prro⟩ := normalize_preserves p t
  have hbz : p.zone = (if memAllowed raw.zone ALLOWED_ZONES then raw.zone else none) := rfl
  have hbl : p.lane = (if memAllowed raw.lane ALLOWED_LANES then raw.lane else none) := rfl
  have hba : p.anchor = (if memAllowed raw.anchor ALLOWED_ANCHORS then raw.anchor else none) := rfl
  have hbi : p.intent = (if memAllowed raw.intent ALLOWED_INTENTS then raw.intent else none) := rfl
  have hbph : p.teaching_phase =
      (if memAllowed raw.teaching_phase ALLOWED_TEACHING_PHASES then raw.teaching_phase
       else none) := rfl
  have hbte : p.scene_template =
      (if memAllowed raw.scene_template ALLOWED_SCENE_TEMPLATES then raw.scene_template
       else none) := rfl
  have hbro : p.slot_role =
      (if memAllowed raw.slot_role ALLOWED_SLOT_ROLES then raw.slot_role else none) := rfl
  refine ⟨?_, ?_, ?_, ?_, ?_, ?_, ?_⟩
  · by_cases hm : memAllowed raw.zone ALLOWED_ZONES = true
    · refine Or.inr ?_
      have hfe : p.zone = raw.zone := by rw [hbz, if_pos hm]
      rw [przo (by rw [hfe]; exact hm), hfe]
    · exact Or.inl (by simpa using hm)
  · by_cases hm : memAllowed raw.lane ALLOWED_LANES = true
    · refine Or.inr ?_
      have hfe : p.lane = raw.lane := by rw [hbl, if_pos hm]
      rw [prla (by rw [hfe]; exact hm), hfe]
    · exact Or.inl (by simpa using hm)
  · by_cases hma : memAllowed raw.anchor ALLOWED_ANCHORS = true
    · by_cases hml : memAllowed raw.lane ALLOWED_LANES = true
      · exact Or.inr (Or.inl hml)
      · refine Or.inr (Or.inr ?_)
        have hfe : p.anchor = raw.anchor := by rw [hba, if_pos hma]
        have hfl : p.lane = none := by
          rw [hbl, if_neg hml]
        rw [pran (by rw [hfe]; exact hma) (by rw [hfl]; rfl), hfe]
    · exact Or.inl (by simpa using hma)
  · by_cases hm : memAllowed raw.intent ALLOWED_INTENTS = true
    · refine Or.inr ?_
      have hfe : p.intent = raw.intent := by rw [hbi, if_pos hm]
      rw [prin (by rw [hfe]; exact hm), hfe]
    · exact Or.inl (by simpa using hm)
  · by_cases hm : memAllowed raw.teaching_phase ALLOWED_TEACHING_PHASES = true
    · refine Or.inr ?_
      have hfe : p.teaching_phase = raw.teaching_phase := by rw [hbph, if_pos hm]
      rw [prph (by rw [hfe]; exact hm), hfe]
    · exact Or.inl (by simpa using hm)
  · by_cases hm : memAllowed raw.scene_template ALLOWED_SCENE_TEMPLATES = true
    · refine Or.inr ?_
      have hfe : p.scene_template = raw.scene_template := by rw [hbte, if_pos hm]
      rw [prte (by rw [hfe]; exact hm), hfe]
    · exact Or.inl (by simpa using hm)
  · by_cases hm : memAllowed raw.slot_role ALLOWED_SLOT_ROLES = true
    · refine Or.inr ?_
      have hfe : p.slot_role = raw.slot_role := by rw [hbro, if_pos hm]
      rw [prro (by rw [hfe]; exact hm), hfe]
    · exact Or.inl (by simpa using hm)

/-- C7's probe: a raw event supplying both `anchor=final` (an allowed
value) and `lane=derivation` does not keep its anchor — normalization
overwrites it with the lane-derived `work`. -/
theorem C7_counterexample :
    c7CexRaw.anchor = some "final" ∧ ("final" ∈ ALLOWED_ANCHORS) ∧
    (_normalize_payload_semantics (_build_common_payload c7CexRaw) "write_text").anchor =
      some "work" := by
  refine ⟨rfl, by decide, ?_⟩
  decide

/-- C8 — corrected. The resolved `slot_role`: `result` when the anchor is
final or the intent is result; `equation` for `write_equation` events
otherwise; and for `write_text` events, `heading` exactly when the
stripped, lowercased text ends with `:` or equals one of the four anchor
names `given`, `work`, `scratch`, `final` (not the lane names as the
original claim said — `derivation` is refuted by `C8_counterexample`),
else `explanation`. -/
theorem C8_slot_role_rule (p : Payload) (a : String) :
    (_infer_slot_role "write_text" p a =
      if a = "final" ∨ p.intent = some "result" then "result"
      else if endsWithColon (pyLower (pyStrip (p.text.getD ""))) = true ∨
          pyLower (pyStrip (p.text.getD "")) ∈ ["given", "work", "scratch", "final"]
        then "heading"
      else "explanation") ∧
    (_infer_slot_role "write_equation" p a =
      if a = "final" ∨ p.intent = some "result" then "result" else "equation") := by
  constructor
  · unfold _infer_slot_role
    by_cases h1 : a = "final" ∨ p.intent = some "result"
    · rw [if_pos h1, if_pos h1]
    · rw [if_neg h1, if_neg h1]
      rw [if_neg (show ¬(("write_text" : String) = "write_equation") by decide)]
      rw [if_pos (show ("write_text" : String) = "write_text" from rfl)]
  · unfold _infer_slot_role
    by_cases h1 : a = "final" ∨ p.intent = some "result"
    · rw [if_pos h1, if_pos h1]
    · rw [if_neg h1, if_neg h1]
      rw [if_pos (show ("write_equation" : String) = "write_equation" from rfl)]

/-- C8's probe: a `write_text` whose text is the lane name `derivation`
(not an anchor name) resolves to `explanation`, not `heading` as the
original claim's "equals a lane name" required. -/
theorem C8_counterexample :
    ("derivation" ∈ ALLOWED_LANES) ∧
    _infer_slot_role "write_text" { text := some "derivation" } "work" = "explanation" := by
  constructor
  · decide
  · decide

set_option maxRecDepth 20000 in
/-- C3 — code bug. Repair sufficiency fails on the empty input: the
repaired step does contain a narrate, an annotate, and ends with a pause,
but it contains only ONE visual event — the block commented "Ensure at
least two visual events" appends a single generic `write_text` when none
exist, leaving the count at 1 instead of the promised ≥ 2. -/
theorem C3_repair_of_empty :
    visualCount (_repair_step_events [] 1 "Solve") = 1 ∧
    (_repair_step_events [] 1 "Solve").any (fun e => e.type = "narrate") = true ∧
    (_repair_step_events [] 1 "Solve").any (fun e => e.type = "annotate") = true ∧
    ((_repair_step_events [] 1 "Solve").getLast?.map (fun e => e.type)) = some "pause" := by
  refine ⟨?_, ?_, ?_, ?_⟩ <;> decide

set_option maxRecDepth 20000 in
/-- C9 — code bug. In the text-only fallback synthesizer the title
narration's duration omits the `int(...)` coercion used everywhere else
(`max(1500, words / 2.5 * 1000)`), so the finalized step carries a Python
float: for a four-word title the narrate event at index 1 has duration
`float 2400`, the sole non-integer duration in the finalized step. -/
theorem C9_fallback_float_duration :
    ((finalizeFallbackStep c9FailStep).get? 1).map (fun e => (e.type, e.duration)) =
      some ("narrate", .float 2400) ∧
    (finalizeFallbackStep c9FailStep).countP (fun e => e.duration.isInt = false) = 1 := by
  have hw : wordCount ("Step " ++ toString (1 : ℤ) ++ ": " ++ "Solve the quadratic equation") =
      6 := by rfl
  constructor <;>
  · simp [finalizeFallbackStep, c9FailStep, _generate_events_from_content, hw,
      _repair_step_events, fallbackMathEvents, ensureNarrate, ensureLeadNarrate, ensureVisuals,
      ensureAnnotate, ensureCheckpoint, ensurePause, repairNormalizePass, repairNormalizeEvent,
      _apply_preplanned_board_metadata, applyGo, pyMax, PyNum.toQ, PyNum.isInt,
      insertAt, synthNarrate, setupNarrate, genericVisual, mkAnnotate, checkpointNarrate, mkPause,
      classifyNarratePhase, _clamp_payload_coordinates, _is_visual_event,
      _normalize_payload_semantics, resolveAnchorLaneZone, alzLaneToAnchor, alzDefaultAnchor,
      alzLaneFromAnchor, alzZone, resolveIntent, resolvePhase,
      resolveTemplate, resolveRole, resolveSceneId, resolveSyncHold,
      resolveSceneId.resolveSceneIdMissing, memAllowed, ALLOWED_LANES, ALLOWED_ANCHORS,
      ALLOWED_ZONES, ALLOWED_INTENTS, ALLOWED_TEACHING_PHASES, ALLOWED_SCENE_TEMPLATES,
      ALLOWED_SLOT_ROLES, _default_anchor_for_event, lane_to_anchor, anchor_to_lane,
      anchor_to_zone, _infer_slot_role, _infer_scene_template, _default_sync_hold_ms,
      effectiveReserve, _default_reserve_height, LANE_HEIGHT_BUDGET, pyStrip, pyLower,
      endsWithColon, strTruthy, pyIn, charsAnywhere, charsLeading, _latex_complexity_score,
      countPat, _estimate_event_duration_ms, visualCount]
    norm_num

set_option maxRecDepth 20000 in
/-- C4's probe: repairing the empty step twice is not the same as
repairing it once — the second pass appends another generic visual (the
first pass left only one) and another closing pause. -/
theorem C4_counterexample :
    _repair_step_events (_repair_step_events [] 1 "Solve") 1 "Solve" ≠
      _repair_step_events [] 1 "Solve" := by
  intro h
  have hlen := congrArg List.length h
  revert hlen
  decide

/-! ## Chat overlay adapter lemmas (claims C5, C10) -/

theorem semShape_temporary {p q : Payload} (h : SemShape p q) : q.temporary = p.temporary := by
  obtain ⟨a, l, z, i, ph, te, ro, sc, sy, rfl⟩ := h
  rfl

theorem semShape_group_id {p q : Payload} (h : SemShape p q) : q.group_id = p.group_id := by
  obtain ⟨a, l, z, i, ph, te, ro, sc, sy, rfl⟩ := h
  rfl

theorem semShape_clear_id {p q : Payload} (h : SemShape p q) : q.clear_id = p.clear_id := by
  obtain ⟨a, l, z, i, ph, te, ro, sc, sy, rfl⟩ := h
  rfl

theorem chatForceScratch_shape (p : Payload) :
    ∃ i, chatForceScratch p =
      { p with
        lane := some "scratch", anchor := some "scratch", zone := some "scratch",
        intent := i } := by
  unfold chatForceScratch
  dsimp only
  split
  · exact ⟨_, Eq.refl _⟩
  · exact ⟨p.intent, Eq.refl _⟩

theorem chatDefaultReserve_shape (t : String) (p : Payload) :
    ∃ r, chatDefaultReserve t p = { p with reserve_height := r } := by
  unfold chatDefaultReserve
  split
  · split
    · exact ⟨_, Eq.refl _⟩
    · exact ⟨p.reserve_height, Eq.refl _⟩
  · exact ⟨p.reserve_height, Eq.refl _⟩

/-- Every retained chat event is tagged `temporary=true` with the shared
group id. -/
theorem chatAdjust_tagged (e : Event) :
    (chatAdjustPayload e).temporary = some true ∧
    (chatAdjustPayload e).group_id = some chatGroupId := by
  unfold chatAdjustPayload
  split
  · obtain ⟨i, hf⟩ := chatForceScratch_shape (chatTagPayload e)
    obtain ⟨r, hr⟩ := chatDefaultReserve_shape e.type
      (_normalize_payload_semantics (chatForceScratch (chatTagPayload e)) e.type)
    rw [hr]
    constructor
    · show (_normalize_payload_semantics (chatForceScratch (chatTagPayload e))
        e.type).temporary = some true
      rw [semShape_temporary (semShape_normalize _ _), hf]
      rfl
    · show (_normalize_payload_semantics (chatForceScratch (chatTagPayload e))
        e.type).group_id = some chatGroupId
      rw [semShape_group_id (semShape_normalize _ _), hf]
      rfl
  · exact ⟨rfl, rfl⟩

/-- The adjusted payload of a retained clear_section (or any non-visual
event) keeps its `clear_id`. -/
theorem chatAdjust_clear_id (e : Event) (h : _is_visual_event e.type = false) :
    (chatAdjustPayload e).clear_id = e.payload.clear_id := by
  unfold chatAdjustPayload
  rw [h]
  simp only [Bool.false_eq_true, if_false]
  rfl

/-- A retained visual chat event ends in the scratch lane. -/
theorem chatAdjust_visual_lane (e : Event) (hv : _is_visual_event e.type = true) :
    (chatAdjustPayload e).lane = some "scratch" := by
  unfold chatAdjustPayload
  rw [if_pos hv]
  obtain ⟨i, hf⟩ := chatForceScratch_shape (chatTagPayload e)
  obtain ⟨r, hr⟩ := chatDefaultReserve_shape e.type
    (_normalize_payload_semantics (chatForceScratch (chatTagPayload e)) e.type)
  rw [hr]
  show (_normalize_payload_semantics (chatForceScratch (chatTagPayload e)) e.type).lane =
    some "scratch"
  obtain ⟨-, prla, -, -, -, -, -⟩ := normalize_preserves (chatForceScratch (chatTagPayload e)) e.type
  have hm : memAllowed (chatForceScratch (chatTagPayload e)).lane ALLOWED_LANES = true := by
    rw [hf]
    rfl
  rw [prla hm, hf]

/-- `clear_section` events are never stripped and never counted toward a
cap: the retention loop keeps exactly as many as the input had. -/
theorem chatKeep_clear_count (evs : List Event) : ∀ n v,
    (chatKeep n v evs).1.countP (fun e => e.type = "clear_section") =
      evs.countP (fun e => e.type = "clear_section") := by
  induction evs with
  | nil => intro n v; rfl
  | cons e rest ih =>
    intro n v
    by_cases h1 : e.type = "step_marker"
    · rw [show chatKeep n v (e :: rest) = chatKeep n v rest by simp [chatKeep, h1]]
      rw [ih, List.countP_cons]
      simp [h1]
    · by_cases h2 : e.type = "narrate"
      · by_cases hn : 1 ≤ n
        · rw [show chatKeep n v (e :: rest) = chatKeep n v rest by simp [chatKeep, h1, h2, hn]]
          rw [ih, List.countP_cons]
          simp [h2]
        · rw [show chatKeep n v (e :: rest) =
              ({ e with payload := chatAdjustPayload e } :: (chatKeep (n + 1) v rest).1,
                (chatKeep (n + 1) v rest).2) by simp [chatKeep, h1, h2, hn]]
          rw [List.countP_cons, List.countP_cons, ih]
      · by_cases h3 : e.type ∈ CHAT_VISUAL_OR_ANNOT
        · by_cases hv : 4 ≤ v
          · rw [show chatKeep n v (e :: rest) = chatKeep n v rest by
              simp [chatKeep, h1, h2, h3, hv]]
            rw [ih, List.countP_cons]
            have hne : ¬ (e.type = "clear_section") := by
              intro hc
              rw [hc] at h3
              exact absurd h3 (by decide)
            simp [hne]
          · rw [show chatKeep n v (e :: rest) =
                ({ e with payload := chatAdjustPayload e } :: (chatKeep n (v + 1) rest).1,
                  if _is_visual_event e.type then e.id :: (chatKeep n (v + 1) rest).2
                  else (chatKeep n (v + 1) rest).2) by simp [chatKeep, h1, h2, h3, hv]]
            rw [List.countP_cons, List.countP_cons, ih]
        · by_cases h4 : e.type = "pause"
          · rw [show chatKeep n v (e :: rest) = chatKeep n v rest by
              simp [chatKeep, h1, h2, h4, CHAT_VISUAL_OR_ANNOT]]
            rw [ih, List.countP_cons]
            simp [h4]
          · rw [show chatKeep n v (e :: rest) =
                ({ e with payload := chatAdjustPayload e } :: (chatKeep n v rest).1,
                  (chatKeep n v rest).2) by simp [chatKeep, h1, h2, h3, h4]]
            rw [List.countP_cons, List.countP_cons, ih]

/-- At most `1 - n` further narrate events are retained. -/
theorem chatKeep_narrate_le (evs : List Event) : ∀ n v,
    (chatKeep n v evs).1.countP (fun e => e.type = "narrate") ≤ 1 - n := by
  induction evs with
  | nil => intro n v; simp [chatKeep]
  | cons e rest ih =>
    intro n v
    by_cases h1 : e.type = "step_marker"
    · rw [show chatKeep n v (e :: rest) = chatKeep n v rest by simp [chatKeep, h1]]
      exact ih n v
    · by_cases h2 : e.type = "narrate"
      · by_cases hn : 1 ≤ n
        · rw [show chatKeep n v (e :: rest) = chatKeep n v rest by simp [chatKeep, h1, h2, hn]]
          exact ih n v
        · rw [show chatKeep n v (e :: rest) =
              ({ e with payload := chatAdjustPayload e } :: (chatKeep (n + 1) v rest).1,
                (chatKeep (n + 1) v rest).2) by simp [chatKeep, h1, h2, hn]]
          rw [List.countP_cons]
          have hrec := ih (n + 1) v
          have h0 : n = 0 := by omega
          subst h0
          simp only [Nat.sub_self, Nat.le_zero] at hrec
          rw [hrec]
          simp [h2]
      · by_cases h3 : e.type ∈ CHAT_VISUAL_OR_ANNOT
        · by_cases hv : 4 ≤ v
          · rw [show chatKeep n v (e :: rest) = chatKeep n v rest by
              simp [chatKeep, h1, h2, h3, hv]]
            exact ih n v
          · rw [show chatKeep n v (e :: rest) =
                ({ e with payload := chatAdjustPayload e } :: (chatKeep n (v + 1) rest).1,
                  if _is_visual_event e.type then e.id :: (chatKeep n (v + 1) rest).2
                  else (chatKeep n (v + 1) rest).2) by simp [chatKeep, h1, h2, h3, hv]]
            rw [List.countP_cons]
            have hrec := ih n (v + 1)
            simp [h2] <;> omega
        · by_cases h4 : e.type = "pause"
          · rw [show chatKeep n v (e :: rest) = chatKeep n v rest by
              simp [chatKeep, h1, h2, h4, CHAT_VISUAL_OR_ANNOT]]
            exact ih n v
          · rw [show chatKeep n v (e :: rest) =
                ({ e with payload := chatAdjustPayload e } :: (chatKeep n v rest).1,
                  (chatKeep n v rest).2) by simp [chatKeep, h1, h2, h3, h4]]
            rw [List.countP_cons]
            have hrec := ih n v
            simp [h2] <;> omega

/-- At most `4 - v` further visual/annotation events are retained. -/
theorem chatKeep_chatset_le (evs : List Event) : ∀ n v,
    (chatKeep n v evs).1.countP (fun e => e.type ∈ CHAT_VISUAL_OR_ANNOT) ≤ 4 - v := by
  induction evs with
  | nil => intro n v; simp [chatKeep]
  | cons e rest ih =>
    intro n v
    by_cases h1 : e.type = "step_marker"
    · rw [show chatKeep n v (e :: rest) = chatKeep n v rest by simp [chatKeep, h1]]
      exact ih n v
    · by_cases h2 : e.type = "narrate"
      · by_cases hn : 1 ≤ n
        · rw [show chatKeep n v (e :: rest) = chatKeep n v rest by simp [chatKeep, h1, h2, hn]]
          exact ih n v
        · rw [show chatKeep n v (e :: rest) =
              ({ e with payload := chatAdjustPayload e } :: (chatKeep (n + 1) v rest).1,
                (chatKeep (n + 1) v rest).2) by simp [chatKeep, h1, h2, hn]]
          rw [List.countP_cons]
          have hrec := ih (n + 1) v
          have hne : ¬ (e.type ∈ CHAT_VISUAL_OR_ANNOT) := by
            rw [h2]
            decide
          simp [hne] <;> omega
      · by_cases h3 : e.type ∈ CHAT_VISUAL_OR_ANNOT
        · by_cases hv : 4 ≤ v
          · rw [show chatKeep n v (e :: rest) = chatKeep n v rest by
              simp [chatKeep, h1, h2, h3, hv]]
            exact ih n v
          · rw [show chatKeep n v (e :: rest) =
                ({ e with payload := chatAdjustPayload e } :: (chatKeep n (v + 1) rest).1,
                  if _is_visual_event e.type then e.id :: (chatKeep n (v + 1) rest).2
                  else (chatKeep n (v + 1) rest).2) by simp [chatKeep, h1, h2, h3, hv]]
            rw [List.countP_cons]
            have hrec := ih n (v + 1)
            simp [h3] <;> omega
        · by_cases h4 : e.type = "pause"
          · rw [show chatKeep n v (e :: rest) = chatKeep n v rest by
              simp [chatKeep, h1, h2, h4, CHAT_VISUAL_OR_ANNOT]]
            exact ih n v
          · rw [show chatKeep n v (e :: rest) =
                ({ e with payload := chatAdjustPayload e } :: (chatKeep n v rest).1,
                  (chatKeep n v rest).2) by simp [chatKeep, h1, h2, h3, h4]]
            rw [List.countP_cons]
            have hrec := ih n v
            simp [h3] <;> omega

/-- Every retained event's payload is the adjusted payload of an input
event of the same type and id. -/
theorem chatKeep_mem (evs : List Event) : ∀ n v e', e' ∈ (chatKeep n v evs).1 →
    ∃ e, e ∈ evs ∧ e' = { e with payload := chatAdjustPayload e } := by
  induction evs with
  | nil =>
    intro n v e' h
    simp [chatKeep] at h
  | cons e rest ih =>
    intro n v e' h
    by_cases h1 : e.type = "step_marker"
    · rw [show chatKeep n v (e :: rest) = chatKeep n v rest by simp [chatKeep, h1]] at h
      obtain ⟨x, hx, he'⟩ := ih n v e' h
      exact ⟨x, List.mem_cons_of_mem e hx, he'⟩
    · by_cases h2 : e.type = "narrate"
      · by_cases hn : 1 ≤ n
        · rw [show chatKeep n v (e :: rest) = chatKeep n v rest by
            simp [chatKeep, h1, h2, hn]] at h
          obtain ⟨x, hx, he'⟩ := ih n v e' h
          exact ⟨x, List.mem_cons_of_mem e hx, he'⟩
        · rw [show chatKeep n v (e :: rest) =
              ({ e with payload := chatAdjustPayload e } :: (chatKeep (n + 1) v rest).1,
                (chatKeep (n + 1) v rest).2) by simp [chatKeep, h1, h2, hn]] at h
          rcases List.mem_cons.mp h with hh | hh
          · exact ⟨e, List.mem_cons_self e rest, hh⟩
          · obtain ⟨x, hx, he'⟩ := ih (n + 1) v e' hh
            exact ⟨x, List.mem_cons_of_mem e hx, he'⟩
      · by_cases h3 : e.type ∈ CHAT_VISUAL_OR_ANNOT
        · by_cases hv : 4 ≤ v
          · rw [show chatKeep n v (e :: rest) = chatKeep n v rest by
              simp [chatKeep, h1, h2, h3, hv]] at h
            obtain ⟨x, hx, he'⟩ := ih n v e' h
            exact ⟨x, List.mem_cons_of_mem e hx, he'⟩
          · rw [show chatKeep n v (e :: rest) =
                ({ e with payload := chatAdjustPayload e } :: (chatKeep n (v + 1) rest).1,
                  if _is_visual_event e.type then e.id :: (chatKeep n (v + 1) rest).2
                  else (chatKeep n (v + 1) rest).2) by simp [chatKeep, h1, h2, h3, hv]] at h
            rcases List.mem_cons.mp h with hh | hh
            · exact ⟨e, List.mem_cons_self e rest, hh⟩
            · obtain ⟨x, hx, he'⟩ := ih n (v + 1) e' hh
              exact ⟨x, List.mem_cons_of_mem e hx, he'⟩
        · by_cases h4 : e.type = "pause"
          · rw [show chatKeep n v (e :: rest) = chatKeep n v rest by
              simp [chatKeep, h1, h2, h4, CHAT_VISUAL_OR_ANNOT]] at h
            obtain ⟨x, hx, he'⟩ := ih n v e' h
            exact ⟨x, List.mem_cons_of_mem e hx, he'⟩
          · rw [show chatKeep n v (e :: rest) =
                ({ e with payload := chatAdjustPayload e } :: (chatKeep n v rest).1,
                  (chatKeep n v rest).2) by simp [chatKeep, h1, h2, h3, h4]] at h
            rcases List.mem_cons.mp h with hh | hh
            · exact ⟨e, List.mem_cons_self e rest, hh⟩
            · obtain ⟨x, hx, he'⟩ := ih n v e' hh
              exact ⟨x, List.mem_cons_of_mem e hx, he'⟩

theorem visual_mem_chatset (s : String) (h : _is_visual_event s = true) :
    s ∈ CHAT_VISUAL_OR_ANNOT := by
  simp [_is_visual_event] at h
  simp [CHAT_VISUAL_OR_ANNOT]
  tauto

/-- Every generated cleanup event is a tagged `clear_section` for one of
the retained visual ids. -/
theorem mkCleanups_mem (ids : List EventId) : ∀ k e, e ∈ mkCleanups k ids →
    e.type = "clear_section" ∧ e.payload.temporary = some true ∧
    e.payload.group_id = some chatGroupId ∧ ∃ x ∈ ids, e.payload.clear_id = some x := by
  induction ids with
  | nil => intro k e h; simp [mkCleanups] at h
  | cons id idsr ih =>
    intro k e h
    rw [mkCleanups] at h
    rcases List.mem_cons.mp h with hh | hh
    · subst hh
      exact ⟨rfl, rfl, rfl, id, List.mem_cons_self id idsr, rfl⟩
    · obtain ⟨ht, htmp, hgrp, x, hx, hcid⟩ := ih (k + 1) e hh
      exact ⟨ht, htmp, hgrp, x, List.mem_cons_of_mem id hx, hcid⟩

/-- One cleanup per listed id: the number of cleanups that clear `x` is
the number of occurrences of `x` in the id list. -/
theorem mkCleanups_countP_clear_id (ids : List EventId) : ∀ k (x : EventId),
    (mkCleanups k ids).countP (fun c => c.payload.clear_id = some x) = ids.count x := by
  induction ids with
  | nil => intro k x; simp [mkCleanups]
  | cons id idsr ih =>
    intro k x
    rw [mkCleanups, List.countP_cons, ih (k + 1) x, List.count_cons]
    by_cases hx : id = x
    · simp [hx]
    · have hx' : ¬ (x = id) := fun hc => hx hc.symm
      simp [hx, hx']

theorem mkCleanups_clear_type (ids : List EventId) : ∀ k,
    (mkCleanups k ids).countP (fun e => e.type = "narrate") = 0 ∧
    (mkCleanups k ids).countP (fun e => e.type ∈ CHAT_VISUAL_OR_ANNOT) = 0 := by
  induction ids with
  | nil => intro k; simp [mkCleanups]
  | cons id idsr ih =>
    intro k
    rw [mkCleanups]
    rw [List.countP_cons, List.countP_cons]
    obtain ⟨h1, h2⟩ := ih (k + 1)
    rw [h1, h2]
    constructor <;> simp [CHAT_VISUAL_OR_ANNOT]

/-- The retained visual-id accumulator is exactly the ids of the retained
visual events, in order. -/
theorem chatKeep_ids (evs : List Event) : ∀ n v,
    (chatKeep n v evs).2 =
      ((chatKeep n v evs).1.filter (fun e => _is_visual_event e.type)).map (fun e => e.id) := by
  induction evs with
  | nil => intro n v; rfl
  | cons e rest ih =>
    intro n v
    by_cases h1 : e.type = "step_marker"
    · rw [show chatKeep n v (e :: rest) = chatKeep n v rest by simp [chatKeep, h1]]
      exact ih n v
    · by_cases h2 : e.type = "narrate"
      · by_cases hn : 1 ≤ n
        · rw [show chatKeep n v (e :: rest) = chatKeep n v rest by simp [chatKeep, h1, h2, hn]]
          exact ih n v
        · rw [show chatKeep n v (e :: rest) =
              ({ e with payload := chatAdjustPayload e } :: (chatKeep (n + 1) v rest).1,
                (chatKeep (n + 1) v rest).2) by simp [chatKeep, h1, h2, hn]]
          have hnv : _is_visual_event e.type = false := by
            rw [h2]
            rfl
          simp only [List.filter_cons, hnv, Bool.false_eq_true, if_false]
          exact ih (n + 1) v
      · by_cases h3 : e.type ∈ CHAT_VISUAL_OR_ANNOT
        · by_cases hv : 4 ≤ v
          · rw [show chatKeep n v (e :: rest) = chatKeep n v rest by
              simp [chatKeep, h1, h2, h3, hv]]
            exact ih n v
          · rw [show chatKeep n v (e :: rest) =
                ({ e with payload := chatAdjustPayload e } :: (chatKeep n (v + 1) rest).1,
                  if _is_visual_event e.type then e.id :: (chatKeep n (v + 1) rest).2
                  else (chatKeep n (v + 1) rest).2) by simp [chatKeep, h1, h2, h3, hv]]
            simp only [List.filter_cons]
            by_cases hvz : _is_visual_event e.type = true
            · simp only [hvz, if_true, List.map_cons]
              rw [ih n (v + 1)]
            · have hvz' : _is_visual_event e.type = false := by
                cases hb : _is_visual_event e.type
                · rfl
                · exact absurd hb hvz
              simp only [hvz', Bool.false_eq_true, if_false]
              exact ih n (v + 1)
        · by_cases h4 : e.type = "pause"
          · rw [show chatKeep n v (e :: rest) = chatKeep n v rest by
              simp [chatKeep, h1, h2, h4, CHAT_VISUAL_OR_ANNOT]]
            exact ih n v
          · rw [show chatKeep n v (e :: rest) =
                ({ e with payload := chatAdjustPayload e } :: (chatKeep n v rest).1,
                  (chatKeep n v rest).2) by simp [chatKeep, h1, h2, h3, h4]]
            have hnv : _is_visual_event e.type = false := by
              cases hb : _is_visual_event e.type
              · rfl
              · exact absurd (visual_mem_chatset e.type hb) h3
            simp only [List.filter_cons, hnv, Bool.false_eq_true, if_false]
            exact ih n v

/-- The retained events' ids form a sublist of the input ids. -/
theorem chatKeep_map_id_sublist (evs : List Event) : ∀ n v,
    ((chatKeep n v evs).1.map (fun e => e.id)).Sublist (evs.map (fun e => e.id)) := by
  induction evs with
  | nil => intro n v; simp [chatKeep]
  | cons e rest ih =>
    intro n v
    by_cases h1 : e.type = "step_marker"
    · rw [show chatKeep n v (e :: rest) = chatKeep n v rest by simp [chatKeep, h1]]
      exact (ih n v).trans (List.sublist_cons_self _ _)
    · by_cases h2 : e.type = "narrate"
      · by_cases hn : 1 ≤ n
        · rw [show chatKeep n v (e :: rest) = chatKeep n v rest by simp [chatKeep, h1, h2, hn]]
          exact (ih n v).trans (List.sublist_cons_self _ _)
        · rw [show chatKeep n v (e :: rest) =
              ({ e with payload := chatAdjustPayload e } :: (chatKeep (n + 1) v rest).1,
                (chatKeep (n + 1) v rest).2) by simp [chatKeep, h1, h2, hn]]
          simp only [List.map_cons]
          exact List.Sublist.cons₂ _ (ih (n + 1) v)
      · by_cases h3 : e.type ∈ CHAT_VISUAL_OR_ANNOT
        · by_cases hv : 4 ≤ v
          · rw [show chatKeep n v (e :: rest) = chatKeep n v rest by
              simp [chatKeep, h1, h2, h3, hv]]
            exact (ih n v).trans (List.sublist_cons_self _ _)
          · rw [show chatKeep n v (e :: rest) =
                ({ e with payload := chatAdjustPayload e } :: (chatKeep n (v + 1) rest).1,
                  if _is_visual_event e.type then e.id :: (chatKeep n (v + 1) rest).2
                  else (chatKeep n (v + 1) rest).2) by simp [chatKeep, h1, h2, h3, hv]]
            simp only [List.map_cons]
            exact List.Sublist.cons₂ _ (ih n (v + 1))
        · by_cases h4 : e.type = "pause"
          · rw [show chatKeep n v (e :: rest) = chatKeep n v rest by
              simp [chatKeep, h1, h2, h4, CHAT_VISUAL_OR_ANNOT]]
            exact (ih n v).trans (List.sublist_cons_self _ _)
          · rw [show chatKeep n v (e :: rest) =
                ({ e with payload := chatAdjustPayload e } :: (chatKeep n v rest).1,
                  (chatKeep n v rest).2) by simp [chatKeep, h1, h2, h3, h4]]
            simp only [List.map_cons]
            exact List.Sublist.cons₂ _ (ih n v)

/-- `_mark_chat_events_temporary` decomposes into the retained events, the
generated cleanups, and an optional trailing pause. -/
theorem mark_chat_decompose (evs : List Event) :
    ∃ tail, _mark_chat_events_temporary evs =
      (chatKeep 0 0 evs).1 ++ (mkCleanups 0 (chatKeep 0 0 evs).2 ++ tail) ∧
      (tail = [] ∨ tail = [chatFinalPause]) := by
  unfold _mark_chat_events_temporary
  dsimp only
  split
  · split
    · exact ⟨[chatFinalPause], by rw [List.append_assoc], Or.inr rfl⟩
    · exact ⟨[], by rw [List.append_nil], Or.inl rfl⟩
  · exact ⟨[], by rw [List.append_nil], Or.inl rfl⟩

theorem build_common_clear_id (raw : RawEvent) :
    (_build_common_payload raw).clear_id = none := rfl

/-- The chain/reserve adjustment only touches `reserve_height` and
`transform_chain_id`. -/
theorem streamVisualAdjust_shape (t : String) (raw : RawEvent) (p : Payload)
    (chain : Option String) (sn : Option ℤ) (pfx : String) :
    ∃ r c, (streamVisualAdjust t raw p chain sn pfx).1 =
      { p with reserve_height := r, transform_chain_id := c } := by
  unfold streamVisualAdjust
  dsimp only
  split
  · have hpay : ∃ r, (match p.reserve_height with
        | none =>
          match _default_reserve_height t (raw.latex.getD "") (raw.text.getD "") with
          | some reserve => { p with reserve_height := some reserve }
          | none => p
        | some _ => p) = { p with reserve_height := r } := by
      cases hr : p.reserve_height with
      | none =>
        cases hd : _default_reserve_height t (raw.latex.getD "") (raw.text.getD "") with
        | none =>
          refine ⟨none, ?_⟩
          conv_rhs => rw [← hr]
        | some d => exact ⟨some d, rfl⟩
      | some v =>
        refine ⟨some v, ?_⟩
        conv_rhs => rw [← hr]
    obtain ⟨r, hpay⟩ := hpay
    rw [hpay]
    split
    · split
      · exact ⟨r, p.transform_chain_id, rfl⟩
      · exact ⟨r, _, rfl⟩
    · split
      · exact ⟨r, p.transform_chain_id, rfl⟩
      · exact ⟨r, p.transform_chain_id, rfl⟩
  · exact ⟨p.reserve_height, p.transform_chain_id, rfl⟩

set_option maxHeartbeats 1000000 in
/-- The per-type adjustment either leaves `clear_id` alone or (for a
clear_section) sets it from the raw event's id reference. -/
theorem streamTypedPayload_clear_id (t : String) (raw : RawEvent) (p : Payload)
    (proc : List Event) (q : Payload) (h : streamTypedPayload t raw p proc = some q) :
    q.clear_id = p.clear_id ∨ q.clear_id = raw.clear_id.map EventId.str := by
  by_cases h1 : t = "narrate"
  · simp [streamTypedPayload, h1] at h
    subst h
    exact Or.inl rfl
  · by_cases h2 : t = "write_equation"
    · simp [streamTypedPayload, h1, h2] at h
      subst h
      left
      rw [semShape_clear_id (semShape_normalize _ _)]
    · by_cases h3 : t = "write_text"
      · simp [streamTypedPayload, h1, h2, h3] at h
        subst h
        left
        rw [semShape_clear_id (semShape_normalize _ _)]
      · by_cases h4 : t = "annotate"
        · simp [streamTypedPayload, h1, h2, h3, h4,
            Option.some.injEq] at h
          subst h
          left
          split
          · split
            · split
              · rfl
              · rfl
            · split
              · rfl
              · rfl
          · split
            · split
              · rfl
              · rfl
            · split
              · rfl
              · rfl
        · by_cases h5 : t = "clear_section"
          · simp [streamTypedPayload, h1, h2, h3, h4, h5,
              Option.some.injEq] at h
            subst h
            right
            split
            · rfl
            · rfl
          · by_cases h6 : t = "pause"
            · simp [streamTypedPayload, h1, h2, h3, h4, h5, h6,
                Option.some.injEq] at h
              subst h
              exact Or.inl rfl
            · by_cases h7 : t ∈ ["draw_line", "draw_arrow", "draw_rect", "draw_circle",
                "draw_axes", "plot_curve"]
              · simp [streamTypedPayload, h1, h2, h3, h4, h5, h6, h7,
                  Option.some.injEq] at h
                subst h
                left
                rw [semShape_clear_id (semShape_normalize _ _)]
              · simp [streamTypedPayload, h1, h2, h3, h4, h5, h6, h7] at h

/-- In chat mode every emitted event id is an index id at or past the
current index. -/
theorem streamGo_id_shape (pfx : String) (raws : List RawEvent) : ∀ i off proc chain e,
    e ∈ streamGo none pfx i off proc chain raws →
    ∃ j, i ≤ j ∧ e.id = EventId.chatIdx j := by
  induction raws with
  | nil => intro i off proc chain e h; simp [streamGo] at h
  | cons raw rest ih =>
    intro i off proc chain e h
    rw [streamGo] at h
    dsimp only at h
    cases htp : streamTypedPayload raw.type raw (_build_common_payload raw) proc with
    | none =>
      simp only [htp] at h
      obtain ⟨j, hj, hid⟩ := ih (i + 1) off proc chain e h
      exact ⟨j, by omega, hid⟩
    | some pl =>
      simp only [htp] at h
      rcases hsv : streamVisualAdjust raw.type raw pl chain none pfx with ⟨p2, c2⟩
      simp only [hsv] at h
      rcases List.mem_cons.mp h with hh | hh
      · subst hh
        exact ⟨i, le_refl i, rfl⟩
      · obtain ⟨j, hj, hid⟩ := ih (i + 1) off _ c2 e hh
        exact ⟨j, by omega, hid⟩

/-- Chat-mode stream event ids are pairwise distinct. -/
theorem streamGo_ids_nodup (pfx : String) (raws : List RawEvent) : ∀ i off proc chain,
    ((streamGo none pfx i off proc chain raws).map (fun e => e.id)).Nodup := by
  induction raws with
  | nil => intro i off proc chain; simp [streamGo]
  | cons raw rest ih =>
    intro i off proc chain
    rw [streamGo]
    dsimp only
    cases htp : streamTypedPayload raw.type raw (_build_common_payload raw) proc with
    | none =>
      simp only [htp]
      exact ih (i + 1) off proc chain
    | some pl =>
      simp only [htp]
      rcases hsv : streamVisualAdjust raw.type raw pl chain none pfx with ⟨p2, c2⟩
      simp only [hsv, List.map_cons]
      refine List.nodup_cons.mpr ⟨?_, ih (i + 1) off _ c2⟩
      intro hmem
      obtain ⟨e, he, hide⟩ := List.mem_map.mp hmem
      obtain ⟨j, hj, hid⟩ := streamGo_id_shape pfx rest (i + 1) off _ c2 e he
      have : EventId.chatIdx j = EventId.chatIdx i := hid.symm.trans hide
      injection this with h'
      omega

/-- A chat-mode stream event's `clear_id` is either absent or a raw string
reference; it is never an index id. -/
theorem streamGo_clear_id (pfx : String) (raws : List RawEvent) : ∀ i off proc chain e,
    e ∈ streamGo none pfx i off proc chain raws →
    e.payload.clear_id = none ∨ ∃ s, e.payload.clear_id = some (EventId.str s) := by
  induction raws with
  | nil => intro i off proc chain e h; simp [streamGo] at h
  | cons raw rest ih =>
    intro i off proc chain e h
    rw [streamGo] at h
    dsimp only at h
    cases htp : streamTypedPayload raw.type raw (_build_common_payload raw) proc with
    | none =>
      simp only [htp] at h
      exact ih (i + 1) off proc chain e h
    | some pl =>
      simp only [htp] at h
      rcases hsv : streamVisualAdjust raw.type raw pl chain none pfx with ⟨p2, c2⟩
      simp only [hsv] at h
      rcases List.mem_cons.mp h with hh | hh
      · subst hh
        show p2.clear_id = none ∨ ∃ s, p2.clear_id = some (EventId.str s)
        obtain ⟨r, c, hshape⟩ := streamVisualAdjust_shape raw.type raw pl chain none pfx
        rw [hsv] at hshape
        have hp2 : p2.clear_id = pl.clear_id := by rw [show p2 = (p2, c2).1 from rfl, hshape]
        rw [hp2]
        rcases streamTypedPayload_clear_id raw.type raw (_build_common_payload raw) proc pl htp
          with hc | hc
        · rw [hc, build_common_clear_id]
          exact Or.inl rfl
        · rw [hc]
          cases raw.clear_id with
          | none => exact Or.inl rfl
          | some s => exact Or.inr ⟨s, rfl⟩
      · exact ih (i + 1) off _ c2 e hh

theorem mkCleanups_countP_clear_full (ids : List EventId) : ∀ k (x : EventId),
    (mkCleanups k ids).countP
      (fun c => c.type = "clear_section" ∧ c.payload.clear_id = some x) = ids.count x := by
  induction ids with
  | nil => intro k x; simp [mkCleanups]
  | cons id idsr ih =>
    intro k x
    rw [mkCleanups, List.countP_cons, ih (k + 1) x, List.count_cons]
    by_cases hx : id = x
    · simp [hx]
    · have hx' : ¬ (x = id) := fun hc => hx hc.symm
      simp [hx, hx']

/-- The full overlay contract of `_mark_chat_events_temporary`, for any
input whose ids are distinct index ids and whose clear references are
string references (as the chat stream guarantees). -/
theorem chat_overlay_core (evs : List Event)
    (hnodup : ((evs.map (fun e => e.id))).Nodup)
    (hidx : ∀ e ∈ evs, ∃ j, e.id = EventId.chatIdx j)
    (hclr : ∀ e ∈ evs, e.payload.clear_id = none ∨
      ∃ s, e.payload.clear_id = some (EventId.str s)) :
    (_mark_chat_events_temporary evs).countP (fun e => e.type = "narrate") ≤ 1 ∧
    (_mark_chat_events_temporary evs).countP (fun e => e.type ∈ CHAT_VISUAL_OR_ANNOT) ≤ 4 ∧
    ∀ e' ∈ _mark_chat_events_temporary evs, _is_visual_event e'.type = true →
      e'.payload.temporary = some true ∧ e'.payload.lane = some "scratch" ∧
      (_mark_chat_events_temporary evs).countP
        (fun c => c.type = "clear_section" ∧ c.payload.clear_id = some e'.id) = 1 := by
  obtain ⟨tail, hdec, htail⟩ := mark_chat_decompose evs
  rw [hdec]
  have htn : ∀ (pr : Event → Bool), pr chatFinalPause = false → tail.countP pr = 0 := by
    rcases htail with rfl | rfl
    · intro pr hp; rfl
    · intro pr hp; simp [List.countP_cons, hp]
  refine ⟨?_, ?_, ?_⟩
  · rw [List.countP_append, List.countP_append]
    have h1 := chatKeep_narrate_le evs 0 0
    have h2 := (mkCleanups_clear_type (chatKeep 0 0 evs).2 0).1
    have h3 := htn (fun e => decide (e.type = "narrate")) rfl
    omega
  · rw [List.countP_append, List.countP_append]
    have h1 := chatKeep_chatset_le evs 0 0
    have h2 := (mkCleanups_clear_type (chatKeep 0 0 evs).2 0).2
    have h3 := htn (fun e => decide (e.type ∈ CHAT_VISUAL_OR_ANNOT)) rfl
    omega
  · intro e' he' hv
    have hk : e' ∈ (chatKeep 0 0 evs).1 := by
      rcases List.mem_append.mp he' with hk | hrest
      · exact hk
      · rcases List.mem_append.mp hrest with hc | htl
        · obtain ⟨ht, -, -, -⟩ := mkCleanups_mem _ 0 e' hc
          rw [ht] at hv
          exact absurd hv (by decide)
        · rcases htail with rfl | rfl
          · simp at htl
          · have he'p := List.mem_singleton.mp htl
            subst he'p
            exact absurd hv (by decide)
    obtain ⟨z, hz, he'eq⟩ := chatKeep_mem evs 0 0 e' hk
    have he'pay : e'.payload = chatAdjustPayload z := by rw [he'eq]
    have hztype : z.type = e'.type := by rw [he'eq]
    have hzv : _is_visual_event z.type = true := by rw [hztype]; exact hv
    obtain ⟨j, hzid⟩ := hidx z hz
    have he'id : e'.id = EventId.chatIdx j := by rw [he'eq]; exact hzid
    refine ⟨?_, ?_, ?_⟩
    · rw [he'pay]
      exact (chatAdjust_tagged z).1
    · rw [he'pay]
      exact chatAdjust_visual_lane z hzv
    · rw [List.countP_append, List.countP_append]
      have hkz : (chatKeep 0 0 evs).1.countP
          (fun c => c.type = "clear_section" ∧ c.payload.clear_id = some e'.id) = 0 := by
        rw [List.countP_eq_zero]
        intro c hc hpred
        have hcc : c.type = "clear_section" ∧ c.payload.clear_id = some e'.id :=
          of_decide_eq_true hpred
        obtain ⟨y, hy, hceq⟩ := chatKeep_mem evs 0 0 c hc
        have hyt : y.type = "clear_section" := by rw [← hcc.1, hceq]
        have hyv : _is_visual_event y.type = false := by rw [hyt]; rfl
        have h2 : y.payload.clear_id = some e'.id := by
          rw [← chatAdjust_clear_id y hyv, ← show c.payload = chatAdjustPayload y by rw [hceq]]
          exact hcc.2
        rcases hclr y hy with hnone | ⟨s, hs⟩
        · rw [hnone] at h2
          exact Option.noConfusion h2
        · rw [hs, he'id] at h2
          have h3 : EventId.str s = EventId.chatIdx j := Option.some.inj h2
          exact EventId.noConfusion h3
      have hcln : (mkCleanups 0 (chatKeep 0 0 evs).2).countP
          (fun c => c.type = "clear_section" ∧ c.payload.clear_id = some e'.id) = 1 := by
        rw [mkCleanups_countP_clear_full (chatKeep 0 0 evs).2 0 e'.id]
        have hnodup2 : (chatKeep 0 0 evs).2.Nodup := by
          rw [chatKeep_ids evs 0 0]
          have hsub1 := chatKeep_map_id_sublist evs 0 0
          have hsub2 : (((chatKeep 0 0 evs).1.filter
              (fun e => _is_visual_event e.type)).map (fun e => e.id)).Sublist
              ((chatKeep 0 0 evs).1.map (fun e => e.id)) :=
            List.Sublist.map _ (List.filter_sublist _)
          exact hnodup.sublist (hsub2.trans hsub1)
        have hmem2 : e'.id ∈ (chatKeep 0 0 evs).2 := by
          rw [chatKeep_ids evs 0 0]
          exact List.mem_map.mpr ⟨e', List.mem_filter.mpr ⟨hk, hv⟩, rfl⟩
        exact List.count_eq_one_of_mem hnodup2 hmem2
      have htl0 := htn
        (fun c => decide (c.type = "clear_section" ∧ c.payload.clear_id = some e'.id)) rfl
      omega

/-- C5: for every raw chat event list, the chat-adapted output
(`_parse_chat_response` pipeline: `_process_event_stream` in chat mode
followed by `_mark_chat_events_temporary`) contains at most one narrate
event and at most four visual/annotation events; every visual event in the
output is tagged `temporary=true` and placed in the scratch lane; and every
output visual event's id is referenced by exactly one `clear_section`
cleanup event of the output. -/
theorem C5_chat_overlay_bounds (raws : List RawEvent) :
    (parseChatEvents raws).countP (fun e => e.type = "narrate") ≤ 1 ∧
    (parseChatEvents raws).countP (fun e => e.type ∈ CHAT_VISUAL_OR_ANNOT) ≤ 4 ∧
    ∀ e' ∈ parseChatEvents raws, _is_visual_event e'.type = true →
      e'.payload.temporary = some true ∧ e'.payload.lane = some "scratch" ∧
      (parseChatEvents raws).countP
        (fun c => c.type = "clear_section" ∧ c.payload.clear_id = some e'.id) = 1 := by
  have hpc : parseChatEvents raws =
      _mark_chat_events_temporary (streamGo none "chat" 0 0 [] none raws) := rfl
  rw [hpc]
  refine chat_overlay_core _ (streamGo_ids_nodup "chat" raws 0 0 [] none) ?_
    (streamGo_clear_id "chat" raws 0 0 [] none)
  intro e he
  obtain ⟨j, -, hid⟩ := streamGo_id_shape "chat" raws 0 0 [] none e he
  exact ⟨j, hid⟩

/-- C10: `clear_section` chat events are retained by the overlay adapter —
never stripped and never counted toward the visual cap, so the output has
at least as many `clear_section` events as the input — and every event of
the adapted output (the retained ones in particular) is tagged
`temporary=true` with the shared chat group id. -/
theorem C10_clear_sections_retained (evs : List Event) :
    evs.countP (fun e => e.type = "clear_section") ≤
      (_mark_chat_events_temporary evs).countP (fun e => e.type = "clear_section") ∧
    ∀ e' ∈ _mark_chat_events_temporary evs,
      e'.payload.temporary = some true ∧ e'.payload.group_id = some chatGroupId := by
  obtain ⟨tail, hdec, htail⟩ := mark_chat_decompose evs
  rw [hdec]
  constructor
  · rw [List.countP_append, List.countP_append]
    have h1 := chatKeep_clear_count evs 0 0
    omega
  · intro e' he'
    rcases List.mem_append.mp he' with hk | hrest
    · obtain ⟨x, hx, rfl⟩ := chatKeep_mem evs 0 0 e' hk
      exact chatAdjust_tagged x
    · rcases List.mem_append.mp hrest with hc | htl
      · obtain ⟨-, htmp, hgrp, -⟩ := mkCleanups_mem _ 0 e' hc
        exact ⟨htmp, hgrp⟩
      · rcases htail with rfl | rfl
        · simp at htl
        · have he'p := List.mem_singleton.mp htl
          subst he'p
          exact ⟨rfl, rfl⟩

theorem budget_nonneg (l : String) : 0 ≤ LANE_HEIGHT_BUDGET l := by
  unfold LANE_HEIGHT_BUDGET
  split
  · norm_num
  · split
    · norm_num
    · split
      · norm_num
      · split
        · norm_num
        · norm_num

/-- Pagination passes a `clear_section` through (stamping only its
`board_page`) without touching the cursor state. -/
theorem applyGo_clear_step (e : Event) (rest : List Event) (page : ℤ)
    (chain : Option String) (ro : ℤ) (cur : String → ℚ) (slot : String → ℤ)
    (h : e.type = "clear_section") :
    ∃ q, applyGo page chain ro cur slot (e :: rest) =
      { e with payload := q } :: applyGo page chain ro cur slot rest := by
  rw [applyGo, if_pos h]
  cases hb : e.payload.board_page with
  | none => exact ⟨_, rfl⟩
  | some bp => exact ⟨_, rfl⟩

/-- Pagination passes a non-visual, non-clear event through unchanged. -/
theorem applyGo_nonvisual_step (e : Event) (rest : List Event) (page : ℤ)
    (chain : Option String) (ro : ℤ) (cur : String → ℚ) (slot : String → ℤ)
    (hnc : ¬ e.type = "clear_section") (h : _is_visual_event e.type = false) :
    applyGo page chain ro cur slot (e :: rest) =
      e :: applyGo page chain ro cur slot rest := by
  rw [applyGo, if_neg hnc, if_pos (by simp [h])]

/-- One pagination step on a visual event without an explicit page: the
event is placed on the resulting page with the effective reserve stamped,
the page turns exactly when the lane budget would be exceeded, and the
lane cursor advances by `reserve + 14` (from the baseline 8 after a turn). -/
theorem applyGo_visual_step (e : Event) (rest : List Event) (page : ℤ)
    (chain : Option String) (ro : ℤ) (cur : String → ℚ) (slot : String → ℤ)
    (hv : _is_visual_event e.type = true)
    (hbp : (_normalize_payload_semantics e.payload e.type).board_page = none) :
    ∃ (q : Payload) (chain' : Option String) (cur' : String → ℚ) (slot' : String → ℤ)
      (page' : ℤ),
      applyGo page chain ro cur slot (e :: rest) =
        { e with payload := q } :: applyGo page' chain' (ro + 1) cur' slot' rest ∧
      q.lane = (_normalize_payload_semantics e.payload e.type).lane ∧
      q.reserve_height =
        some (effectiveReserve e.type (_normalize_payload_semantics e.payload e.type)) ∧
      q.board_page = some page' ∧
      cur' ((_normalize_payload_semantics e.payload e.type).lane.getD "derivation") =
        (if LANE_HEIGHT_BUDGET
              ((_normalize_payload_semantics e.payload e.type).lane.getD "derivation") <
            cur ((_normalize_payload_semantics e.payload e.type).lane.getD "derivation") +
              effectiveReserve e.type (_normalize_payload_semantics e.payload e.type)
          then (8 : ℚ)
          else cur ((_normalize_payload_semantics e.payload e.type).lane.getD "derivation")) +
          effectiveReserve e.type (_normalize_payload_semantics e.payload e.type) + 14 ∧
      (∀ l', ¬ l' = (_normalize_payload_semantics e.payload e.type).lane.getD "derivation" →
        cur' l' =
          (if LANE_HEIGHT_BUDGET
                ((_normalize_payload_semantics e.payload e.type).lane.getD "derivation") <
              cur ((_normalize_payload_semantics e.payload e.type).lane.getD "derivation") +
                effectiveReserve e.type (_normalize_payload_semantics e.payload e.type)
            then (8 : ℚ) else cur l')) ∧
      page' =
        (if LANE_HEIGHT_BUDGET
              ((_normalize_payload_semantics e.payload e.type).lane.getD "derivation") <
            cur ((_normalize_payload_semantics e.payload e.type).lane.getD "derivation") +
              effectiveReserve e.type (_normalize_payload_semantics e.payload e.type)
          then min (page + 1) 8 else page) := by
  have hns : ¬ e.type = "clear_section" := by
    intro hc
    rw [hc] at hv
    exact absurd hv (by decide)
  rw [applyGo, if_neg hns, if_neg (by simp [hv])]
  dsimp only
  by_cases hder : (_normalize_payload_semantics e.payload e.type).lane = some "derivation" ∧
      e.type ∈ ["write_equation", "write_text"]
  · rw [if_pos hder]
    by_cases htr : strTruthy
        (_normalize_payload_semantics e.payload e.type).transform_chain_id = true
    · rw [if_pos htr]
      dsimp only
      rw [hbp]
      dsimp only
      by_cases hb : LANE_HEIGHT_BUDGET
            ((_normalize_payload_semantics e.payload e.type).lane.getD "derivation") <
          cur ((_normalize_payload_semantics e.payload e.type).lane.getD "derivation") +
            effectiveReserve e.type (_normalize_payload_semantics e.payload e.type)
      · rw [if_pos hb]
        refine ⟨_, _, _, _, _, rfl, rfl, rfl, rfl, ?_, ?_, ?_⟩
        · rw [Function.update_same, if_pos hb]
        · intro l' hne
          rw [Function.update_noteq hne, if_pos hb]
        · rw [if_pos hb]
      · rw [if_neg hb]
        refine ⟨_, _, _, _, _, rfl, rfl, rfl, rfl, ?_, ?_, ?_⟩
        · rw [Function.update_same, if_neg hb]
        · intro l' hne
          rw [Function.update_noteq hne, if_neg hb]
        · rw [if_neg hb]
    · rw [if_neg htr]
      dsimp only
      rw [hbp]
      dsimp only
      by_cases hb : LANE_HEIGHT_BUDGET
            ((_normalize_payload_semantics e.payload e.type).lane.getD "derivation") <
          cur ((_normalize_payload_semantics e.payload e.type).lane.getD "derivation") +
            effectiveReserve e.type (_normalize_payload_semantics e.payload e.type)
      · rw [if_pos hb]
        refine ⟨_, _, _, _, _, rfl, rfl, rfl, rfl, ?_, ?_, ?_⟩
        · rw [Function.update_same, if_pos hb]
        · intro l' hne
          rw [Function.update_noteq hne, if_pos hb]
        · rw [if_pos hb]
      · rw [if_neg hb]
        refine ⟨_, _, _, _, _, rfl, rfl, rfl, rfl, ?_, ?_, ?_⟩
        · rw [Function.update_same, if_neg hb]
        · intro l' hne
          rw [Function.update_noteq hne, if_neg hb]
        · rw [if_neg hb]
  · rw [if_neg hder]
    dsimp only
    rw [hbp]
    dsimp only
    by_cases hb : LANE_HEIGHT_BUDGET
          ((_normalize_payload_semantics e.payload e.type).lane.getD "derivation") <
        cur ((_normalize_payload_semantics e.payload e.type).lane.getD "derivation") +
          effectiveReserve e.type (_normalize_payload_semantics e.payload e.type)
    · rw [if_pos hb]
      refine ⟨_, _, _, _, _, rfl, rfl, rfl, rfl, ?_, ?_, ?_⟩
      · rw [Function.update_same, if_pos hb]
      · intro l' hne
        rw [Function.update_noteq hne, if_pos hb]
      · rw [if_pos hb]
    · rw [if_neg hb]
      refine ⟨_, _, _, _, _, rfl, rfl, rfl, rfl, ?_, ?_, ?_⟩
      · rw [Function.update_same, if_neg hb]
      · intro l' hne
        rw [Function.update_noteq hne, if_neg hb]
      · rw [if_neg hb]

/-- Pages only move forward: once the current page is past `pg`, no later
event is placed on `(pg, l)`. -/
theorem applyGo_sum_zero (pg : ℤ) (l : String) (hpg8 : pg < 8) (evs : List Event) :
    ∀ page chain ro cur slot,
    (∀ e ∈ evs, _is_visual_event e.type = true →
      (_normalize_payload_semantics e.payload e.type).board_page = none) →
    pg < page →
    sumReserve pg l (applyGo page chain ro cur slot evs) = 0 := by
  induction evs with
  | nil => intro page chain ro cur slot _ _; rfl
  | cons e rest ih =>
    intro page chain ro cur slot hbp hlt
    by_cases h1 : e.type = "clear_section"
    · obtain ⟨q, heq⟩ := applyGo_clear_step e rest page chain ro cur slot h1
      rw [heq, sumReserve]
      rw [if_neg (by
        intro hcc
        have := hcc.1
        rw [show ({ e with payload := q } : Event).type = e.type from rfl, h1] at this
        exact absurd this (by decide))]
      rw [ih page chain ro cur slot (fun e' he' => hbp e' (List.mem_cons_of_mem e he')) hlt]
      norm_num
    · by_cases h2 : _is_visual_event e.type = true
      · obtain ⟨q, chain', cur', slot', page', heq, hql, hqr, hqbp, hcl, hclo, hpage'⟩ :=
          applyGo_visual_step e rest page chain ro cur slot h2
            (hbp e (List.mem_cons_self e rest) h2)
        have hpglt : pg < page' := by
          rw [hpage']
          split
          · omega
          · exact hlt
        rw [heq, sumReserve]
        rw [if_neg (by
          intro hcc
          have hb2 := hcc.2.1
          rw [show ({ e with payload := q } : Event).payload = q from rfl, hqbp] at hb2
          have : page' = pg := Option.some.inj hb2
          omega)]
        rw [ih page' chain' (ro + 1) cur' slot'
          (fun e' he' => hbp e' (List.mem_cons_of_mem e he')) hpglt]
        norm_num
      · have h2' : _is_visual_event e.type = false := by
          cases hbb : _is_visual_event e.type
          · rfl
          · exact absurd hbb h2
        rw [applyGo_nonvisual_step e rest page chain ro cur slot h1 h2', sumReserve]
        rw [if_neg (by
          intro hcc
          rw [h2'] at hcc
          exact absurd hcc.1 (by decide))]
        rw [ih page chain ro cur slot (fun e' he' => hbp e' (List.mem_cons_of_mem e he')) hlt]
        norm_num

/-- The pagination bound: on every page below the cap, each lane's placed
reserve (plus the 14-unit gap per event) stays within the lane budget plus
the 6-unit slack left by the cursor's 8-unit baseline, provided no visual
event carries an explicit page and every event's effective reserve fits
its lane from baseline. -/
theorem applyGo_bound (pg : ℤ) (l : String) (hpg8 : pg < 8) (evs : List Event) :
    ∀ page chain ro cur slot,
    (∀ e ∈ evs, _is_visual_event e.type = true →
      (_normalize_payload_semantics e.payload e.type).board_page = none) →
    (∀ e ∈ evs, _is_visual_event e.type = true →
      0 ≤ effectiveReserve e.type (_normalize_payload_semantics e.payload e.type) ∧
      8 + effectiveReserve e.type (_normalize_payload_semantics e.payload e.type) ≤
        LANE_HEIGHT_BUDGET
          ((_normalize_payload_semantics e.payload e.type).lane.getD "derivation")) →
    0 ≤ page →
    (∀ l', 8 ≤ cur l') →
    cur l ≤ LANE_HEIGHT_BUDGET l + 14 →
    sumReserve pg l (applyGo page chain ro cur slot evs) +
      (if page = pg then cur l - 8 else 0) ≤ LANE_HEIGHT_BUDGET l + 6 := by
  induction evs with
  | nil =>
    intro page chain ro cur slot _ _ hp hcur8 hcurl
    have hbn := budget_nonneg l
    rw [show applyGo page chain ro cur slot ([] : List Event) = [] from rfl]
    rw [show sumReserve pg l [] = 0 from rfl]
    rcases eq_or_ne page pg with hpq | hpq
    · rw [if_pos hpq]
      linarith
    · rw [if_neg hpq]
      linarith
  | cons e rest ih =>
    intro page chain ro cur slot hbp hres hp hcur8 hcurl
    by_cases h1 : e.type = "clear_section"
    · obtain ⟨q, heq⟩ := applyGo_clear_step e rest page chain ro cur slot h1
      rw [heq, sumReserve]
      rw [if_neg (by
        intro hcc
        have hx := hcc.1
        rw [show ({ e with payload := q } : Event).type = e.type from rfl, h1] at hx
        exact absurd hx (by decide))]
      have hih := ih page chain ro cur slot
        (fun e' he' => hbp e' (List.mem_cons_of_mem e he'))
        (fun e' he' => hres e' (List.mem_cons_of_mem e he')) hp hcur8 hcurl
      linarith
    · by_cases h2 : _is_visual_event e.type = true
      · obtain ⟨q, chain', cur', slot', page', heq, hql, hqr, hqbp, hcl, hclo, hpage'⟩ :=
          applyGo_visual_step e rest page chain ro cur slot h2
            (hbp e (List.mem_cons_self e rest) h2)
        obtain ⟨hr0, hrbud⟩ := hres e (List.mem_cons_self e rest) h2
        rw [heq, sumReserve]
        set N := _normalize_payload_semantics e.payload e.type with hNdef
        set R := effectiveReserve e.type N with hRdef
        set L := N.lane.getD "derivation" with hLdef
        have hbpr : ∀ e' ∈ rest, _is_visual_event e'.type = true →
            (_normalize_payload_semantics e'.payload e'.type).board_page = none :=
          fun e' he' => hbp e' (List.mem_cons_of_mem e he')
        have hresr : ∀ e' ∈ rest, _is_visual_event e'.type = true →
            0 ≤ effectiveReserve e'.type (_normalize_payload_semantics e'.payload e'.type) ∧
            8 + effectiveReserve e'.type (_normalize_payload_semantics e'.payload e'.type) ≤
              LANE_HEIGHT_BUDGET
                ((_normalize_payload_semantics e'.payload e'.type).lane.getD "derivation") :=
          fun e' he' => hres e' (List.mem_cons_of_mem e he')
        by_cases hb : LANE_HEIGHT_BUDGET L < cur L + R
        · rw [if_pos hb] at hcl hpage'
          have hclo' : ∀ l', ¬ l' = L → cur' l' = 8 := fun l' h => by
            rw [hclo l' h, if_pos hb]
          have hp' : 0 ≤ page' := by rw [hpage']; omega
          have hcur8' : ∀ l', 8 ≤ cur' l' := by
            intro l'
            by_cases hll : l' = L
            · rw [hll, hcl]
              linarith
            · rw [hclo' l' hll]
          have hcurl' : cur' l ≤ LANE_HEIGHT_BUDGET l + 14 := by
            by_cases hll : l = L
            · rw [hll, hcl]
              linarith
            · rw [hclo' l hll]
              have := budget_nonneg l
              linarith
          have hih := ih page' chain' (ro + 1) cur' slot' hbpr hresr hp' hcur8' hcurl'
          by_cases hpq : page = pg
          · have hz : sumReserve pg l (applyGo page' chain' (ro + 1) cur' slot' rest) = 0 :=
              applyGo_sum_zero pg l hpg8 rest page' chain' (ro + 1) cur' slot' hbpr
                (by rw [hpage']; omega)
            have hpne : ¬ page' = pg := by rw [hpage']; omega
            rw [hz]
            rw [if_neg (fun hcc => by
              have hb2 := hcc.2.1
              rw [show ({ e with payload := q } : Event).payload = q from rfl, hqbp] at hb2
              exact hpne (Option.some.inj hb2))]
            rw [if_pos hpq]
            linarith
          · rw [if_neg hpq]
            by_cases hppg : page' = pg
            · rw [if_pos hppg] at hih
              by_cases hlane : q.lane = some l
              · have hNl : N.lane = some l := hql.symm.trans hlane
                have hll : l = L := by rw [hLdef, hNl]; rfl
                rw [if_pos ⟨h2, by
                  rw [show ({ e with payload := q } : Event).payload = q from rfl, hqbp, hppg], by
                  rw [show ({ e with payload := q } : Event).payload = q from rfl]; exact hlane⟩]
                have hc : cur' l = 8 + R + 14 := by rw [hll]; exact hcl
                rw [hc] at hih
                rw [show ({ e with payload := q } : Event).payload = q from rfl, hqr,
                  Option.getD_some]
                linarith
              · rw [if_neg (fun hcc => hlane hcc.2.2)]
                by_cases hll : l = L
                · have hc : cur' l = 8 + R + 14 := by rw [hll]; exact hcl
                  rw [hc] at hih
                  linarith
                · rw [hclo' l hll] at hih
                  linarith
            · rw [if_neg hppg] at hih
              rw [if_neg (fun hcc => by
                have hb2 := hcc.2.1
                rw [show ({ e with payload := q } : Event).payload = q from rfl, hqbp] at hb2
                exact hppg (Option.some.inj hb2))]
              linarith
        · rw [if_neg hb] at hcl hpage'
          have hclo' : ∀ l', ¬ l' = L → cur' l' = cur l' := fun l' h => by
            rw [hclo l' h, if_neg hb]
          subst hpage'
          have hnoturn : cur L + R ≤ LANE_HEIGHT_BUDGET L := not_lt.mp hb
          have hcur8' : ∀ l', 8 ≤ cur' l' := by
            intro l'
            by_cases hll : l' = L
            · rw [hll, hcl]
              have := hcur8 L
              linarith
            · rw [hclo' l' hll]
              exact hcur8 l'
          have hcurl' : cur' l ≤ LANE_HEIGHT_BUDGET l + 14 := by
            by_cases hll : l = L
            · rw [hll, hcl]
              linarith
            · rw [hclo' l hll]
              exact hcurl
          have hih := ih page' chain' (ro + 1) cur' slot' hbpr hresr hp hcur8' hcurl'
          by_cases hpq : page' = pg
          · rw [if_pos hpq] at hih ⊢
            by_cases hlane : q.lane = some l
            · have hNl : N.lane = some l := hql.symm.trans hlane
              have hll : l = L := by rw [hLdef, hNl]; rfl
              rw [if_pos ⟨h2, by
                rw [show ({ e with payload := q } : Event).payload = q from rfl, hqbp, hpq], by
                rw [show ({ e with payload := q } : Event).payload = q from rfl]; exact hlane⟩]
              have hc : cur' l = cur l + R + 14 := by rw [hll]; exact hcl
              rw [hc] at hih
              rw [show ({ e with payload := q } : Event).payload = q from rfl, hqr,
                Option.getD_some]
              linarith
            · rw [if_neg (fun hcc => hlane hcc.2.2)]
              by_cases hll : l = L
              · have hc : cur' l = cur l + R + 14 := by rw [hll]; exact hcl
                rw [hc] at hih
                linarith
              · rw [hclo' l hll] at hih
                linarith
          · rw [if_neg hpq] at hih ⊢
            rw [if_neg (fun hcc => by
              have hb2 := hcc.2.1
              rw [show ({ e with payload := q } : Event).payload = q from rfl, hqbp] at hb2
              exact hpq (Option.some.inj hb2))]
            linarith
      · have h2' : _is_visual_event e.type = false := by
          cases hbb : _is_visual_event e.type
          · rfl
          · exact absurd hbb h2
        rw [applyGo_nonvisual_step e rest page chain ro cur slot h1 h2', sumReserve]
        rw [if_neg (by
          intro hcc
          rw [h2'] at hcc
          exact absurd hcc.1 (by decide))]
        have hih := ih page chain ro cur slot
          (fun e' he' => hbp e' (List.mem_cons_of_mem e he'))
          (fun e' he' => hres e' (List.mem_cons_of_mem e he')) hp hcur8 hcurl
        linarith

/-- C2 — corrected. The original claim fails (see `C2_counterexample`):
an event whose effective reserve exceeds its lane budget is still placed
after a single page turn, overflowing the lane. The bound that does hold:
when no visual event carries an explicit `board_page` and every event's
effective reserve fits its lane budget from the 8-unit baseline, then on
every page below the cap (page 8 merges overflow runs) each lane's total
`reserve + 14` stays within `LANE_BUDGET[lane] + 6` — the 6-unit slack
exists because the fit check ignores the 14-unit inter-event gap. -/
theorem C2_pagination_bound (evs : List Event) (pg : ℤ) (l : String)
    (hpg : pg < 8)
    (hbp : ∀ e ∈ evs, _is_visual_event e.type = true → e.payload.board_page = none)
    (hres : ∀ e ∈ evs, _is_visual_event e.type = true →
      0 ≤ evReserve e ∧ 8 + evReserve e ≤ LANE_HEIGHT_BUDGET (evLane e)) :
    sumReserve pg l (_apply_preplanned_board_metadata evs) ≤ LANE_HEIGHT_BUDGET l + 6 := by
  have h := applyGo_bound pg l hpg evs 0 none 0 (fun _ => 8) (fun _ => 0)
    (fun e he hv => by
      rw [normalize_board_page]
      exact hbp e he hv)
    (fun e he hv => by
      have hx := hres e he hv
      simpa [evReserve, evLane, evNorm] using hx)
    (by norm_num) (fun l' => le_refl 8)
    (by
      show (8 : ℚ) ≤ LANE_HEIGHT_BUDGET l + 14
      have := budget_nonneg l
      linarith)
  unfold _apply_preplanned_board_metadata
  rcases eq_or_ne (0 : ℤ) pg with h0 | h0
  · rw [if_pos h0] at h
    norm_num at h
    exact h
  · rw [if_neg h0] at h
    norm_num at h
    exact h

/-- Witness: the pagination bound at a concrete two-event derivation-lane
input. -/
theorem C2_pagination_bound_witness :
    ((0 : ℤ) < 8) ∧
    (∀ e ∈ c2WitEvents, _is_visual_event e.type = true → e.payload.board_page = none) ∧
    sumReserve 0 "derivation" (_apply_preplanned_board_metadata c2WitEvents) ≤
      LANE_HEIGHT_BUDGET "derivation" + 6 := by
  refine ⟨by norm_num, by decide, ?_⟩
  refine C2_pagination_bound c2WitEvents 0 "derivation" (by norm_num) (by decide) ?_
  intro e he hv
  rw [c2WitEvents] at he
  rcases List.mem_cons.mp he with rfl | he2
  · have hR : evReserve
        ({ id := .str "w1", type := "write_text", duration := .int 800,
           payload := { lane := some "derivation", reserve_height := some 100,
                        text := some "a" } } : Event) = 100 := by
      unfold evReserve evNorm effectiveReserve
      rw [normalize_reserve_height]
      norm_num
    have hL : evLane
        ({ id := .str "w1", type := "write_text", duration := .int 800,
           payload := { lane := some "derivation", reserve_height := some 100,
                        text := some "a" } } : Event) = "derivation" := by
      unfold evLane evNorm
      obtain ⟨-, hlk, -, -, -, -, -⟩ := normalize_preserves
        ({ lane := some "derivation", reserve_height := some 100, text := some "a" } : Payload)
        "write_text"
      rw [hlk (by decide)]
      rfl
    rw [hR, hL]
    show (0 : ℚ) ≤ 100 ∧ (8 : ℚ) + 100 ≤ 444
    norm_num
  · rcases List.mem_cons.mp he2 with rfl | he3
    · have hR : evReserve
          ({ id := .str "w2", type := "write_text", duration := .int 800,
             payload := { lane := some "derivation", reserve_height := some 150,
                          text := some "b" } } : Event) = 150 := by
        unfold evReserve evNorm effectiveReserve
        rw [normalize_reserve_height]
        norm_num
      have hL : evLane
          ({ id := .str "w2", type := "write_text", duration := .int 800,
             payload := { lane := some "derivation", reserve_height := some 150,
                          text := some "b" } } : Event) = "derivation" := by
        unfold evLane evNorm
        obtain ⟨-, hlk, -, -, -, -, -⟩ := normalize_preserves
          ({ lane := some "derivation", reserve_height := some 150, text := some "b" } : Payload)
          "write_text"
        rw [hlk (by decide)]
        rfl
      rw [hR, hL]
      show (0 : ℚ) ≤ 150 ∧ (8 : ℚ) + 150 ≤ 444
      norm_num
    · simp at he3

/-- C2's probe: a single final-lane `write_text` with reserve 240 is
placed on page 1 after one page turn, and its `240 + 14` alone exceeds the
final lane's 132-unit budget — pagination does overflow. -/
theorem C2_counterexample :
    LANE_HEIGHT_BUDGET "final" <
      sumReserve 1 "final" (_apply_preplanned_board_metadata [c2CexEvent]) := by
  have hbpn : (_normalize_payload_semantics c2CexEvent.payload c2CexEvent.type).board_page =
      none := by
    rw [normalize_board_page]
    rfl
  obtain ⟨q, chain', cur', slot', page', heq, hql, hqr, hqbp, hcl, hclo, hpage'⟩ :=
    applyGo_visual_step c2CexEvent [] 0 none 0 (fun _ => 8) (fun _ => 0) (by decide) hbpn
  have hR : effectiveReserve c2CexEvent.type
      (_normalize_payload_semantics c2CexEvent.payload c2CexEvent.type) = 240 := by
    unfold effectiveReserve
    rw [normalize_reserve_height]
    norm_num [c2CexEvent]
  have hlane : (_normalize_payload_semantics c2CexEvent.payload c2CexEvent.type).lane =
      some "final" := by
    obtain ⟨-, hlk, -, -, -, -, -⟩ := normalize_preserves c2CexEvent.payload c2CexEvent.type
    rw [hlk (by decide)]
    rfl
  have hcond : LANE_HEIGHT_BUDGET
        ((_normalize_payload_semantics c2CexEvent.payload c2CexEvent.type).lane.getD
          "derivation") <
      (fun _ : String => (8 : ℚ))
          ((_normalize_payload_semantics c2CexEvent.payload c2CexEvent.type).lane.getD
            "derivation") +
        effectiveReserve c2CexEvent.type
          (_normalize_payload_semantics c2CexEvent.payload c2CexEvent.type) := by
    rw [hR, hlane]
    show (132 : ℚ) < 8 + 240
    norm_num
  rw [if_pos hcond] at hpage'
  have hp1 : page' = 1 := by
    rw [hpage']
    omega
  unfold _apply_preplanned_board_metadata
  rw [heq]
  rw [show applyGo page' chain' (0 + 1) cur' slot' [] = [] from rfl]
  rw [show sumReserve 1 "final" [{ c2CexEvent with payload := q }] =
    (if _is_visual_event ({ c2CexEvent with payload := q } : Event).type ∧
        ({ c2CexEvent with payload := q } : Event).payload.board_page = some 1 ∧
        ({ c2CexEvent with payload := q } : Event).payload.lane = some "final"
      then ({ c2CexEvent with payload := q } : Event).payload.reserve_height.getD 0 + 14
      else 0) + 0 from rfl]
  have hvis : _is_visual_event ({ c2CexEvent with payload := q } : Event).type = true := rfl
  rw [if_pos ⟨hvis, by
    rw [show ({ c2CexEvent with payload := q } : Event).payload = q from rfl, hqbp, hp1], by
    rw [show ({ c2CexEvent with payload := q } : Event).payload = q from rfl]
    exact hql.trans hlane⟩]
  rw [show ({ c2CexEvent with payload := q } : Event).payload = q from rfl, hqr, hR,
    Option.getD_some]
  show (132 : ℚ) < 240 + 14 + 0
  norm_num

/-- C6 — corrected. When a visual event carries an explicit `board_page`,
the code honors it: the event keeps its supplied page and the clamped page
`min(max(bp,0),8)` becomes the current page — but, contrary to the spec's
"reset cursors to baseline", the per-lane cursors and slot counters are
NOT reset: the recursion continues with the same cursors (advanced by the
event's own reserve) and the same slot counters (advanced by one). -/
theorem C6_explicit_page (e : Event) (rest : List Event) (page : ℤ)
    (chain : Option String) (ro : ℤ) (cur : String → ℚ) (slot : String → ℤ) (bp : ℤ)
    (hv : _is_visual_event e.type = true)
    (hbp : (_normalize_payload_semantics e.payload e.type).board_page = some bp) :
    ∃ (q : Payload) (chain' : Option String),
      applyGo page chain ro cur slot (e :: rest) =
        { e with payload := q } :: applyGo (min (max bp 0) 8) chain' (ro + 1)
          (Function.update cur ((_normalize_payload_semantics e.payload e.type).lane.getD "derivation")
            (cur ((_normalize_payload_semantics e.payload e.type).lane.getD "derivation") +
              effectiveReserve e.type (_normalize_payload_semantics e.payload e.type) + 14))
          (Function.update slot ((_normalize_payload_semantics e.payload e.type).lane.getD "derivation")
            (slot ((_normalize_payload_semantics e.payload e.type).lane.getD "derivation") + 1)) rest ∧
      q.board_page = some bp ∧
      q.slot_index = some ((_normalize_payload_semantics e.payload e.type).slot_index.getD
        (slot ((_normalize_payload_semantics e.payload e.type).lane.getD "derivation"))) := by
  have hns : ¬ e.type = "clear_section" := by
    intro hc
    rw [hc] at hv
    exact absurd hv (by decide)
  rw [applyGo, if_neg hns, if_neg (by simp [hv])]
  dsimp only
  by_cases hder : (_normalize_payload_semantics e.payload e.type).lane = some "derivation" ∧
      e.type ∈ ["write_equation", "write_text"]
  · rw [if_pos hder]
    by_cases htr : strTruthy (_normalize_payload_semantics e.payload e.type).transform_chain_id = true
    · rw [if_pos htr]
      dsimp only
      rw [hbp]
      dsimp only
      refine ⟨_, _, rfl, ?_, rfl⟩
      first
      | rfl
      | exact hbp
    · rw [if_neg htr]
      dsimp only
      rw [hbp]
      dsimp only
      refine ⟨_, _, rfl, ?_, rfl⟩
      first
      | rfl
      | exact hbp
  · rw [if_neg hder]
    dsimp only
    rw [hbp]
    dsimp only
    refine ⟨_, _, rfl, ?_, rfl⟩
    first
    | rfl
    | exact hbp

/-- Witness: the explicit-page step at a concrete given-lane event with
`board_page = 2`. -/
theorem C6_explicit_page_witness :
    (_is_visual_event c6WitEvent.type = true) ∧
    ((_normalize_payload_semantics c6WitEvent.payload c6WitEvent.type).board_page = some 2) ∧
    (∃ (q : Payload) (chain' : Option String),
      applyGo 0 none 0 (fun _ => (8 : ℚ)) (fun _ => (0 : ℤ)) (c6WitEvent :: []) =
        { c6WitEvent with payload := q } :: applyGo (min (max 2 0) 8) chain' (0 + 1)
          (Function.update (fun _ => (8 : ℚ)) ((_normalize_payload_semantics c6WitEvent.payload c6WitEvent.type).lane.getD "derivation")
            ((fun _ => (8 : ℚ)) ((_normalize_payload_semantics c6WitEvent.payload c6WitEvent.type).lane.getD "derivation") +
              effectiveReserve c6WitEvent.type (_normalize_payload_semantics c6WitEvent.payload c6WitEvent.type) + 14))
          (Function.update (fun _ => (0 : ℤ)) ((_normalize_payload_semantics c6WitEvent.payload c6WitEvent.type).lane.getD "derivation")
            ((fun _ => (0 : ℤ)) ((_normalize_payload_semantics c6WitEvent.payload c6WitEvent.type).lane.getD "derivation") + 1)) [] ∧
      q.board_page = some 2 ∧
      q.slot_index = some ((_normalize_payload_semantics c6WitEvent.payload c6WitEvent.type).slot_index.getD
        ((fun _ => (0 : ℤ)) ((_normalize_payload_semantics c6WitEvent.payload c6WitEvent.type).lane.getD "derivation")))) := by
  refine ⟨by decide, by rw [normalize_board_page]; rfl, ?_⟩
  exact C6_explicit_page c6WitEvent [] 0 none 0 (fun _ => (8 : ℚ)) (fun _ => (0 : ℤ)) 2
    (by decide) (by rw [normalize_board_page]; rfl)

/-- C6's probe: two given-lane events with explicit pages 0 and 2. Under
the spec's "reset cursors to baseline" reading the second event would get
slot index 0 on its new page; the code instead carries the slot counter
over and stamps slot index 1. -/
theorem C6_counterexample :
    (_apply_preplanned_board_metadata c6CexEvents).map (fun e => e.payload.slot_index) ≠
      (boardMetadataSpecC6 c6CexEvents).map (fun e => e.payload.slot_index) := by
  decide

/-! ## Claim C4: repair idempotence on inputs with a visual event -/

theorem optMap_idem {α} (g : α → α) (hg : ∀ v, g (g v) = g v) (o : Option α) :
    (o.map g).map g = o.map g := by
  cases o with
  | none => rfl
  | some v =>
    show some (g (g v)) = some (g v)
    rw [hg v]

theorem clampLH_idem (lo hi v : ℚ) (h : lo ≤ hi) :
    min (max (min (max v lo) hi) lo) hi = min (max v lo) hi := by
  rcases le_total v lo with h1 | h1 <;> rcases le_total v hi with h2 | h2 <;>
    simp [min_def, max_def] <;> split_ifs <;> linarith

theorem clampHL_idem (lo hi v : ℚ) (h : lo ≤ hi) :
    max lo (min (max lo (min v hi)) hi) = max lo (min v hi) := by
  rcases le_total v lo with h1 | h1 <;> rcases le_total v hi with h2 | h2 <;>
    simp [min_def, max_def] <;> split_ifs <;> linarith

/-- Clamping the coordinates twice is the same as clamping once. -/
theorem clamp_clamp (p : Payload) :
    _clamp_payload_coordinates (_clamp_payload_coordinates p) =
      _clamp_payload_coordinates p := by
  unfold _clamp_payload_coordinates
  dsimp only
  rw [optMap_idem (fun bp => min (max bp 0) 8)
    (fun v => by show min (max (min (max v 0) 8) 0) 8 = min (max v 0) 8; omega) p.board_page]
  rw [optMap_idem (fun si => max si 0)
    (fun v => by show max (max v 0) 0 = max v 0; omega) p.slot_index]
  rw [optMap_idem (fun rh => max 28 (min rh 240)) (fun v => clampHL_idem 28 240 v (by norm_num))
    p.reserve_height]
  rw [optMap_idem (fun v => min (max v 0) (BOARD_WIDTH - 20))
    (fun v => clampLH_idem 0 (BOARD_WIDTH - 20) v (by norm_num [BOARD_WIDTH])) p.x]
  rw [optMap_idem (fun v => min (max v 0) (BOARD_HEIGHT - 20))
    (fun v => clampLH_idem 0 (BOARD_HEIGHT - 20) v (by norm_num [BOARD_HEIGHT])) p.y]
  rw [optMap_idem (fun v => min (max v 0) BOARD_WIDTH)
    (fun v => clampLH_idem 0 BOARD_WIDTH v (by norm_num [BOARD_WIDTH])) p.x1]
  rw [optMap_idem (fun v => min (max v 0) BOARD_WIDTH)
    (fun v => clampLH_idem 0 BOARD_WIDTH v (by norm_num [BOARD_WIDTH])) p.x2]
  rw [optMap_idem (fun v => min (max v 0) BOARD_WIDTH)
    (fun v => clampLH_idem 0 BOARD_WIDTH v (by norm_num [BOARD_WIDTH])) p.cx]
  rw [optMap_idem (fun v => min (max v 0) BOARD_HEIGHT)
    (fun v => clampLH_idem 0 BOARD_HEIGHT v (by norm_num [BOARD_HEIGHT])) p.y1]
  rw [optMap_idem (fun v => min (max v 0) BOARD_HEIGHT)
    (fun v => clampLH_idem 0 BOARD_HEIGHT v (by norm_num [BOARD_HEIGHT])) p.y2]
  rw [optMap_idem (fun v => min (max v 0) BOARD_HEIGHT)
    (fun v => clampLH_idem 0 BOARD_HEIGHT v (by norm_num [BOARD_HEIGHT])) p.cy]
  rw [optMap_idem (fun v => max 40 (min v BOARD_WIDTH))
    (fun v => clampHL_idem 40 BOARD_WIDTH v (by norm_num [BOARD_WIDTH])) p.width]
  rw [optMap_idem (fun v => max 24 (min v BOARD_HEIGHT))
    (fun v => clampHL_idem 24 BOARD_HEIGHT v (by norm_num [BOARD_HEIGHT])) p.height]
  rw [optMap_idem (fun v => max 10 (min v 420)) (fun v => clampHL_idem 10 420 v (by norm_num))
    p.r]

/-- A payload that coordinate-clamping leaves unchanged. -/
def clampFixed (p : Payload) : Prop :=
  _clamp_payload_coordinates p = p

/-- The render orders stamped by pagination: the k-th visual event from
here carries `render_order = some (ro + k)`. -/
def RoMatch : ℤ → List Event → Prop
  | _, [] => True
  | ro, e :: rest =>
    if _is_visual_event e.type then
      e.payload.render_order = some ro ∧ RoMatch (ro + 1) rest
    else RoMatch ro rest

/-- The open transform chain is either absent or a truthy id. -/
def ChainOk (chain : Option String) : Prop :=
  chain = none ∨ ∃ s, chain = some s ∧ strTruthy (some s) = true

/-- The per-event facts pagination establishes that make a second
pagination (and a second normalize/clamp) a no-op. -/
def StableEvent (e : Event) : Prop :=
  (e.type = "clear_section" → e.payload.board_page.isSome = true) ∧
  (_is_visual_event e.type = true →
    Normalized e.payload ∧
    e.payload.board_page.isSome = true ∧
    e.payload.slot_index.isSome = true ∧
    (∃ r, e.payload.reserve_height = some r ∧ 28 ≤ r ∧ r ≤ 240) ∧
    e.payload.layout_locked = some true ∧
    (e.payload.lane = some "derivation" ∧ e.type ∈ ["write_equation", "write_text"] →
      strTruthy e.payload.transform_chain_id = true))

/-- The lead-narration shape `_repair_step_events` guarantees: the first
content position (after an optional step marker) holds a narrate. -/
def LeadOk (evs : List Event) : Prop :=
  match evs.head? with
  | none => False
  | some e =>
    if e.type = "step_marker" then (evs.get? 1).map (fun x => x.type) = some "narrate"
    else e.type = "narrate"

theorem Normalized_clamp {p : Payload} (h : Normalized p) :
    Normalized (_clamp_payload_coordinates p) := h

theorem clampFixed_clamp (p : Payload) : clampFixed (_clamp_payload_coordinates p) :=
  clamp_clamp p

theorem clampFixed_reserve {p : Payload} (h : clampFixed p) :
    p.reserve_height.map (fun rh => max 28 (min rh 240)) = p.reserve_height :=
  congrArg Payload.reserve_height h

theorem clampFixed_slot {p : Payload} (h : clampFixed p) :
    p.slot_index.map (fun si => max si 0) = p.slot_index :=
  congrArg Payload.slot_index h

theorem clampFixed_bp {p : Payload} (h : clampFixed p) :
    p.board_page.map (fun bp => min (max bp 0) 8) = p.board_page :=
  congrArg Payload.board_page h

theorem default_reserve_bounds (t la te : String) (d : ℚ)
    (h : _default_reserve_height t la te = some d) : 28 ≤ d ∧ d ≤ 240 := by
  unfold _default_reserve_height at h
  split at h
  · have hd := Option.some.inj h
    have h1 : (56 : ℚ) ≤ max 56 (min 150 (56 + _latex_complexity_score la * 0.14)) :=
      le_max_left _ _
    have h2 : max 56 (min 150 (56 + _latex_complexity_score la * 0.14)) ≤ (150 : ℚ) :=
      max_le (by norm_num) (min_le_left _ _)
    constructor <;> [linarith [hd ▸ h1]; linarith [hd ▸ h2]]
  · split at h
    · have hd := Option.some.inj h
      have h1 : (34 : ℚ) ≤ max 34 (min 90 (34 + (te.length : ℚ) * 0.24)) := le_max_left _ _
      have h2 : max 34 (min 90 (34 + (te.length : ℚ) * 0.24)) ≤ (90 : ℚ) :=
        max_le (by norm_num) (min_le_left _ _)
      constructor <;> [linarith [hd ▸ h1]; linarith [hd ▸ h2]]
    · split at h
      · have hd := Option.some.inj h
        constructor <;> rw [← hd] <;> norm_num
      · split at h
        · have hd := Option.some.inj h
          constructor <;> rw [← hd] <;> norm_num
        · split at h
          · have hd := Option.some.inj h
            constructor <;> rw [← hd] <;> norm_num
          · exact absurd h (by simp)

/-- A clamp-fixed reserve field keeps the effective reserve in range. -/
theorem effectiveReserve_bounds (t : String) (p : Payload)
    (h : p.reserve_height.map (fun rh => max 28 (min rh 240)) = p.reserve_height) :
    28 ≤ effectiveReserve t p ∧ effectiveReserve t p ≤ 240 := by
  unfold effectiveReserve
  have hfb : 28 ≤ (match _default_reserve_height t (p.latex.getD "") (p.text.getD "") with
      | some d => if d = 0 then (72 : ℚ) else d
      | none => (72 : ℚ)) ∧
      (match _default_reserve_height t (p.latex.getD "") (p.text.getD "") with
      | some d => if d = 0 then (72 : ℚ) else d
      | none => (72 : ℚ)) ≤ 240 := by
    cases hd : _default_reserve_height t (p.latex.getD "") (p.text.getD "") with
    | none => norm_num
    | some d =>
      obtain ⟨h1, h2⟩ := default_reserve_bounds t (p.latex.getD "") (p.text.getD "") d hd
      dsimp only
      by_cases hz : d = 0
      · rw [if_pos hz]
        norm_num
      · rw [if_neg hz]
        exact ⟨h1, h2⟩
  cases hrv : p.reserve_height with
  | none => exact hfb
  | some v =>
    rw [hrv] at h
    have hv : max 28 (min v 240) = v := Option.some.inj h
    have h28 : (28 : ℚ) ≤ v := hv ▸ le_max_left _ _
    have h240 : v ≤ (240 : ℚ) := hv ▸ max_le (by norm_num) (min_le_right _ _)
    have hvz : ¬ v = 0 := by
      intro h0
      rw [h0] at h28
      norm_num at h28
    dsimp only
    rw [if_neg hvz]
    exact ⟨h28, h240⟩

theorem strTruthy_append (a b : String) (ha : ¬ a = "") :
    strTruthy (some (a ++ b)) = true := by
  unfold strTruthy
  simp only [decide_eq_true_eq, ne_eq]
  intro hc
  apply ha
  have hd := congrArg String.data hc
  rw [String.data_append] at hd
  exact String.ext (List.append_eq_nil.mp hd).1

/-- The payload update pagination applies to a visual event keeps the
payload clamp-fixed. -/
theorem clampFixed_update (p : Payload) (h : clampFixed p) (tc : Option String)
    (bpo : Option ℤ) (hbp : bpo.map (fun bp => min (max bp 0) 8) = bpo)
    (si : ℤ) (hsi : 0 ≤ si) (r : ℚ) (hr28 : 28 ≤ r) (hr240 : r ≤ 240)
    (mk : Option Bool) (ro : ℤ) :
    clampFixed
      { p with
        transform_chain_id := tc, board_page := bpo, slot_index := some si,
        reserve_height := some r, is_page_turn_marker := mk, render_order := some ro,
        layout_locked := some true } := by
  have hxx : p.x.map (fun v => min (max v 0) (BOARD_WIDTH - 20)) = p.x := congrArg Payload.x h
  have hyy : p.y.map (fun v => min (max v 0) (BOARD_HEIGHT - 20)) = p.y := congrArg Payload.y h
  have hx1 : p.x1.map (fun v => min (max v 0) BOARD_WIDTH) = p.x1 := congrArg Payload.x1 h
  have hx2 : p.x2.map (fun v => min (max v 0) BOARD_WIDTH) = p.x2 := congrArg Payload.x2 h
  have hcx : p.cx.map (fun v => min (max v 0) BOARD_WIDTH) = p.cx := congrArg Payload.cx h
  have hy1 : p.y1.map (fun v => min (max v 0) BOARD_HEIGHT) = p.y1 := congrArg Payload.y1 h
  have hy2 : p.y2.map (fun v => min (max v 0) BOARD_HEIGHT) = p.y2 := congrArg Payload.y2 h
  have hcy : p.cy.map (fun v => min (max v 0) BOARD_HEIGHT) = p.cy := congrArg Payload.cy h
  have hwd : p.width.map (fun v => max 40 (min v BOARD_WIDTH)) = p.width :=
    congrArg Payload.width h
  have hht : p.height.map (fun v => max 24 (min v BOARD_HEIGHT)) = p.height :=
    congrArg Payload.height h
  have hrr : p.r.map (fun v => max 10 (min v 420)) = p.r := congrArg Payload.r h
  unfold clampFixed _clamp_payload_coordinates
  dsimp only
  rw [hbp, hxx, hyy, hx1, hx2, hcx, hy1, hy2, hcy, hwd, hht, hrr]
  rw [show (some si).map (fun si => max si 0) = some si from by
    simp only [Option.map_some']
    rw [show max si 0 = si from by omega]]
  rw [show (some r).map (fun rh => max 28 (min rh 240)) = some r from by
    simp only [Option.map_some']
    rw [min_eq_left hr240, max_eq_right hr28]]

/-- Stamping a clamped page number keeps a payload clamp-fixed. -/
theorem clampFixed_set_bp (p : Payload) (h : clampFixed p) (pg : ℤ)
    (h0 : 0 ≤ pg) (h8 : pg ≤ 8) :
    clampFixed { p with board_page := some pg } := by
  have hxx : p.x.map (fun v => min (max v 0) (BOARD_WIDTH - 20)) = p.x := congrArg Payload.x h
  have hyy : p.y.map (fun v => min (max v 0) (BOARD_HEIGHT - 20)) = p.y := congrArg Payload.y h
  have hx1 : p.x1.map (fun v => min (max v 0) BOARD_WIDTH) = p.x1 := congrArg Payload.x1 h
  have hx2 : p.x2.map (fun v => min (max v 0) BOARD_WIDTH) = p.x2 := congrArg Payload.x2 h
  have hcx : p.cx.map (fun v => min (max v 0) BOARD_WIDTH) = p.cx := congrArg Payload.cx h
  have hy1 : p.y1.map (fun v => min (max v 0) BOARD_HEIGHT) = p.y1 := congrArg Payload.y1 h
  have hy2 : p.y2.map (fun v => min (max v 0) BOARD_HEIGHT) = p.y2 := congrArg Payload.y2 h
  have hcy : p.cy.map (fun v => min (max v 0) BOARD_HEIGHT) = p.cy := congrArg Payload.cy h
  have hwd : p.width.map (fun v => max 40 (min v BOARD_WIDTH)) = p.width :=
    congrArg Payload.width h
  have hht : p.height.map (fun v => max 24 (min v BOARD_HEIGHT)) = p.height :=
    congrArg Payload.height h
  have hrr : p.r.map (fun v => max 10 (min v 420)) = p.r := congrArg Payload.r h
  have hsl : p.slot_index.map (fun si => max si 0) = p.slot_index :=
    congrArg Payload.slot_index h
  have hrs : p.reserve_height.map (fun rh => max 28 (min rh 240)) = p.reserve_height :=
    congrArg Payload.reserve_height h
  unfold clampFixed _clamp_payload_coordinates
  dsimp only
  rw [hxx, hyy, hx1, hx2, hcx, hy1, hy2, hcy, hwd, hht, hrr, hsl, hrs]
  rw [show (some pg).map (fun bp => min (max bp 0) 8) = some pg from by
    simp only [Option.map_some']
    rw [show min (max pg 0) 8 = pg from by omega]]

theorem classify_allowed (p : Payload) :
    memAllowed (classifyNarratePhase p).teaching_phase ALLOWED_TEACHING_PHASES = true := by
  unfold classifyNarratePhase
  split
  · next h => exact h
  · dsimp only
    split_ifs <;> rfl

theorem classify_id (p : Payload)
    (h : memAllowed p.teaching_phase ALLOWED_TEACHING_PHASES = true) :
    classifyNarratePhase p = p := by
  unfold classifyNarratePhase
  rw [if_pos h]

theorem repairNormalizeEvent_type (e : Event) : (repairNormalizeEvent e).type = e.type := rfl

/-- An event already normalized, phase-classified and clamped is a fixed
point of the per-event repair normalization. -/
theorem repairNormalizeEvent_id (e : Event)
    (hcf : clampFixed e.payload)
    (hn : _is_visual_event e.type = true → Normalized e.payload)
    (hna : e.type = "narrate" →
      memAllowed e.payload.teaching_phase ALLOWED_TEACHING_PHASES = true) :
    repairNormalizeEvent e = e := by
  unfold repairNormalizeEvent
  dsimp only
  by_cases hv : _is_visual_event e.type = true
  · rw [if_pos hv]
    rw [normalize_of_normalized (hn hv) e.type]
    have hn2 : ¬ e.type = "narrate" := by
      intro hc
      rw [hc] at hv
      exact absurd hv (by decide)
    rw [if_neg hn2, hcf]
  · rw [if_neg hv]
    by_cases hn2 : e.type = "narrate"
    · rw [if_pos hn2, classify_id e.payload (hna hn2), hcf]
    · rw [if_neg hn2, hcf]

theorem map_eq_self_of_forall {α : Type} (l : List α) (f : α → α) (h : ∀ x ∈ l, f x = x) :
    l.map f = l := by
  induction l with
  | nil => rfl
  | cons a t ih =>
    rw [List.map_cons, h a (List.mem_cons_self a t),
      ih (fun x hx => h x (List.mem_cons_of_mem a hx))]

/-- Every event of the repair normalize pass is clamp-fixed, normalized
when visual, and phase-classified when a narration. -/
theorem normPass_facts (evs : List Event) : ∀ e' ∈ repairNormalizePass evs,
    clampFixed e'.payload ∧
    (_is_visual_event e'.type = true → Normalized e'.payload) ∧
    (e'.type = "narrate" →
      memAllowed e'.payload.teaching_phase ALLOWED_TEACHING_PHASES = true) := by
  intro e' he'
  obtain ⟨e0, he0, rfl⟩ := List.mem_map.mp he'
  refine ⟨?_, ?_, ?_⟩
  · show clampFixed (repairNormalizeEvent e0).payload
    unfold repairNormalizeEvent
    dsimp only
    exact clampFixed_clamp _
  · intro hv
    have hv0 : _is_visual_event e0.type = true := by
      rw [← repairNormalizeEvent_type e0]
      exact hv
    show Normalized (repairNormalizeEvent e0).payload
    unfold repairNormalizeEvent
    dsimp only
    rw [if_pos hv0]
    have hn2 : ¬ e0.type = "narrate" := by
      intro hc
      rw [hc] at hv0
      exact absurd hv0 (by decide)
    rw [if_neg hn2]
    exact Normalized_clamp (normalize_normalized e0.payload e0.type)
  · intro hna
    have hna0 : e0.type = "narrate" := (repairNormalizeEvent_type e0) ▸ hna
    show memAllowed (repairNormalizeEvent e0).payload.teaching_phase
      ALLOWED_TEACHING_PHASES = true
    unfold repairNormalizeEvent
    dsimp only
    have hv0 : ¬ _is_visual_event e0.type = true := by
      rw [hna0]
      decide
    rw [if_neg hv0, if_pos hna0]
    exact classify_allowed e0.payload

/-- One pagination step on a normalized visual event, characterized for
the idempotence argument: the placed payload is an explicit update of the
event's own payload with an in-range page, a nonnegative slot index, the
effective reserve, the running render order and a locked layout; the new
page stays in range, slots stay nonnegative and the chain stays truthy. -/
theorem applyGo_visual_step_full (e : Event) (rest : List Event) (page : ℤ)
    (chain : Option String) (ro : ℤ) (cur : String → ℚ) (slot : String → ℤ)
    (hv : _is_visual_event e.type = true)
    (hN : _normalize_payload_semantics e.payload e.type = e.payload)
    (hCF : clampFixed e.payload)
    (h0 : 0 ≤ page) (h8 : page ≤ 8)
    (hslot : ∀ l, 0 ≤ slot l)
    (hchain : ChainOk chain) :
    ∃ (q : Payload) (chain' : Option String) (cur' : String → ℚ) (slot' : String → ℤ)
      (page' : ℤ),
      applyGo page chain ro cur slot (e :: rest) =
        { e with payload := q } :: applyGo page' chain' (ro + 1) cur' slot' rest ∧
      (∃ (tc : Option String) (bpo : Option ℤ) (mk : Option Bool) (si : ℤ),
        q = { e.payload with
              transform_chain_id := tc, board_page := bpo, slot_index := some si,
              reserve_height := some (effectiveReserve e.type e.payload),
              is_page_turn_marker := mk, render_order := some ro,
              layout_locked := some true } ∧
        0 ≤ si ∧ bpo.isSome = true ∧
        bpo.map (fun bp => min (max bp 0) 8) = bpo ∧
        (e.payload.lane = some "derivation" ∧ e.type ∈ ["write_equation", "write_text"] →
          strTruthy tc = true)) ∧
      0 ≤ page' ∧ page' ≤ 8 ∧ (∀ l, 0 ≤ slot' l) ∧ ChainOk chain' := by
  have hns : ¬ e.type = "clear_section" := by
    intro hc
    rw [hc] at hv
    exact absurd hv (by decide)
  have hsi0 : ∀ s0 : String → ℤ, (∀ l, 0 ≤ s0 l) →
      0 ≤ e.payload.slot_index.getD
        (s0 (e.payload.lane.getD "derivation")) := by
    intro s0 hs0
    cases hsie : e.payload.slot_index with
    | none => exact hs0 _
    | some v =>
      have hfix := clampFixed_slot hCF
      rw [hsie] at hfix
      have h2 : max v 0 = v := Option.some.inj hfix
      show (0 : ℤ) ≤ v
      omega
  have hsup : ∀ (s0 : String → ℤ), (∀ l, 0 ≤ s0 l) → ∀ l,
      0 ≤ Function.update s0 (e.payload.lane.getD "derivation")
        (s0 (e.payload.lane.getD "derivation") + 1) l := by
    intro s0 hs0 l
    by_cases hl : l = e.payload.lane.getD "derivation"
    · rw [hl, Function.update_same]
      have := hs0 (e.payload.lane.getD "derivation")
      omega
    · rw [Function.update_noteq hl]
      exact hs0 l
  have hz : ∀ l, (0 : ℤ) ≤ (fun _ : String => (0 : ℤ)) l := fun _ => le_refl 0
  rw [applyGo, if_neg hns, if_neg (by simp [hv])]
  dsimp only
  rw [hN]
  by_cases hder : e.payload.lane = some "derivation" ∧
      e.type ∈ ["write_equation", "write_text"]
  · rw [if_pos hder]
    by_cases htr : strTruthy e.payload.transform_chain_id = true
    · rw [if_pos htr]
      dsimp only
      have hchain' : ChainOk e.payload.transform_chain_id := by
        cases hct : e.payload.transform_chain_id with
        | none =>
          rw [hct] at htr
          exact absurd htr (by decide)
        | some s =>
          rw [hct] at htr
          exact Or.inr ⟨s, rfl, htr⟩
      cases hbp : e.payload.board_page with
      | some bp =>
        dsimp only
        refine ⟨_, _, _, _, _, rfl,
          ⟨_, _, _, _, rfl, hsi0 slot hslot, by first | rfl | (rw [hbp]; rfl), by
            first
            | exact clampFixed_bp hCF
            | (have hfix := clampFixed_bp hCF; rw [hbp] at hfix; exact hfix),
            fun _ => htr⟩, by omega, by omega, hsup slot hslot, hchain'⟩
      | none =>
        by_cases hb : LANE_HEIGHT_BUDGET (e.payload.lane.getD "derivation") <
            cur (e.payload.lane.getD "derivation") + effectiveReserve e.type e.payload
        · rw [if_pos hb]
          dsimp only
          refine ⟨_, _, _, _, _, rfl,
            ⟨_, _, _, _, rfl, hsi0 (fun _ => 0) hz, rfl,
              by simp only [Option.map_some']; rw [show min (max (min (page + 1) 8) 0) 8 =
                min (page + 1) 8 from by omega],
              fun _ => htr⟩, by omega, by omega, hsup (fun _ => 0) hz, hchain'⟩
        · rw [if_neg hb]
          dsimp only
          refine ⟨_, _, _, _, _, rfl,
            ⟨_, _, _, _, rfl, hsi0 slot hslot, rfl,
              by simp only [Option.map_some']; rw [show min (max page 0) 8 = page from by omega],
              fun _ => htr⟩, h0, h8, hsup slot hslot, hchain'⟩
    · rw [if_neg htr]
      dsimp only
      rcases hchain with rfl | ⟨s, rfl, hs⟩ <;>
        [have hctruthy : strTruthy
            (some ("step_chain_" ++ toString (e.payload.step_number.getD 0))) = true :=
          strTruthy_append "step_chain_" _ (by decide);
         have hctruthy : strTruthy (some s) = true := hs] <;>
      dsimp only <;>
      [skip; skip] <;>
      have hchain' : ChainOk (some _) := Or.inr ⟨_, rfl, hctruthy⟩ <;>
      cases hbp : e.payload.board_page with
      | some bp =>
        dsimp only
        refine ⟨_, _, _, _, _, rfl,
          ⟨_, _, _, _, rfl, hsi0 slot hslot, by first | rfl | (rw [hbp]; rfl), by
            first
            | exact clampFixed_bp hCF
            | (have hfix := clampFixed_bp hCF; rw [hbp] at hfix; exact hfix),
            fun _ => hctruthy⟩, by omega, by omega, hsup slot hslot, hchain'⟩
      | none =>
        by_cases hb : LANE_HEIGHT_BUDGET (e.payload.lane.getD "derivation") <
            cur (e.payload.lane.getD "derivation") + effectiveReserve e.type e.payload
        · rw [if_pos hb]
          dsimp only
          refine ⟨_, _, _, _, _, rfl,
            ⟨_, _, _, _, rfl, hsi0 (fun _ => 0) hz, rfl,
              by simp only [Option.map_some']; rw [show min (max (min (page + 1) 8) 0) 8 =
                min (page + 1) 8 from by omega],
              fun _ => hctruthy⟩, by omega, by omega, hsup (fun _ => 0) hz, hchain'⟩
        · rw [if_neg hb]
          dsimp only
          refine ⟨_, _, _, _, _, rfl,
            ⟨_, _, _, _, rfl, hsi0 slot hslot, rfl,
              by simp only [Option.map_some']; rw [show min (max page 0) 8 = page from by omega],
              fun _ => hctruthy⟩, h0, h8, hsup slot hslot, hchain'⟩
  · rw [if_neg hder]
    dsimp only
    cases hbp : e.payload.board_page with
    | some bp =>
      dsimp only
      refine ⟨_, _, _, _, _, rfl,
        ⟨_, _, _, _, rfl, hsi0 slot hslot, by first | rfl | (rw [hbp]; rfl), by
            first
            | exact clampFixed_bp hCF
            | (have hfix := clampFixed_bp hCF; rw [hbp] at hfix; exact hfix),
          fun hc => absurd hc hder⟩, by omega, by omega, hsup slot hslot, Or.inl rfl⟩
    | none =>
      by_cases hb : LANE_HEIGHT_BUDGET (e.payload.lane.getD "derivation") <
          cur (e.payload.lane.getD "derivation") + effectiveReserve e.type e.payload
      · rw [if_pos hb]
        dsimp only
        refine ⟨_, _, _, _, _, rfl,
          ⟨_, _, _, _, rfl, hsi0 (fun _ => 0) hz, rfl,
            by simp only [Option.map_some']; rw [show min (max (min (page + 1) 8) 0) 8 =
              min (page + 1) 8 from by omega],
            fun hc => absurd hc hder⟩, by omega, by omega, hsup (fun _ => 0) hz, Or.inl rfl⟩
      · rw [if_neg hb]
        dsimp only
        refine ⟨_, _, _, _, _, rfl,
          ⟨_, _, _, _, rfl, hsi0 slot hslot, rfl,
            by simp only [Option.map_some']; rw [show min (max page 0) 8 = page from by omega],
            fun hc => absurd hc hder⟩, h0, h8, hsup slot hslot, Or.inl rfl⟩

/-- Pagination output facts: types are preserved in order, every output
event is clamp-fixed and stable, non-visual non-clear events pass through
unchanged (both directions), and render orders count up from `ro`. -/
theorem applyGo_out (evs : List Event) : ∀ page chain ro cur slot,
    (∀ e ∈ evs, clampFixed e.payload) →
    (∀ e ∈ evs, _is_visual_event e.type = true → Normalized e.payload) →
    0 ≤ page → page ≤ 8 →
    (∀ l, 0 ≤ slot l) →
    ChainOk chain →
    ((applyGo page chain ro cur slot evs).map (fun e => e.type) =
      evs.map (fun e => e.type)) ∧
    (∀ e' ∈ applyGo page chain ro cur slot evs, clampFixed e'.payload ∧ StableEvent e') ∧
    (∀ e ∈ evs, _is_visual_event e.type = false → ¬ e.type = "clear_section" →
      e ∈ applyGo page chain ro cur slot evs) ∧
    (∀ e' ∈ applyGo page chain ro cur slot evs, _is_visual_event e'.type = false →
      ¬ e'.type = "clear_section" → e' ∈ evs) ∧
    RoMatch ro (applyGo page chain ro cur slot evs) := by
  induction evs with
  | nil =>
    intro page chain ro cur slot _ _ _ _ _ _
    exact ⟨rfl, fun e' he' => absurd he' (by simp [applyGo]),
      fun x hx => absurd hx (by simp),
      fun e' he' => absurd he' (by simp [applyGo]), trivial⟩
  | cons e rest ih =>
    intro page chain ro cur slot hCF hNorm h0 h8 hslot hchain
    have hCFr : ∀ x ∈ rest, clampFixed x.payload :=
      fun x hx => hCF x (List.mem_cons_of_mem e hx)
    have hNr : ∀ x ∈ rest, _is_visual_event x.type = true → Normalized x.payload :=
      fun x hx => hNorm x (List.mem_cons_of_mem e hx)
    have hCFe := hCF e (List.mem_cons_self e rest)
    by_cases h1 : e.type = "clear_section"
    · have hvf : _is_visual_event e.type = false := by rw [h1]; rfl
      rw [applyGo, if_pos h1]
      cases hbp : e.payload.board_page with
      | some bp =>
        dsimp only
        rw [show ({ e with payload := e.payload } : Event) = e from rfl]
        obtain ⟨iha, ihb, ihc, ihd, ihe⟩ := ih page chain ro cur slot hCFr hNr h0 h8 hslot hchain
        refine ⟨?_, ?_, ?_, ?_, ?_⟩
        · rw [List.map_cons, List.map_cons, iha]
        · intro e' he'
          rcases List.mem_cons.mp he' with rfl | hh
          · exact ⟨hCFe, fun _ => by rw [hbp]; rfl,
              fun hvv => Bool.noConfusion (hvf.symm.trans hvv)⟩
          · exact ihb e' hh
        · intro x hx hxv hxc
          rcases List.mem_cons.mp hx with rfl | hh
          · exact absurd h1 hxc
          · exact List.mem_cons_of_mem _ (ihc x hh hxv hxc)
        · intro e' he' hv' hc'
          rcases List.mem_cons.mp he' with rfl | hh
          · exact absurd h1 hc'
          · exact List.mem_cons_of_mem _ (ihd e' hh hv' hc')
        · rw [RoMatch, if_neg (fun hvv => Bool.noConfusion (hvf.symm.trans hvv))]
          exact ihe
      | none =>
        dsimp only
        obtain ⟨iha, ihb, ihc, ihd, ihe⟩ := ih page chain ro cur slot hCFr hNr h0 h8 hslot hchain
        refine ⟨?_, ?_, ?_, ?_, ?_⟩
        · rw [List.map_cons, List.map_cons, iha]
        · intro e' he'
          rcases List.mem_cons.mp he' with rfl | hh
          · exact ⟨clampFixed_set_bp e.payload hCFe page h0 h8, fun _ => rfl,
              fun hvv => Bool.noConfusion (hvf.symm.trans hvv)⟩
          · exact ihb e' hh
        · intro x hx hxv hxc
          rcases List.mem_cons.mp hx with rfl | hh
          · exact absurd h1 hxc
          · exact List.mem_cons_of_mem _ (ihc x hh hxv hxc)
        · intro e' he' hv' hc'
          rcases List.mem_cons.mp he' with rfl | hh
          · exact absurd h1 hc'
          · exact List.mem_cons_of_mem _ (ihd e' hh hv' hc')
        · rw [RoMatch, if_neg (fun hvv => Bool.noConfusion (hvf.symm.trans hvv))]
          exact ihe
    · by_cases h2 : _is_visual_event e.type = true
      · have hNe := hNorm e (List.mem_cons_self e rest) h2
        have hN := normalize_of_normalized hNe e.type
        obtain ⟨q, chain', cur', slot', page', heq,
            ⟨tc, bpo, mk, si, hq, hsi, hbpo, hbpfix, htc⟩, hp0, hp8, hslot', hchain'⟩ :=
          applyGo_visual_step_full e rest page chain ro cur slot h2 hN hCFe h0 h8 hslot hchain
        obtain ⟨iha, ihb, ihc, ihd, ihe⟩ :=
          ih page' chain' (ro + 1) cur' slot' hCFr hNr hp0 hp8 hslot' hchain'
        obtain ⟨hr28, hr240⟩ :=
          effectiveReserve_bounds e.type e.payload (clampFixed_reserve hCFe)
        rw [heq]
        refine ⟨?_, ?_, ?_, ?_, ?_⟩
        · rw [List.map_cons, List.map_cons, iha]
        · intro e' he'
          rcases List.mem_cons.mp he' with rfl | hh
          · constructor
            · show clampFixed q
              rw [hq]
              exact clampFixed_update e.payload hCFe tc bpo hbpfix si hsi _ hr28 hr240 mk ro
            · constructor
              · intro hc
                rw [show ({ e with payload := q } : Event).type = e.type from rfl] at hc
                rw [hc] at h2
                exact absurd h2 (by decide)
              · intro _
                refine ⟨?_, ?_, ?_, ?_, ?_, ?_⟩
                · show Normalized q
                  rw [hq]
                  exact hNe
                · show q.board_page.isSome = true
                  rw [hq]
                  exact hbpo
                · show q.slot_index.isSome = true
                  rw [hq]
                  rfl
                · show ∃ r, q.reserve_height = some r ∧ 28 ≤ r ∧ r ≤ 240
                  rw [hq]
                  exact ⟨_, rfl, hr28, hr240⟩
                · show q.layout_locked = some true
                  rw [hq]
                · intro hcond
                  show strTruthy q.transform_chain_id = true
                  rw [hq]
                  refine htc ⟨?_, hcond.2⟩
                  have hl := hcond.1
                  show e.payload.lane = some "derivation"
                  rw [show ({ e with payload := q } : Event).payload = q from rfl, hq] at hl
                  exact hl
          · exact ihb e' hh
        · intro x hx hxv hxc
          rcases List.mem_cons.mp hx with rfl | hh
          · exact Bool.noConfusion (h2.symm.trans hxv)
          · exact List.mem_cons_of_mem _ (ihc x hh hxv hxc)
        · intro e' he' hv' hc'
          rcases List.mem_cons.mp he' with rfl | hh
          · exact Bool.noConfusion (h2.symm.trans hv')
          · exact List.mem_cons_of_mem _ (ihd e' hh hv' hc')
        · rw [RoMatch, if_pos h2]
          refine ⟨?_, ihe⟩
          show q.render_order = some ro
          rw [hq]
      · have h2' : _is_visual_event e.type = false := by
          cases hb2 : _is_visual_event e.type
          · rfl
          · exact absurd hb2 h2
        rw [applyGo_nonvisual_step e rest page chain ro cur slot h1 h2']
        obtain ⟨iha, ihb, ihc, ihd, ihe⟩ := ih page chain ro cur slot hCFr hNr h0 h8 hslot hchain
        refine ⟨?_, ?_, ?_, ?_, ?_⟩
        · rw [List.map_cons, List.map_cons, iha]
        · intro e' he'
          rcases List.mem_cons.mp he' with rfl | hh
          · exact ⟨hCFe, fun hc => absurd hc h1,
              fun hvv => Bool.noConfusion (h2'.symm.trans hvv)⟩
          · exact ihb e' hh
        · intro x hx hxv hxc
          rcases List.mem_cons.mp hx with rfl | hh
          · exact List.mem_cons_self _ _
          · exact List.mem_cons_of_mem _ (ihc x hh hxv hxc)
        · intro e' he' hv' hc'
          rcases List.mem_cons.mp he' with rfl | hh
          · exact List.mem_cons_self _ _
          · exact List.mem_cons_of_mem _ (ihd e' hh hv' hc')
        · rw [RoMatch, if_neg (by simp [h2'])]
          exact ihe

/-- A second pagination pass over stable events (as produced by the first
pass) is the identity, for any cursor state. -/
theorem applyGo_stable (evs : List Event) : ∀ page chain ro cur slot,
    (∀ e ∈ evs, StableEvent e) →
    RoMatch ro evs →
    applyGo page chain ro cur slot evs = evs := by
  induction evs with
  | nil => intro page chain ro cur slot _ _; rfl
  | cons e rest ih =>
    intro page chain ro cur slot hst hro
    have hste := hst e (List.mem_cons_self e rest)
    have hstr : ∀ x ∈ rest, StableEvent x := fun x hx => hst x (List.mem_cons_of_mem e hx)
    by_cases h1 : e.type = "clear_section"
    · rw [applyGo, if_pos h1]
      have hbs := hste.1 h1
      cases hbp : e.payload.board_page with
      | none =>
        rw [hbp] at hbs
        exact absurd hbs (by decide)
      | some bp =>
        dsimp only
        rw [show ({ e with payload := e.payload } : Event) = e from rfl]
        have hvf : _is_visual_event e.type = false := by rw [h1]; rfl
        have hrr : RoMatch ro rest := by
          rw [RoMatch, if_neg (fun hvv => Bool.noConfusion (hvf.symm.trans hvv))] at hro
          exact hro
        rw [ih page chain ro cur slot hstr hrr]
    · by_cases h2 : _is_visual_event e.type = true
      · obtain ⟨hN, hbPs, hsiS, ⟨r, hrh, hr28, hr240⟩, hll, htc⟩ := hste.2 h2
        have hNeq := normalize_of_normalized hN e.type
        rw [applyGo, if_neg h1, if_neg (by simp [h2])]
        dsimp only
        rw [hNeq]
        have hro' : e.payload.render_order = some ro ∧ RoMatch (ro + 1) rest := by
          rw [RoMatch, if_pos h2] at hro
          exact hro
        have hres : effectiveReserve e.type e.payload = r := by
          unfold effectiveReserve
          rw [hrh]
          dsimp only
          rw [if_neg (by intro hz; rw [hz] at hr28; norm_num at hr28)]
        by_cases hder : e.payload.lane = some "derivation" ∧
            e.type ∈ ["write_equation", "write_text"]
        · rw [if_pos hder, if_pos (htc hder)]
          dsimp only
          cases hbp : e.payload.board_page with
          | none =>
            rw [hbp] at hbPs
            exact absurd hbPs (by decide)
          | some bp =>
            dsimp only
            cases hsi : e.payload.slot_index with
            | none =>
              rw [hsi] at hsiS
              exact absurd hsiS (by decide)
            | some si =>
              simp only [Option.getD_some]
              rw [hres, ← hrh, ← hsi, ← hro'.1, ← hll]
              rw [ih _ _ _ _ _ hstr hro'.2]
        · rw [if_neg hder]
          dsimp only
          cases hbp : e.payload.board_page with
          | none =>
            rw [hbp] at hbPs
            exact absurd hbPs (by decide)
          | some bp =>
            dsimp only
            cases hsi : e.payload.slot_index with
            | none =>
              rw [hsi] at hsiS
              exact absurd hsiS (by decide)
            | some si =>
              simp only [Option.getD_some]
              rw [hres, ← hrh, ← hsi, ← hro'.1, ← hll]
              rw [ih _ _ _ _ _ hstr hro'.2]
      · have h2' : _is_visual_event e.type = false := by
          cases hb2 : _is_visual_event e.type
          · rfl
          · exact absurd hb2 h2
        rw [applyGo_nonvisual_step e rest page chain ro cur slot h1 h2']
        have hrr : RoMatch ro rest := by
          rw [RoMatch, if_neg (fun hvv => Bool.noConfusion (h2'.symm.trans hvv))] at hro
          exact hro
        rw [ih page chain ro cur slot hstr hrr]

theorem insertAt_subset {α : Type} (a : α) (l : List α) : ∀ (k : ℕ), ∀ x ∈ l,
    x ∈ insertAt k a l := by
  induction l with
  | nil => intro k x hx; exact absurd hx (by simp)
  | cons b t ih =>
    intro k x hx
    cases k with
    | zero => exact List.mem_cons_of_mem a hx
    | succ m =>
      rcases List.mem_cons.mp hx with rfl | hx2
      · exact List.mem_cons_self x _
      · exact List.mem_cons_of_mem b (ih m x hx2)

theorem mem_insertAt_self {α : Type} (a : α) (l : List α) : ∀ (k : ℕ), a ∈ insertAt k a l := by
  induction l with
  | nil =>
    intro k
    rw [show insertAt k a ([] : List α) = [a] from by cases k <;> rfl]
    exact List.mem_cons_self a []
  | cons b t ih =>
    intro k
    cases k with
    | zero => exact List.mem_cons_self a _
    | succ m => exact List.mem_cons_of_mem b (ih m)

theorem insertAt_countP {α : Type} (p : α → Bool) (a : α) (l : List α) : ∀ (k : ℕ),
    (insertAt k a l).countP p = l.countP p + if p a then 1 else 0 := by
  induction l with
  | nil =>
    intro k
    rw [show insertAt k a [] = [a] from by cases k <;> rfl]
    simp [List.countP_cons]
  | cons b t ih =>
    intro k
    cases k with
    | zero =>
      rw [show insertAt 0 a (b :: t) = a :: b :: t from rfl]
      simp only [List.countP_cons] <;> omega
    | succ m =>
      rw [show insertAt (m + 1) a (b :: t) = b :: insertAt m a t from rfl]
      simp only [List.countP_cons, ih m]
      omega

theorem ensureNarrate_id (evs : List Event) (n : ℤ) (t : String)
    (h : evs.any (fun e => e.type = "narrate") = true) : ensureNarrate evs n t = evs := by
  unfold ensureNarrate
  rw [if_pos h]

theorem ensureLeadNarrate_id (evs : List Event) (n : ℤ) (t : String)
    (h : LeadOk evs) : ensureLeadNarrate evs n t = evs := by
  rcases evs with _ | ⟨a, tl⟩
  · exact h.elim
  · unfold LeadOk at h
    rw [show (a :: tl).head? = some a from rfl] at h
    dsimp only at h
    unfold ensureLeadNarrate
    rw [show (a :: tl).head? = some a from rfl]
    dsimp only
    by_cases hm : a.type = "step_marker"
    · rw [if_pos hm] at h ⊢
      rcases tl with _ | ⟨b, tl2⟩
      · exact Option.noConfusion h
      · have hb : b.type = "narrate" := Option.some.inj h
        rw [show (a :: b :: tl2).get? 1 = some b from rfl]
        dsimp only
        rw [if_neg (fun hne => hne hb)]
    · rw [if_neg hm] at h ⊢
      rw [show (a :: tl).get? 0 = some a from rfl]
      dsimp only
      rw [if_neg (fun hne => hne h)]

theorem ensureVisuals_id (evs : List Event) (n : ℤ)
    (h : 2 ≤ evs.countP (fun e => _is_visual_event e.type)) : ensureVisuals evs n = evs := by
  unfold ensureVisuals
  rw [if_neg (by omega)]

theorem ensureAnnotate_id (evs : List Event) (n : ℤ)
    (h : evs.any (fun e => e.type = "annotate") = true) : ensureAnnotate evs n = evs := by
  unfold ensureAnnotate
  rw [if_pos h]

theorem ensureCheckpoint_id (evs : List Event) (n : ℤ)
    (h : evs.any (fun e => e.type = "narrate" ∧
      e.payload.teaching_phase = some "checkpoint") = true) : ensureCheckpoint evs n = evs := by
  unfold ensureCheckpoint
  rw [if_pos h]

theorem ensurePause_id (evs : List Event) (n : ℤ)
    (h : evs.getLast?.map (fun e => e.type) = some "pause") : ensurePause evs n = evs := by
  unfold ensurePause
  cases hl : evs.getLast? with
  | none =>
    rw [hl] at h
    exact Option.noConfusion h
  | some x =>
    rw [hl] at h
    have hx : x.type = "pause" := Option.some.inj h
    dsimp only
    rw [if_neg (fun hne => hne hx)]

theorem repairNormalizePass_id (evs : List Event)
    (h : ∀ e ∈ evs, repairNormalizeEvent e = e) : repairNormalizePass evs = evs :=
  map_eq_self_of_forall evs repairNormalizeEvent h

theorem ensureNarrate_shape (evs : List Event) (n : ℤ) (t : String) :
    ensureNarrate evs n t = evs ∨
    ∃ k, ensureNarrate evs n t = insertAt k (synthNarrate n t) evs := by
  unfold ensureNarrate
  split
  · exact Or.inl rfl
  · exact Or.inr ⟨_, rfl⟩

theorem ensureLeadNarrate_shape (evs : List Event) (n : ℤ) (t : String) :
    ensureLeadNarrate evs n t = evs ∨
    ∃ k, ensureLeadNarrate evs n t = insertAt k (setupNarrate n t) evs := by
  unfold ensureLeadNarrate
  dsimp only
  cases hg : evs.get? (match evs.head? with
      | some e => if e.type = "step_marker" then 1 else 0
      | none => 0) with
  | none =>
    simp only [hg]
    all_goals first | exact Or.inl True.intro | exact Or.inl rfl
  | some e =>
    simp only [hg]
    split
    · exact Or.inr ⟨_, rfl⟩
    · exact Or.inl rfl

theorem ensureVisuals_shape (evs : List Event) (n : ℤ) :
    ensureVisuals evs n = evs ∨ ensureVisuals evs n = evs ++ [genericVisual n] := by
  unfold ensureVisuals
  split
  · exact Or.inr rfl
  · exact Or.inl rfl

theorem ensureAnnotate_shape (evs : List Event) (n : ℤ) :
    ensureAnnotate evs n = evs ∨ ∃ x, ensureAnnotate evs n = evs ++ [mkAnnotate n x] := by
  unfold ensureAnnotate
  split
  · exact Or.inl rfl
  · split
    · exact Or.inr ⟨_, rfl⟩
    · exact Or.inl rfl

theorem ensureCheckpoint_shape (evs : List Event) (n : ℤ) :
    ensureCheckpoint evs n = evs ∨
    ∃ k, ensureCheckpoint evs n = insertAt k (checkpointNarrate n) evs := by
  unfold ensureCheckpoint
  split
  · exact Or.inl rfl
  · exact Or.inr ⟨_, rfl⟩

theorem ensurePause_shape (evs : List Event) (n : ℤ) :
    ensurePause evs n = evs ∨ ensurePause evs n = evs ++ [mkPause n] := by
  unfold ensurePause
  split
  · split
    · exact Or.inr rfl
    · exact Or.inl rfl
  · exact Or.inr rfl

theorem any_append_left {α : Type} (p : α → Bool) (l tail : List α) (h : l.any p = true) :
    (l ++ tail).any p = true := by
  rw [List.any_append, h]
  rfl

theorem any_insertAt {α : Type} (p : α → Bool) (a : α) (l : List α) (k : ℕ)
    (h : l.any p = true) : (insertAt k a l).any p = true := by
  obtain ⟨x, hx, hpx⟩ := List.any_eq_true.mp h
  exact List.any_eq_true.mpr ⟨x, insertAt_subset a l k x hx, hpx⟩

theorem ensureNarrate_out (evs : List Event) (n : ℤ) (t : String) :
    (ensureNarrate evs n t).any (fun e => e.type = "narrate") = true := by
  unfold ensureNarrate
  split
  · next h => exact h
  · exact List.any_eq_true.mpr ⟨synthNarrate n t, mem_insertAt_self _ _ _, rfl⟩

theorem ensureCheckpoint_out (evs : List Event) (n : ℤ) :
    (ensureCheckpoint evs n).any (fun e => e.type = "narrate" ∧
      e.payload.teaching_phase = some "checkpoint") = true := by
  unfold ensureCheckpoint
  split
  · next h => exact h
  · exact List.any_eq_true.mpr ⟨checkpointNarrate n, mem_insertAt_self _ _ _, rfl⟩

theorem ensureAnnotate_out (evs : List Event) (n : ℤ)
    (hv : 1 ≤ evs.countP (fun e => _is_visual_event e.type)) :
    (ensureAnnotate evs n).any (fun e => e.type = "annotate") = true := by
  unfold ensureAnnotate
  split
  · next h => exact h
  · cases hf : evs.reverse.find? (fun e => _is_visual_event e.type) with
    | none =>
      have hall : ∀ x ∈ evs, ¬ (_is_visual_event x.type = true) := by
        intro x hx hvx
        exact absurd hvx (by
          simpa using List.find?_eq_none.mp hf x (List.mem_reverse.mpr hx))
      have hz : evs.countP (fun e => _is_visual_event e.type) = 0 :=
        List.countP_eq_zero.mpr (by
          intro x hx
          simpa using hall x hx)
      omega
    | some x =>
      exact List.any_eq_true.mpr ⟨mkAnnotate n x.id,
        List.mem_append.mpr (Or.inr (List.mem_cons_self _ _)), rfl⟩

theorem ensureVisuals_out (evs : List Event) (n : ℤ)
    (h1 : 1 ≤ evs.countP (fun e => _is_visual_event e.type)) :
    2 ≤ (ensureVisuals evs n).countP (fun e => _is_visual_event e.type) := by
  unfold ensureVisuals
  split
  · next hlt =>
    rw [List.countP_append]
    rw [show List.countP (fun e => _is_visual_event e.type) [genericVisual n] = 1 from rfl]
    omega
  · next hge => omega

theorem ensurePause_out (evs : List Event) (n : ℤ) :
    ((ensurePause evs n).getLast?.map (fun e => e.type)) = some "pause" := by
  unfold ensurePause
  cases hl : evs.getLast? with
  | none =>
    rw [List.getLast?_concat]
    rfl
  | some x =>
    dsimp only
    by_cases hx : x.type = "pause"
    · rw [if_neg (fun hne => hne hx), hl]
      rw [show Option.map (fun e => e.type) (some x) = some x.type from rfl, hx]
    · rw [if_pos hx, List.getLast?_concat]
      rfl

theorem LeadOk_append (l : List Event) (x : Event) (h : LeadOk l) : LeadOk (l ++ [x]) := by
  rcases l with _ | ⟨a, tl⟩
  · exact h.elim
  · show LeadOk (a :: (tl ++ [x]))
    unfold LeadOk at h ⊢
    rw [show (a :: tl).head? = some a from rfl] at h
    rw [show (a :: (tl ++ [x])).head? = some a from rfl]
    dsimp only at h ⊢
    by_cases hm : a.type = "step_marker"
    · rw [if_pos hm] at h ⊢
      rcases tl with _ | ⟨b, tl2⟩
      · exact Option.noConfusion h
      · exact h
    · rw [if_neg hm] at h ⊢
      exact h

theorem LeadOk_insertAt (l : List Event) (a : Event) (h : LeadOk l) (k : ℕ)
    (hk1 : 1 ≤ k)
    (hk2 : ∀ e0, l.head? = some e0 → e0.type = "step_marker" → 2 ≤ k) :
    LeadOk (insertAt k a l) := by
  rcases l with _ | ⟨b, tl⟩
  · exact h.elim
  · obtain ⟨k1, rfl⟩ : ∃ k1, k = k1 + 1 := ⟨k - 1, by omega⟩
    rw [show insertAt (k1 + 1) a (b :: tl) = b :: insertAt k1 a tl from rfl]
    unfold LeadOk at h ⊢
    rw [show (b :: tl).head? = some b from rfl] at h
    rw [show (b :: insertAt k1 a tl).head? = some b from rfl]
    dsimp only at h ⊢
    by_cases hm : b.type = "step_marker"
    · rw [if_pos hm] at h ⊢
      have hk2' := hk2 b rfl hm
      obtain ⟨k2, rfl⟩ : ∃ k2, k1 = k2 + 1 := ⟨k1 - 1, by omega⟩
      rcases tl with _ | ⟨c, tl2⟩
      · exact Option.noConfusion h
      · rw [show insertAt (k2 + 1) a (c :: tl2) = c :: insertAt k2 a tl2 from rfl]
        exact h
    · rw [if_neg hm] at h ⊢
      exact h

theorem findIdx?_ge {α : Type} (p : α → Bool) (l : List α) : ∀ i idx,
    l.findIdx? p i = some idx → i ≤ idx := by
  induction l with
  | nil =>
    intro i idx h
    exact absurd h (by simp [List.findIdx?])
  | cons x xs ih =>
    intro i idx h
    rw [List.findIdx?_cons] at h
    by_cases hp : p x = true
    · rw [if_pos hp] at h
      have := Option.some.inj h
      omega
    · rw [if_neg hp] at h
      have := ih (i + 1) idx h
      omega

theorem LeadOk_ensureLeadNarrate (evs : List Event) (n : ℤ) (t : String)
    (hna : evs.any (fun e => e.type = "narrate") = true) :
    LeadOk (ensureLeadNarrate evs n t) := by
  rcases evs with _ | ⟨a, tl⟩
  · simp at hna
  · unfold ensureLeadNarrate
    rw [show (a :: tl).head? = some a from rfl]
    dsimp only
    by_cases hm : a.type = "step_marker"
    · rw [if_pos hm]
      rcases tl with _ | ⟨b, tl2⟩
      · have ha : a.type = "narrate" := by simpa using hna
        rw [ha] at hm
        exact absurd hm (by decide)
      · rw [show ((a :: b :: tl2).get? 1) = some b from rfl]
        dsimp only
        by_cases hb : b.type = "narrate"
        · rw [if_neg (fun hne => hne hb)]
          unfold LeadOk
          rw [show ((a :: b :: tl2).head?) = some a from rfl]
          dsimp only
          rw [if_pos hm]
          rw [show ((a :: b :: tl2).get? 1) = some b from rfl]
          rw [show Option.map (fun x => x.type) (some b) = some b.type from rfl, hb]
        · rw [if_pos hb]
          rw [show insertAt 1 (setupNarrate n t) (a :: b :: tl2) =
            a :: setupNarrate n t :: b :: tl2 from rfl]
          unfold LeadOk
          rw [show ((a :: setupNarrate n t :: b :: tl2).head?) = some a from rfl]
          dsimp only
          rw [if_pos hm]
          rfl
    · rw [if_neg hm]
      rw [show ((a :: tl).get? 0) = some a from rfl]
      dsimp only
      by_cases hb : a.type = "narrate"
      · rw [if_neg (fun hne => hne hb)]
        unfold LeadOk
        rw [show ((a :: tl).head?) = some a from rfl]
        dsimp only
        rw [if_neg hm]
        exact hb
      · rw [if_pos hb]
        rw [show insertAt 0 (setupNarrate n t) (a :: tl) =
          setupNarrate n t :: a :: tl from rfl]
        unfold LeadOk
        rw [show ((setupNarrate n t :: a :: tl).head?) = some (setupNarrate n t) from rfl]
        dsimp only
        rw [if_neg (fun hc : (setupNarrate n t).type = "step_marker" =>
          absurd (show ("narrate" : String) = "step_marker" from hc) (by decide))]
        rfl

theorem LeadOk_ensureCheckpoint (l : List Event) (n : ℤ) (h : LeadOk l) :
    LeadOk (ensureCheckpoint l n) := by
  unfold ensureCheckpoint
  split
  · exact h
  · dsimp only
    refine LeadOk_insertAt l (checkpointNarrate n) h _ ?_ ?_
    · cases hf : l.findIdx? (fun e => e.type = "annotate") with
      | some idx =>
        simp only [hf]
        exact Nat.succ_le_succ (Nat.zero_le idx)
      | none =>
        simp only [hf]
        rcases l with _ | ⟨b, tl⟩
        · exact h.elim
        · simp
    · intro e0 he0 hm
      rcases l with _ | ⟨b, tl⟩
      · exact h.elim
      · have hb : b = e0 := Option.some.inj he0
        subst hb
        unfold LeadOk at h
        rw [show ((b :: tl).head?) = some b from rfl] at h
        dsimp only at h
        rw [if_pos hm] at h
        rcases tl with _ | ⟨c, tl2⟩
        · exact Option.noConfusion h
        · have hc : c.type = "narrate" := by
            rw [show ((b :: c :: tl2).get? 1) = some c from rfl] at h
            exact Option.some.inj h
          have hfi : (b :: c :: tl2).findIdx? (fun e => e.type = "annotate") =
              tl2.findIdx? (fun e => e.type = "annotate") 2 := by
            rw [List.findIdx?_cons, if_neg (by simp [hm]), List.findIdx?_cons,
              if_neg (by simp [hc])]
          rw [hfi]
          cases hfi2 : tl2.findIdx? (fun e => e.type = "annotate") 2 with
          | none =>
            simp only [hfi2]
            simp only [List.length_cons]
            exact Nat.le_add_left 2 tl2.length
          | some idx =>
            have h2i := findIdx?_ge _ tl2 2 idx hfi2
            simp only [hfi2]
            exact Nat.le_succ_of_le h2i

/-- The six ensure blocks of `_repair_step_events`, before the normalize
pass and pagination. -/
def repairEnsure (evs : List Event) (n : ℤ) (t : String) : List Event :=
  ensurePause (ensureCheckpoint (ensureAnnotate (ensureVisuals
    (ensureLeadNarrate (ensureNarrate evs n t) n t) n) n) n) n

theorem any_type_transport (l1 l2 : List Event)
    (h : l1.map (fun e => e.type) = l2.map (fun e => e.type)) (p : String → Bool) :
    l1.any (fun e => p e.type) = l2.any (fun e => p e.type) := by
  have h1 : ∀ l : List Event, l.any (fun e => p e.type) =
      (l.map (fun e => e.type)).any p := by
    intro l
    induction l with
    | nil => rfl
    | cons a tl ih => simp only [List.any_cons, List.map_cons, ih]
  rw [h1, h1, h]

theorem countP_type_transport (l1 l2 : List Event)
    (h : l1.map (fun e => e.type) = l2.map (fun e => e.type)) (p : String → Bool) :
    l1.countP (fun e => p e.type) = l2.countP (fun e => p e.type) := by
  have h1 : ∀ l : List Event, l.countP (fun e => p e.type) =
      (l.map (fun e => e.type)).countP p := by
    intro l
    induction l with
    | nil => rfl
    | cons a tl ih => simp only [List.countP_cons, List.map_cons, ih]
  rw [h1, h1, h]

theorem getLast_type_transport (l1 l2 : List Event)
    (h : l1.map (fun e => e.type) = l2.map (fun e => e.type)) :
    l1.getLast?.map (fun e => e.type) = l2.getLast?.map (fun e => e.type) := by
  rw [← List.getLast?_map, ← List.getLast?_map, h]

theorem LeadOk_transport (l1 l2 : List Event)
    (h : l1.map (fun e => e.type) = l2.map (fun e => e.type)) (hl : LeadOk l2) :
    LeadOk l1 := by
  rcases l1 with _ | ⟨a, t1⟩ <;> rcases l2 with _ | ⟨b, t2⟩
  · exact hl.elim
  · exact absurd h (by simp)
  · exact absurd h (by simp)
  · simp only [List.map_cons] at h
    injection h with h1 h2
    unfold LeadOk at hl ⊢
    rw [show ((b :: t2).head?) = some b from rfl] at hl
    rw [show ((a :: t1).head?) = some a from rfl]
    dsimp only at hl ⊢
    by_cases hm : a.type = "step_marker"
    · rw [if_pos hm]
      rw [if_pos (h1 ▸ hm)] at hl
      rw [show ((a :: t1).get? 1) = t1.get? 0 from rfl]
      rw [show ((b :: t2).get? 1) = t2.get? 0 from rfl] at hl
      have hg : (t1.get? 0).map (fun e => e.type) = (t2.get? 0).map (fun e => e.type) := by
        rw [← List.get?_map, ← List.get?_map, h2]
      rw [hg]
      exact hl
    · rw [if_neg hm]
      rw [if_neg (fun hc => hm (h1.symm ▸ hc))] at hl
      rw [h1]
      exact hl

/-- The combined facts the six ensure blocks establish on any input with
at least one visual event. -/
theorem repairEnsure_facts (evs : List Event) (n : ℤ) (t : String)
    (hvc : 1 ≤ evs.countP (fun e => _is_visual_event e.type)) :
    (repairEnsure evs n t).any (fun e => e.type = "narrate") = true ∧
    LeadOk (repairEnsure evs n t) ∧
    2 ≤ (repairEnsure evs n t).countP (fun e => _is_visual_event e.type) ∧
    (repairEnsure evs n t).any (fun e => e.type = "annotate") = true ∧
    (repairEnsure evs n t).any (fun e => e.type = "narrate" ∧
      e.payload.teaching_phase = some "checkpoint") = true ∧
    ((repairEnsure evs n t).getLast?.map (fun e => e.type)) = some "pause" := by
  have hN1 := ensureNarrate_out evs n t
  have hvc1 : 1 ≤ (ensureNarrate evs n t).countP (fun e => _is_visual_event e.type) := by
    rcases ensureNarrate_shape evs n t with heq | ⟨k, heq⟩ <;> rw [heq]
    · exact hvc
    · rw [insertAt_countP]
      rw [show (if _is_visual_event (synthNarrate n t).type then 1 else 0) = 0 from rfl]
      omega
  have hL2 := LeadOk_ensureLeadNarrate (ensureNarrate evs n t) n t hN1
  have hN2 : (ensureLeadNarrate (ensureNarrate evs n t) n t).any
      (fun e => e.type = "narrate") = true := by
    rcases ensureLeadNarrate_shape (ensureNarrate evs n t) n t with heq | ⟨k, heq⟩ <;> rw [heq]
    · exact hN1
    · exact any_insertAt _ _ _ _ hN1
  have hvc2 : 1 ≤ (ensureLeadNarrate (ensureNarrate evs n t) n t).countP
      (fun e => _is_visual_event e.type) := by
    rcases ensureLeadNarrate_shape (ensureNarrate evs n t) n t with heq | ⟨k, heq⟩ <;> rw [heq]
    · exact hvc1
    · rw [insertAt_countP]
      rw [show (if _is_visual_event (setupNarrate n t).type then 1 else 0) = 0 from rfl]
      omega
  have hvc3 := ensureVisuals_out _ n hvc2
  have hN3 : (ensureVisuals (ensureLeadNarrate (ensureNarrate evs n t) n t) n).any
      (fun e => e.type = "narrate") = true := by
    rcases ensureVisuals_shape (ensureLeadNarrate (ensureNarrate evs n t) n t) n
      with heq | heq <;> rw [heq]
    · exact hN2
    · exact any_append_left _ _ _ hN2
  have hL3 : LeadOk (ensureVisuals (ensureLeadNarrate (ensureNarrate evs n t) n t) n) := by
    rcases ensureVisuals_shape (ensureLeadNarrate (ensureNarrate evs n t) n t) n
      with heq | heq <;> rw [heq]
    · exact hL2
    · exact LeadOk_append _ _ hL2
  have hA4 := ensureAnnotate_out _ n (by omega : 1 ≤ (ensureVisuals
    (ensureLeadNarrate (ensureNarrate evs n t) n t) n).countP
      (fun e => _is_visual_event e.type))
  have hN4 : (ensureAnnotate (ensureVisuals (ensureLeadNarrate (ensureNarrate evs n t) n t)
      n) n).any (fun e => e.type = "narrate") = true := by
    rcases ensureAnnotate_shape (ensureVisuals (ensureLeadNarrate (ensureNarrate evs n t)
        n t) n) n with heq | ⟨x, heq⟩ <;> rw [heq]
    · exact hN3
    · exact any_append_left _ _ _ hN3
  have hL4 : LeadOk (ensureAnnotate (ensureVisuals (ensureLeadNarrate
      (ensureNarrate evs n t) n t) n) n) := by
    rcases ensureAnnotate_shape (ensureVisuals (ensureLeadNarrate (ensureNarrate evs n t)
        n t) n) n with heq | ⟨x, heq⟩ <;> rw [heq]
    · exact hL3
    · exact LeadOk_append _ _ hL3
  have hvc4 : 2 ≤ (ensureAnnotate (ensureVisuals (ensureLeadNarrate
      (ensureNarrate evs n t) n t) n) n).countP (fun e => _is_visual_event e.type) := by
    rcases ensureAnnotate_shape (ensureVisuals (ensureLeadNarrate (ensureNarrate evs n t)
        n t) n) n with heq | ⟨x, heq⟩ <;> rw [heq]
    · exact hvc3
    · rw [List.countP_append]
      rw [show List.countP (fun e => _is_visual_event e.type) [mkAnnotate n x] = 0 from rfl]
      omega
  have hC5 := ensureCheckpoint_out (ensureAnnotate (ensureVisuals (ensureLeadNarrate
    (ensureNarrate evs n t) n t) n) n) n
  have hN5 : (ensureCheckpoint (ensureAnnotate (ensureVisuals (ensureLeadNarrate
      (ensureNarrate evs n t) n t) n) n) n).any (fun e => e.type = "narrate") = true := by
    rcases ensureCheckpoint_shape (ensureAnnotate (ensureVisuals (ensureLeadNarrate
        (ensureNarrate evs n t) n t) n) n) n with heq | ⟨k, heq⟩ <;> rw [heq]
    · exact hN4
    · exact any_insertAt _ _ _ _ hN4
  have hL5 := LeadOk_ensureCheckpoint (ensureAnnotate (ensureVisuals (ensureLeadNarrate
    (ensureNarrate evs n t) n t) n) n) n hL4
  have hA5 : (ensureCheckpoint (ensureAnnotate (ensureVisuals (ensureLeadNarrate
      (ensureNarrate evs n t) n t) n) n) n).any (fun e => e.type = "annotate") = true := by
    rcases ensureCheckpoint_shape (ensureAnnotate (ensureVisuals (ensureLeadNarrate
        (ensureNarrate evs n t) n t) n) n) n with heq | ⟨k, heq⟩ <;> rw [heq]
    · exact hA4
    · exact any_insertAt _ _ _ _ hA4
  have hvc5 : 2 ≤ (ensureCheckpoint (ensureAnnotate (ensureVisuals (ensureLeadNarrate
      (ensureNarrate evs n t) n t) n) n) n).countP (fun e => _is_visual_event e.type) := by
    rcases ensureCheckpoint_shape (ensureAnnotate (ensureVisuals (ensureLeadNarrate
        (ensureNarrate evs n t) n t) n) n) n with heq | ⟨k, heq⟩ <;> rw [heq]
    · exact hvc4
    · rw [insertAt_countP]
      rw [show (if _is_visual_event (checkpointNarrate n).type then 1 else 0) = 0 from rfl]
      omega
  have hP6 := ensurePause_out (ensureCheckpoint (ensureAnnotate (ensureVisuals
    (ensureLeadNarrate (ensureNarrate evs n t) n t) n) n) n) n
  unfold repairEnsure
  rcases ensurePause_shape (ensureCheckpoint (ensureAnnotate (ensureVisuals
      (ensureLeadNarrate (ensureNarrate evs n t) n t) n) n) n) n with heq | heq
  · rw [heq] at hP6 ⊢
    exact ⟨hN5, hL5, hvc5, hA5, hC5, hP6⟩
  · rw [heq] at hP6 ⊢
    refine ⟨any_append_left _ _ _ hN5, LeadOk_append _ _ hL5, ?_, any_append_left _ _ _ hA5,
      any_append_left _ _ _ hC5, hP6⟩
    rw [List.countP_append]
    omega

theorem clamp_teaching_phase (p : Payload) :
    (_clamp_payload_coordinates p).teaching_phase = p.teaching_phase := rfl

theorem normPass_type (evs : List Event) :
    (repairNormalizePass evs).map (fun e => e.type) = evs.map (fun e => e.type) := by
  unfold repairNormalizePass
  induction evs with
  | nil => rfl
  | cons a tl ih => simp only [List.map_cons, ih, repairNormalizeEvent_type]

/-- The per-event repair normalization keeps a checkpoint narration's
teaching phase. -/
theorem repairNormalizeEvent_checkpoint (e : Event) (h1 : e.type = "narrate")
    (h2 : e.payload.teaching_phase = some "checkpoint") :
    (repairNormalizeEvent e).payload.teaching_phase = some "checkpoint" := by
  unfold repairNormalizeEvent
  dsimp only
  rw [h1]
  rw [if_neg (show ¬ _is_visual_event "narrate" = true from by decide), if_pos rfl]
  rw [classify_id _ (by rw [h2]; decide), clamp_teaching_phase, h2]

theorem repair_as_ensure (evs : List Event) (n : ℤ) (t : String) :
    _repair_step_events evs n t =
      _apply_preplanned_board_metadata (repairNormalizePass (repairEnsure evs n t)) := rfl

set_option maxHeartbeats 1000000 in
/-- C4: step repair is idempotent on any input with at least one visual
event — the second pass finds every existence check already satisfied, a
second normalization is a fixed point on clamped classified payloads, and
a second pagination over stable stamped events changes nothing. -/
theorem C4_repair_idempotent (evs : List Event) (n : ℤ) (t : String)
    (h : 1 ≤ visualCount evs) :
    _repair_step_events (_repair_step_events evs n t) n t = _repair_step_events evs n t := by
  obtain ⟨hEn, hEl, hEv, hEa, hEc, hEp⟩ := repairEnsure_facts evs n t h
  have hZfacts := normPass_facts (repairEnsure evs n t)
  obtain ⟨htypes, hstable, hio, hoi, hro⟩ :=
    applyGo_out (repairNormalizePass (repairEnsure evs n t)) 0 none 0 (fun _ => 8) (fun _ => 0)
      (fun e he => (hZfacts e he).1) (fun e he => (hZfacts e he).2.1)
      (le_refl 0) (by norm_num) (fun l => le_refl 0) (Or.inl rfl)
  have hYty : (_repair_step_events evs n t).map (fun e => e.type) =
      (repairEnsure evs n t).map (fun e => e.type) := by
    rw [repair_as_ensure]
    exact htypes.trans (normPass_type (repairEnsure evs n t))
  have hYn : (_repair_step_events evs n t).any (fun e => e.type = "narrate") = true := by
    rw [any_type_transport _ _ hYty (fun s => s = "narrate")]
    exact hEn
  have hYl : LeadOk (_repair_step_events evs n t) :=
    LeadOk_transport _ _ hYty hEl
  have hYv : 2 ≤ (_repair_step_events evs n t).countP (fun e => _is_visual_event e.type) := by
    rw [countP_type_transport _ _ hYty _is_visual_event]
    exact hEv
  have hYa : (_repair_step_events evs n t).any (fun e => e.type = "annotate") = true := by
    rw [any_type_transport _ _ hYty (fun s => s = "annotate")]
    exact hEa
  have hYp : (_repair_step_events evs n t).getLast?.map (fun e => e.type) = some "pause" := by
    rw [getLast_type_transport _ _ hYty]
    exact hEp
  have hYc : (_repair_step_events evs n t).any (fun e => e.type = "narrate" ∧
      e.payload.teaching_phase = some "checkpoint") = true := by
    obtain ⟨e, he, hpe⟩ := List.any_eq_true.mp hEc
    obtain ⟨h1, h2⟩ := of_decide_eq_true hpe
    have hmemZ : repairNormalizeEvent e ∈ repairNormalizePass (repairEnsure evs n t) :=
      List.mem_map_of_mem repairNormalizeEvent he
    have ht' : (repairNormalizeEvent e).type = "narrate" :=
      (repairNormalizeEvent_type e).trans h1
    have hp' := repairNormalizeEvent_checkpoint e h1 h2
    have hnv : _is_visual_event (repairNormalizeEvent e).type = false := by
      rw [ht']
      rfl
    have hnc : ¬ (repairNormalizeEvent e).type = "clear_section" := by
      rw [ht']
      decide
    have hmemY : repairNormalizeEvent e ∈ _repair_step_events evs n t := by
      rw [repair_as_ensure]
      exact hio (repairNormalizeEvent e) hmemZ hnv hnc
    exact List.any_eq_true.mpr ⟨repairNormalizeEvent e, hmemY, decide_eq_true ⟨ht', hp'⟩⟩
  have hnorm_id : ∀ e ∈ _repair_step_events evs n t, repairNormalizeEvent e = e := by
    intro e' he'
    have he'' : e' ∈ _apply_preplanned_board_metadata
        (repairNormalizePass (repairEnsure evs n t)) := by
      rw [← repair_as_ensure]
      exact he'
    obtain ⟨hcf, hst⟩ := hstable e' he''
    refine repairNormalizeEvent_id e' hcf (fun hv => (hst.2 hv).1) ?_
    intro hn
    have hnv : _is_visual_event e'.type = false := by
      rw [hn]
      rfl
    have hnc : ¬ e'.type = "clear_section" := by
      rw [hn]
      decide
    exact (hZfacts e' (hoi e' he'' hnv hnc)).2.2 hn
  have hstY : ∀ e ∈ _repair_step_events evs n t, StableEvent e := by
    intro e' he'
    have he'' : e' ∈ _apply_preplanned_board_metadata
        (repairNormalizePass (repairEnsure evs n t)) := by
      rw [← repair_as_ensure]
      exact he'
    exact (hstable e' he'').2
  have hroY : RoMatch 0 (_repair_step_events evs n t) := by
    rw [repair_as_ensure]
    exact hro
  rw [repair_as_ensure (_repair_step_events evs n t) n t]
  have hens : repairEnsure (_repair_step_events evs n t) n t = _repair_step_events evs n t := by
    unfold repairEnsure
    rw [ensureNarrate_id _ n t hYn, ensureLeadNarrate_id _ n t hYl,
      ensureVisuals_id _ n hYv, ensureAnnotate_id _ n hYa,
      ensureCheckpoint_id _ n hYc, ensurePause_id _ n hYp]
  rw [hens, repairNormalizePass_id _ hnorm_id]
  exact applyGo_stable (_repair_step_events evs n t) 0 none 0 (fun _ => 8) (fun _ => 0)
    hstY hroY

/-- C4's witness: a one-visual input satisfies the precondition, and the
repair of its repair is the repair. -/
theorem C4_repair_idempotent_witness :
    1 ≤ visualCount c4WitEvents ∧
    _repair_step_events (_repair_step_events c4WitEvents 1 "Solve") 1 "Solve" =
      _repair_step_events c4WitEvents 1 "Solve" :=
  ⟨by decide, C4_repair_idempotent c4WitEvents 1 "Solve" (by decide)⟩

end Doceo
